import Mathlib

/-!
# Orientation kernel: vectors, quaternions, 3x3 matrices and rigid transforms

A shallow embedding of `SrQuaternion.h`, `SrMatrix33.h` and `SrMatrix34.h`.

* The code is written once, over a scalar type `F` with the operations the
  C++ `float` code uses, and read in two ways. Statements about exact
  arithmetic take `F` to be an arbitrary linear ordered field, or the real
  numbers where `sqrt`, `sin` or `atan2` are needed. Statements about the
  arithmetic the code runs take `F` to be `Binary32`, where every operation
  rounds its exact result to the nearest binary32 value.
* A method that writes through an output parameter becomes a function
  returning the value written (together with the returned flag, if any).
* The build modelled is the default one, `TRANSPOSED_MAT33` undefined, so
  `(*this)(r, c)` is `data.m[r][c]`, the field `_(r+1)(c+1)`.
-/

/-! ## SrVector3 -/

/-- Modelled from the spec: `SrVector3` (SrVector3.h is not part of the
embedded sources). A three component vector with the standard algebra the
other headers call: `zero`, `isZero`, `+`, `-`, scalar `*`. -/
@[ext] structure SrVector3 (F : Type) where
  x : F
  y : F
  z : F
deriving DecidableEq

namespace SrVector3

variable {F : Type} [Zero F] [One F] [NatCast F] [Add F] [Sub F] [Mul F] [Div F] [Neg F]
  [LT F] [LE F] [DecidableEq F] [∀ a b : F, Decidable (a < b)] [∀ a b : F, Decidable (a ≤ b)]

/-- Modelled from the spec: `SrVector3::zero()`, all three components 0. -/
def zero : SrVector3 F := ⟨0, 0, 0⟩

/-- Modelled from the spec: `SrVector3::isZero()`, exact comparison with 0. -/
def isZero (v : SrVector3 F) : Bool :=
  decide (v.x = 0) && decide (v.y = 0) && decide (v.z = 0)

/-- Modelled from the spec: `SrVector3::operator+`. -/
def add (a b : SrVector3 F) : SrVector3 F := ⟨a.x + b.x, a.y + b.y, a.z + b.z⟩

/-- Modelled from the spec: `SrVector3::operator-` (binary). -/
def sub (a b : SrVector3 F) : SrVector3 F := ⟨a.x - b.x, a.y - b.y, a.z - b.z⟩

/-- Modelled from the spec: `SrVector3::operator*(float)`. -/
def mulScalar (a : SrVector3 F) (f : F) : SrVector3 F := ⟨a.x * f, a.y * f, a.z * f⟩

end SrVector3

/-! ## SrMath -/

/-- Modelled from the spec: the `SrMath` helpers (SrMath.h is not part of
the embedded sources) that the quaternion and matrix code calls, taken as a
parameter of the code that uses them. -/
structure SrMath (F : Type) where
  /-- The function `SrMath::sqrt`. -/
  sqrt : F → F
  /-- The function `SrMath::sin`. -/
  sin : F → F
  /-- The function `SrMath::cos`. -/
  cos : F → F
  /-- The function `SrMath::acos`. -/
  acos : F → F
  /-- The function `SrMath::atan2`, called as `atan2 y x`. -/
  atan2 : F → F → F
  /-- The function `SrMath::degToRad`. -/
  degToRad : F → F
  /-- The function `SrMath::radToDeg`. -/
  radToDeg : F → F
  /-- The function `SrMath::sinCos(a, s, c)`: the pair `(s, c)` it stores. -/
  sinCos : F → F × F

/-- Modelled from the spec: the exact real instance of the `SrMath`
helpers; `atan2 y x` is the argument of the complex number `x + y i`,
`degToRad` multiplies by `pi / 180`, `radToDeg` by `180 / pi`, and `sinCos`
stores the sine and the cosine. -/
noncomputable def SrMath.real : SrMath ℝ where
  sqrt := Real.sqrt
  sin := Real.sin
  cos := Real.cos
  acos := Real.arccos
  atan2 := fun y x => Complex.arg ⟨x, y⟩
  degToRad := fun a => a * (Real.pi / 180)
  radToDeg := fun a => a * (180 / Real.pi)
  sinCos := fun a => (Real.sin a, Real.cos a)

/-! ## SrQuaternion -/

/-- The class `SrQuaternion`: `float x,y,z,w;`. -/
@[ext] structure SrQuaternion (F : Type) where
  x : F
  y : F
  z : F
  w : F
deriving DecidableEq

namespace SrQuaternion

variable {F : Type} [Zero F] [One F] [NatCast F] [Add F] [Sub F] [Mul F] [Div F] [Neg F]
  [LT F] [LE F] [DecidableEq F] [∀ a b : F, Decidable (a < b)] [∀ a b : F, Decidable (a ≤ b)]

/-- The method `SrQuaternion::operator-() const`. -/
def neg (q : SrQuaternion F) : SrQuaternion F := ⟨-q.x, -q.y, -q.z, -q.w⟩

/-- The method `SrQuaternion::magnitudeSquared`. -/
def magnitudeSquared (q : SrQuaternion F) : F :=
  q.x * q.x + q.y * q.y + q.z * q.z + q.w * q.w

/-- The method `SrQuaternion::dot`. -/
def dot (q v : SrQuaternion F) : F :=
  q.x * v.x + q.y * v.y + q.z * v.z + q.w * v.w

/-- The constant `quatEpsilon` of `SrQuaternion::slerp`, `1.0e-8`. -/
def quatEpsilon : F := 1 / 100000000

/-- The method `SrQuaternion::slerp(t, left, right)` run on an output object
distinct from `right`: the value of `*this` at exit. -/
def slerp (m : SrMath F) (t : F) (left right : SrQuaternion F) : SrQuaternion F :=
  let this := left
  let cosine :=
    this.x * right.x + this.y * right.y + this.z * right.z + this.w * right.w
  let sign : F := if cosine < 0 then -1 else 1
  let cosine := if cosine < 0 then -cosine else cosine
  let Sin := 1 - cosine * cosine
  if Sin ≥ quatEpsilon * quatEpsilon then
    let Sin := m.sqrt Sin
    let angle := m.atan2 Sin cosine
    let i_sin_angle := 1 / Sin
    let lower_weight := m.sin (angle * (1 - t)) * i_sin_angle
    let upper_weight := m.sin (angle * t) * i_sin_angle * sign
    { w := this.w * lower_weight + right.w * upper_weight
      x := this.x * lower_weight + right.x * upper_weight
      y := this.y * lower_weight + right.y * upper_weight
      z := this.z * lower_weight + right.z * upper_weight }
  else
    this

/-- The method `SrQuaternion::slerp(t, left, right)` executed statement by
statement on a store of quaternion objects: `self`, `left` and `right` are
the addresses of `*this`, `left` and `right`, which may coincide. The
result is the store at exit. -/
def slerpAt (m : SrMath F) (t : F) (self left right : Nat)
    (σ : Nat → SrQuaternion F) : Nat → SrQuaternion F :=
  let σ := Function.update σ self (σ left)
  let cosine :=
    (σ self).x * (σ right).x + (σ self).y * (σ right).y
      + (σ self).z * (σ right).z + (σ self).w * (σ right).w
  let sign : F := if cosine < 0 then -1 else 1
  let cosine := if cosine < 0 then -cosine else cosine
  let Sin := 1 - cosine * cosine
  if Sin ≥ quatEpsilon * quatEpsilon then
    let Sin := m.sqrt Sin
    let angle := m.atan2 Sin cosine
    let i_sin_angle := 1 / Sin
    let lower_weight := m.sin (angle * (1 - t)) * i_sin_angle
    let upper_weight := m.sin (angle * t) * i_sin_angle * sign
    let σ := Function.update σ self
      { σ self with w := (σ self).w * lower_weight + (σ right).w * upper_weight }
    let σ := Function.update σ self
      { σ self with x := (σ self).x * lower_weight + (σ right).x * upper_weight }
    let σ := Function.update σ self
      { σ self with y := (σ self).y * lower_weight + (σ right).y * upper_weight }
    let σ := Function.update σ self
      { σ self with z := (σ self).z * lower_weight + (σ right).z * upper_weight }
    σ
  else
    σ

end SrQuaternion

/-! ## SrMatrix33 -/

/-- The class `SrMatrix33`: the nine fields of `Mat33DataType::S`. -/
@[ext] structure SrMatrix33 (F : Type) where
  _11 : F
  _12 : F
  _13 : F
  _21 : F
  _22 : F
  _23 : F
  _31 : F
  _32 : F
  _33 : F
deriving DecidableEq

namespace SrMatrix33

variable {F : Type} [Zero F] [One F] [NatCast F] [Add F] [Sub F] [Mul F] [Div F] [Neg F]
  [LT F] [LE F] [DecidableEq F] [∀ a b : F, Decidable (a < b)] [∀ a b : F, Decidable (a ≤ b)]

/-- The accessor `SrMatrix33::operator()(row, col)`, `data.m[row][col]`. -/
def elem (M : SrMatrix33 F) (row col : Fin 3) : F :=
  match row, col with
  | 0, 0 => M._11
  | 0, 1 => M._12
  | 0, 2 => M._13
  | 1, 0 => M._21
  | 1, 1 => M._22
  | 1, 2 => M._23
  | 2, 0 => M._31
  | 2, 1 => M._32
  | 2, 2 => M._33

/-- The method `SrMatrix33::id`. -/
def id : SrMatrix33 F := ⟨1, 0, 0, 0, 1, 0, 0, 0, 1⟩

/-- The method `SrMatrix33::zero`. -/
def zero : SrMatrix33 F := ⟨0, 0, 0, 0, 0, 0, 0, 0, 0⟩

/-- The method `SrMatrix33::isIdentity`. -/
def isIdentity (M : SrMatrix33 F) : Bool :=
  if M._11 ≠ 1 then false
  else if M._12 ≠ 0 then false
  else if M._13 ≠ 0 then false
  else if M._21 ≠ 0 then false
  else if M._22 ≠ 1 then false
  else if M._23 ≠ 0 then false
  else if M._31 ≠ 0 then false
  else if M._32 ≠ 0 then false
  else if M._33 ≠ 1 then false
  else true

/-- The method `SrMatrix33::setTransposed(other)` on an object other than
`other` (the copying branch): the value of `*this` at exit. -/
def setTransposed (other : SrMatrix33 F) : SrMatrix33 F :=
  { _11 := other._11, _12 := other._21, _13 := other._31
    _21 := other._12, _22 := other._22, _23 := other._32
    _31 := other._13, _32 := other._23, _33 := other._33 }

/-- The method `SrMatrix33::multiply(src, dst)`, matrix times vector. -/
def multiplyVec (M : SrMatrix33 F) (src : SrVector3 F) : SrVector3 F :=
  let x := M._11 * src.x + M._12 * src.y + M._13 * src.z
  let y := M._21 * src.x + M._22 * src.y + M._23 * src.z
  let z := M._31 * src.x + M._32 * src.y + M._33 * src.z
  ⟨x, y, z⟩

/-- The method `SrMatrix33::multiply(left, right)`, matrix times matrix. -/
def multiply (left right : SrMatrix33 F) : SrMatrix33 F :=
  let a := left._11 * right._11 + left._12 * right._21 + left._13 * right._31
  let b := left._11 * right._12 + left._12 * right._22 + left._13 * right._32
  let c := left._11 * right._13 + left._12 * right._23 + left._13 * right._33
  let d := left._21 * right._11 + left._22 * right._21 + left._23 * right._31
  let e := left._21 * right._12 + left._22 * right._22 + left._23 * right._32
  let f := left._21 * right._13 + left._22 * right._23 + left._23 * right._33
  let g := left._31 * right._11 + left._32 * right._21 + left._33 * right._31
  let h := left._31 * right._12 + left._32 * right._22 + left._33 * right._32
  let i := left._31 * right._13 + left._32 * right._23 + left._33 * right._33
  { _11 := a, _12 := b, _13 := c
    _21 := d, _22 := e, _23 := f
    _31 := g, _32 := h, _33 := i }

/-- The method `SrMatrix33::operator*(const SrVector3&)`. -/
def mulVec (M : SrMatrix33 F) (src : SrVector3 F) : SrVector3 F :=
  M.multiplyVec src

/-- The method `SrMatrix33::determinant`. -/
def determinant (M : SrMatrix33 F) : F :=
  M._11 * M._22 * M._33 + M._12 * M._23 * M._31 + M._13 * M._21 * M._32
    - M._13 * M._22 * M._31 - M._12 * M._21 * M._33 - M._11 * M._23 * M._32

/-- The local `d` of `SrMatrix33::getInverse` at the singularity test: the
determinant recomputed from the cofactors `b00`, `b01`, `b02`. -/
def getInverseDet (M : SrMatrix33 F) : F :=
  let b00 := M._22 * M._33 - M._23 * M._32
  let b01 := M._13 * M._32 - M._12 * M._33
  let b02 := M._12 * M._23 - M._13 * M._22
  b00 * M._11 + b01 * M._21 + b02 * M._31

/-- The method `SrMatrix33::getInverse(dest)`: the returned flag and the
value written to `dest`. -/
def getInverse (M : SrMatrix33 F) : Bool × SrMatrix33 F :=
  let b00 := M._22 * M._33 - M._23 * M._32
  let b01 := M._13 * M._32 - M._12 * M._33
  let b02 := M._12 * M._23 - M._13 * M._22
  let b10 := M._23 * M._31 - M._21 * M._33
  let b11 := M._11 * M._33 - M._13 * M._31
  let b12 := M._13 * M._21 - M._11 * M._23
  let b20 := M._21 * M._32 - M._22 * M._31
  let b21 := M._12 * M._31 - M._11 * M._32
  let b22 := M._11 * M._22 - M._12 * M._21
  let d := b00 * M._11 + b01 * M._21 + b02 * M._31
  if d = 0 then
    (false, id)
  else
    let d := 1 / d
    (true,
      { _11 := b00 * d, _12 := b01 * d, _13 := b02 * d
        _21 := b10 * d, _22 := b11 * d, _23 := b12 * d
        _31 := b20 * d, _32 := b21 * d, _33 := b22 * d })

/-- The method `SrMatrix33::fromQuat`. -/
def fromQuat (q : SrQuaternion F) : SrMatrix33 F :=
  let w := q.w
  let x := q.x
  let y := q.y
  let z := q.z
  { _11 := 1 - y * y * 2 - z * z * 2
    _12 := x * y * 2 - w * z * 2
    _13 := x * z * 2 + w * y * 2
    _21 := x * y * 2 + w * z * 2
    _22 := 1 - x * x * 2 - z * z * 2
    _23 := y * z * 2 - w * x * 2
    _31 := x * z * 2 - w * y * 2
    _32 := y * z * 2 + w * x * 2
    _33 := 1 - x * x * 2 - y * y * 2 }

/-- The branch index `i` of `SrMatrix33::toQuat` when the trace is
negative. -/
def toQuatIndex (M : SrMatrix33 F) : Fin 3 :=
  let i : Fin 3 := 0
  let i : Fin 3 := if M._22 > M._11 then 1 else i
  let i : Fin 3 := if M._33 > M.elem i i then 2 else i
  i

/-- The method `SrMatrix33::toQuat(q)`: the value written to `q`. -/
def toQuat (m : SrMath F) (M : SrMatrix33 F) : SrQuaternion F :=
  let tr := M._11 + M._22 + M._33
  if tr ≥ 0 then
    let s := m.sqrt (tr + 1)
    let qw := (1 / 2) * s
    let s := (1 / 2) / s
    { w := qw
      x := (M.elem 2 1 - M.elem 1 2) * s
      y := (M.elem 0 2 - M.elem 2 0) * s
      z := (M.elem 1 0 - M.elem 0 1) * s }
  else
    match M.toQuatIndex with
    | 0 =>
      let s := m.sqrt ((M._11 - (M._22 + M._33)) + 1)
      let qx := (1 / 2) * s
      let s := (1 / 2) / s
      { x := qx
        y := (M.elem 0 1 + M.elem 1 0) * s
        z := (M.elem 2 0 + M.elem 0 2) * s
        w := (M.elem 2 1 - M.elem 1 2) * s }
    | 1 =>
      let s := m.sqrt ((M._22 - (M._33 + M._11)) + 1)
      let qy := (1 / 2) * s
      let s := (1 / 2) / s
      { y := qy
        z := (M.elem 1 2 + M.elem 2 1) * s
        x := (M.elem 0 1 + M.elem 1 0) * s
        w := (M.elem 0 2 - M.elem 2 0) * s }
    | 2 =>
      let s := m.sqrt ((M._33 - (M._11 + M._22)) + 1)
      let qz := (1 / 2) * s
      let s := (1 / 2) / s
      { z := qz
        x := (M.elem 2 0 + M.elem 0 2) * s
        y := (M.elem 1 2 + M.elem 2 1) * s
        w := (M.elem 1 0 - M.elem 0 1) * s }

end SrMatrix33

/-! ## SrMatrix34 -/

/-- The class `SrMatrix34`: `[ M t ]`. -/
@[ext] structure SrMatrix34 (F : Type) where
  M : SrMatrix33 F
  t : SrVector3 F
deriving DecidableEq

namespace SrMatrix34

variable {F : Type} [Zero F] [One F] [NatCast F] [Add F] [Sub F] [Mul F] [Div F] [Neg F]
  [LT F] [LE F] [DecidableEq F] [∀ a b : F, Decidable (a < b)] [∀ a b : F, Decidable (a ≤ b)]

/-- The method `SrMatrix34::id`. -/
def id : SrMatrix34 F := ⟨SrMatrix33.id, SrVector3.zero⟩

/-- The method `SrMatrix34::isIdentity`. -/
def isIdentity (T : SrMatrix34 F) : Bool :=
  if !T.M.isIdentity then false
  else if !T.t.isZero then false
  else true

/-- The method `SrMatrix34::getInverse(dest)`: the returned flag and the
value written to `dest`. -/
def getInverse (T : SrMatrix34 F) : Bool × SrMatrix34 F :=
  let r := T.M.getInverse
  let status := r.1
  let destM := r.2
  let destT := destM.multiplyVec (T.t.mulScalar (-1))
  (status, ⟨destM, destT⟩)

/-- The method `SrMatrix34::getInverseRT(dest)`: the returned flag and the
value written to `dest`. -/
def getInverseRT (T : SrMatrix34 F) : Bool × SrMatrix34 F :=
  let destM := SrMatrix33.setTransposed T.M
  let destT := destM.multiplyVec (T.t.mulScalar (-1))
  (true, ⟨destM, destT⟩)

/-- The method `SrMatrix34::multiply(left, right)`: the value of `*this` at
exit. -/
def multiply (left right : SrMatrix34 F) : SrMatrix34 F :=
  let t := (left.M.mulVec right.t).add left.t
  let M := SrMatrix33.multiply left.M right.M
  ⟨M, t⟩

end SrMatrix34

/-! ## Further SrVector3 and SrQuaternion operations -/

namespace SrVector3

variable {F : Type} [Zero F] [One F] [NatCast F] [Add F] [Sub F] [Mul F] [Div F] [Neg F]
  [LT F] [LE F] [DecidableEq F] [∀ a b : F, Decidable (a < b)] [∀ a b : F, Decidable (a ≤ b)]

/-- Modelled from the spec: `SrVector3::operator|`, the dot product. -/
def dot (a b : SrVector3 F) : F := a.x * b.x + a.y * b.y + a.z * b.z

/-- Modelled from the spec: `SrVector3::operator^`, the cross product. -/
def cross (a b : SrVector3 F) : SrVector3 F :=
  ⟨a.y * b.z - a.z * b.y, a.z * b.x - a.x * b.z, a.x * b.y - a.y * b.x⟩

end SrVector3

namespace SrQuaternion

variable {F : Type} [Zero F] [One F] [NatCast F] [Add F] [Sub F] [Mul F] [Div F] [Neg F]
  [LT F] [LE F] [DecidableEq F] [∀ a b : F, Decidable (a < b)] [∀ a b : F, Decidable (a ≤ b)]

/-- The method `SrQuaternion::conjugate`: the value of `*this` at exit. -/
def conjugate (q : SrQuaternion F) : SrQuaternion F :=
  { q with x := -q.x, y := -q.y, z := -q.z }

/-- The method `SrQuaternion::invert`: the value of `*this` at exit. -/
def invert (q : SrQuaternion F) : SrQuaternion F :=
  { q with x := -q.x, y := -q.y, z := -q.z }

/-- The constructor `SrQuaternion(const SrVector3& v, float w)`. -/
def ofVector (v : SrVector3 F) (s : F) : SrQuaternion F :=
  { x := v.x, y := v.y, z := v.z, w := s }

/-- The method `SrQuaternion::multiply(left, right)` on two quaternions,
run on an output object distinct from both: the value of `*this` at exit. -/
def multiply (left right : SrQuaternion F) : SrQuaternion F :=
  let a := left.w * right.w - left.x * right.x - left.y * right.y - left.z * right.z
  let b := left.w * right.x + right.w * left.x + left.y * right.z - right.y * left.z
  let c := left.w * right.y + right.w * left.y + left.z * right.x - right.z * left.x
  let d := left.w * right.z + right.w * left.z + left.x * right.y - right.x * left.y
  { w := a, x := b, y := c, z := d }

/-- The method `SrQuaternion::multiply(left, right)` on two quaternions,
executed statement by statement on a store of quaternion objects: `self`,
`left` and `right` are addresses, which may coincide. -/
def multiplyAt (self left right : Nat) (σ : Nat → SrQuaternion F) :
    Nat → SrQuaternion F :=
  let a := (σ left).w * (σ right).w - (σ left).x * (σ right).x
    - (σ left).y * (σ right).y - (σ left).z * (σ right).z
  let b := (σ left).w * (σ right).x + (σ right).w * (σ left).x
    + (σ left).y * (σ right).z - (σ right).y * (σ left).z
  let c := (σ left).w * (σ right).y + (σ right).w * (σ left).y
    + (σ left).z * (σ right).x - (σ right).z * (σ left).x
  let d := (σ left).w * (σ right).z + (σ right).w * (σ left).z
    + (σ left).x * (σ right).y - (σ right).x * (σ left).y
  let σ := Function.update σ self { σ self with w := a }
  let σ := Function.update σ self { σ self with x := b }
  let σ := Function.update σ self { σ self with y := c }
  let σ := Function.update σ self { σ self with z := d }
  σ

/-- The method `SrQuaternion::multiply(left, right)` with a vector on the
right, run on an output object distinct from `left`: the value of `*this`
at exit. -/
def multiplyVec (left : SrQuaternion F) (right : SrVector3 F) : SrQuaternion F :=
  let a := - left.x * right.x - left.y * right.y - left.z * right.z
  let b := left.w * right.x + left.y * right.z - right.y * left.z
  let c := left.w * right.y + left.z * right.x - right.z * left.x
  let d := left.w * right.z + left.x * right.y - right.x * left.y
  { w := a, x := b, y := c, z := d }

/-- The method `SrQuaternion::multiply(left, right)` with a vector on the
right, executed statement by statement on a store of quaternion objects;
`self` and `left` are addresses, which may coincide. -/
def multiplyVecAt (self left : Nat) (right : SrVector3 F) (σ : Nat → SrQuaternion F) :
    Nat → SrQuaternion F :=
  let a := - (σ left).x * right.x - (σ left).y * right.y - (σ left).z * right.z
  let b := (σ left).w * right.x + (σ left).y * right.z - right.y * (σ left).z
  let c := (σ left).w * right.y + (σ left).z * right.x - right.z * (σ left).x
  let d := (σ left).w * right.z + (σ left).x * right.y - right.x * (σ left).y
  let σ := Function.update σ self { σ self with w := a }
  let σ := Function.update σ self { σ self with x := b }
  let σ := Function.update σ self { σ self with y := c }
  let σ := Function.update σ self { σ self with z := d }
  σ

/-- The method `SrQuaternion::operator*=(q)`, executed statement by
statement on a store of quaternion objects; `self` and `q` are addresses,
which may coincide. -/
def mulAssignAt (self q : Nat) (σ : Nat → SrQuaternion F) : Nat → SrQuaternion F :=
  let xx0 := (σ self).w * (σ q).w - (σ q).x * (σ self).x
    - (σ self).y * (σ q).y - (σ q).z * (σ self).z
  let xx1 := (σ self).w * (σ q).x + (σ q).w * (σ self).x
    + (σ self).y * (σ q).z - (σ q).y * (σ self).z
  let xx2 := (σ self).w * (σ q).y + (σ q).w * (σ self).y
    + (σ self).z * (σ q).x - (σ q).z * (σ self).x
  let σ := Function.update σ self
    { σ self with z := (σ self).w * (σ q).z + (σ q).w * (σ self).z
        + (σ self).x * (σ q).y - (σ q).x * (σ self).y }
  let σ := Function.update σ self { σ self with w := xx0 }
  let σ := Function.update σ self { σ self with x := xx1 }
  let σ := Function.update σ self { σ self with y := xx2 }
  σ

/-- The method `SrQuaternion::operator*(q) const`. -/
def mul (p q : SrQuaternion F) : SrQuaternion F :=
  { x := p.w * q.x + q.w * p.x + p.y * q.z - q.y * p.z
    y := p.w * q.y + q.w * p.y + p.z * q.x - q.z * p.x
    z := p.w * q.z + q.w * p.z + p.x * q.y - q.x * p.y
    w := p.w * q.w - p.x * q.x - p.y * q.y - p.z * q.z }

/-- The method `SrQuaternion::rotate(v)`: the value of `v` at exit. -/
def rotate (q : SrQuaternion F) (v : SrVector3 F) : SrVector3 F :=
  let myInverse : SrQuaternion F := { x := -q.x, y := -q.y, z := -q.z, w := q.w }
  let left := multiplyVec q v
  { x := left.w * myInverse.x + myInverse.w * left.x + left.y * myInverse.z
      - myInverse.y * left.z
    y := left.w * myInverse.y + myInverse.w * left.y + left.z * myInverse.x
      - myInverse.z * left.x
    z := left.w * myInverse.z + myInverse.w * left.z + left.x * myInverse.y
      - myInverse.x * left.y }

/-- The method `SrQuaternion::inverseRotate(v)`: the value of `v` at exit. -/
def inverseRotate (q : SrQuaternion F) (v : SrVector3 F) : SrVector3 F :=
  let myInverse : SrQuaternion F := { x := -q.x, y := -q.y, z := -q.z, w := q.w }
  let left := multiplyVec myInverse v
  { x := left.w * q.x + q.w * left.x + left.y * q.z - q.y * left.z
    y := left.w * q.y + q.w * left.y + left.z * q.x - q.z * left.x
    z := left.w * q.z + q.w * left.z + left.x * q.y - q.x * left.y }

/-- The method `SrQuaternion::rot(v)`. -/
def rot (q : SrQuaternion F) (v : SrVector3 F) : SrVector3 F :=
  let qv : SrVector3 F := ⟨q.x, q.y, q.z⟩
  (((v.mulScalar (q.w * q.w - 1 / 2)).add ((qv.cross v).mulScalar q.w)).add
    (qv.mulScalar (qv.dot v))).mulScalar 2

/-- The method `SrQuaternion::invRot(v)`. -/
def invRot (q : SrQuaternion F) (v : SrVector3 F) : SrVector3 F :=
  let qv : SrVector3 F := ⟨q.x, q.y, q.z⟩
  (((v.mulScalar (q.w * q.w - 1 / 2)).sub ((qv.cross v).mulScalar q.w)).add
    (qv.mulScalar (qv.dot v))).mulScalar 2

/-- The method `SrQuaternion::transform(v, p)`. -/
def transform (q : SrQuaternion F) (v p : SrVector3 F) : SrVector3 F :=
  (q.rot v).add p

/-- The method `SrQuaternion::invTransform(v, p)`. -/
def invTransform (q : SrQuaternion F) (v p : SrVector3 F) : SrVector3 F :=
  q.invRot (v.sub p)

/-- The method `SrQuaternion::fromAngleAxis(Angle, axis)`: the value of
`*this` at exit. -/
def fromAngleAxis (m : SrMath F) (Angle : F) (axis : SrVector3 F) : SrQuaternion F :=
  let x := axis.x
  let y := axis.y
  let z := axis.z
  let i_length := 1 / m.sqrt (x * x + y * y + z * z)
  let x := x * i_length
  let y := y * i_length
  let z := z * i_length
  let Half := m.degToRad (Angle * (1 / 2))
  let w := m.cos Half
  let sin_theta_over_two := m.sin Half
  let x := x * sin_theta_over_two
  let y := y * sin_theta_over_two
  let z := z * sin_theta_over_two
  { x := x, y := y, z := z, w := w }

/-- The method `SrQuaternion::fromAngleAxisFast(AngleRadians, axis)`: the
value of `*this` at exit. -/
def fromAngleAxisFast (m : SrMath F) (AngleRadians : F) (axis : SrVector3 F) :
    SrQuaternion F :=
  let sc := m.sinCos (AngleRadians * (1 / 2))
  let s := sc.1
  let w := sc.2
  { x := axis.x * s, y := axis.y * s, z := axis.z * s, w := w }

/-- The method `SrQuaternion::getAngleAxis(angle, axis)`: the values written
to `angle` and `axis`. -/
def getAngleAxis (m : SrMath F) (q : SrQuaternion F) : F × SrVector3 F :=
  let angle := m.acos q.w * 2
  let sa := m.sqrt (1 - q.w * q.w)
  if sa ≠ 0 then
    let axis : SrVector3 F := ⟨q.x / sa, q.y / sa, q.z / sa⟩
    let angle := m.radToDeg angle
    (angle, axis)
  else
    (angle, ⟨1, 0, 0⟩)

/-- The method `SrQuaternion::getAngle() const`. -/
def getAngle (m : SrMath F) (q : SrQuaternion F) : F :=
  m.acos q.w * 2

/-- The method `SrQuaternion::normalize`: the value of `*this` at exit. -/
def normalize (m : SrMath F) (q : SrQuaternion F) : SrQuaternion F :=
  let mag := m.sqrt q.magnitudeSquared
  if mag ≠ 0 then
    let imag := 1 / mag
    { x := q.x * imag, y := q.y * imag, z := q.z * imag, w := q.w * imag }
  else
    q

end SrQuaternion

/-! ## Further SrMatrix33 operations -/

namespace SrMatrix33

variable {F : Type} [Zero F] [One F] [NatCast F] [Add F] [Sub F] [Mul F] [Div F] [Neg F]
  [LT F] [LE F] [DecidableEq F] [∀ a b : F, Decidable (a < b)] [∀ a b : F, Decidable (a ≤ b)]

/-- The method `SrMatrix33::multiply(left, right)` executed statement by
statement on a store of matrix objects: `self`, `left` and `right` are
addresses, which may coincide. -/
def multiplyAt (self left right : Nat) (σ : Nat → SrMatrix33 F) : Nat → SrMatrix33 F :=
  let a := (σ left)._11 * (σ right)._11 + (σ left)._12 * (σ right)._21
    + (σ left)._13 * (σ right)._31
  let b := (σ left)._11 * (σ right)._12 + (σ left)._12 * (σ right)._22
    + (σ left)._13 * (σ right)._32
  let c := (σ left)._11 * (σ right)._13 + (σ left)._12 * (σ right)._23
    + (σ left)._13 * (σ right)._33
  let d := (σ left)._21 * (σ right)._11 + (σ left)._22 * (σ right)._21
    + (σ left)._23 * (σ right)._31
  let e := (σ left)._21 * (σ right)._12 + (σ left)._22 * (σ right)._22
    + (σ left)._23 * (σ right)._32
  let f := (σ left)._21 * (σ right)._13 + (σ left)._22 * (σ right)._23
    + (σ left)._23 * (σ right)._33
  let g := (σ left)._31 * (σ right)._11 + (σ left)._32 * (σ right)._21
    + (σ left)._33 * (σ right)._31
  let h := (σ left)._31 * (σ right)._12 + (σ left)._32 * (σ right)._22
    + (σ left)._33 * (σ right)._32
  let i := (σ left)._31 * (σ right)._13 + (σ left)._32 * (σ right)._23
    + (σ left)._33 * (σ right)._33
  let σ := Function.update σ self { σ self with _11 := a }
  let σ := Function.update σ self { σ self with _12 := b }
  let σ := Function.update σ self { σ self with _13 := c }
  let σ := Function.update σ self { σ self with _21 := d }
  let σ := Function.update σ self { σ self with _22 := e }
  let σ := Function.update σ self { σ self with _23 := f }
  let σ := Function.update σ self { σ self with _31 := g }
  let σ := Function.update σ self { σ self with _32 := h }
  let σ := Function.update σ self { σ self with _33 := i }
  σ

/-- The method `SrMatrix33::operator*=(mat)`, `this->multiply(*this, mat)`,
on a store of matrix objects. -/
def mulAssignAt (self mat : Nat) (σ : Nat → SrMatrix33 F) : Nat → SrMatrix33 F :=
  multiplyAt self self mat σ

/-- The method `SrMatrix33::operator*(mat) const`: the returned `temp`, on
which `temp.multiply(*this, mat)` ran. -/
def mul (M mat : SrMatrix33 F) : SrMatrix33 F :=
  multiply M mat

end SrMatrix33

/-! ## Transposes, transposed products and raw data access -/

namespace SrQuaternion

variable {F : Type} [Zero F] [One F] [NatCast F] [Add F] [Sub F] [Mul F] [Div F] [Neg F]
  [LT F] [LE F] [DecidableEq F] [∀ a b : F, Decidable (a < b)] [∀ a b : F, Decidable (a ≤ b)]

/-- The method `SrQuaternion::negate`: the value of `*this` at exit. -/
def negate (q : SrQuaternion F) : SrQuaternion F :=
  { x := -q.x, y := -q.y, z := -q.z, w := -q.w }

end SrQuaternion

namespace SrMatrix33

variable {F : Type} [Zero F] [One F] [NatCast F] [Add F] [Sub F] [Mul F] [Div F] [Neg F]
  [LT F] [LE F] [DecidableEq F] [∀ a b : F, Decidable (a < b)] [∀ a b : F, Decidable (a ≤ b)]

/-- The method `SrMatrix33::setTransposed()` without argument: the value of
`*this` at exit. -/
def setTransposedSelf (M : SrMatrix33 F) : SrMatrix33 F :=
  let tempValue := M._21
  let M := { M with _21 := M._12 }
  let M := { M with _12 := tempValue }
  let tempValue := M._23
  let M := { M with _23 := M._32 }
  let M := { M with _32 := tempValue }
  let tempValue := M._13
  let M := { M with _13 := M._31 }
  let M := { M with _31 := tempValue }
  M

/-- The method `SrMatrix33::setTransposed(other)` executed statement by
statement on a store of matrix objects: `self` and `other` are addresses;
the copying branch runs when they differ, the swapping branch when they
coincide. -/
def setTransposedAt (self other : Nat) (σ : Nat → SrMatrix33 F) : Nat → SrMatrix33 F :=
  if self ≠ other then
    let σ := Function.update σ self { σ self with _11 := (σ other)._11 }
    let σ := Function.update σ self { σ self with _12 := (σ other)._21 }
    let σ := Function.update σ self { σ self with _13 := (σ other)._31 }
    let σ := Function.update σ self { σ self with _21 := (σ other)._12 }
    let σ := Function.update σ self { σ self with _22 := (σ other)._22 }
    let σ := Function.update σ self { σ self with _23 := (σ other)._32 }
    let σ := Function.update σ self { σ self with _31 := (σ other)._13 }
    let σ := Function.update σ self { σ self with _32 := (σ other)._23 }
    let σ := Function.update σ self { σ self with _33 := (σ other)._33 }
    σ
  else
    let tx := (σ self)._21
    let σ := Function.update σ self { σ self with _21 := (σ other)._12 }
    let σ := Function.update σ self { σ self with _12 := tx }
    let ty := (σ self)._31
    let σ := Function.update σ self { σ self with _31 := (σ other)._13 }
    let σ := Function.update σ self { σ self with _13 := ty }
    let tz := (σ self)._32
    let σ := Function.update σ self { σ self with _32 := (σ other)._23 }
    let σ := Function.update σ self { σ self with _23 := tz }
    σ

/-- The method `SrMatrix33::multiplyByTranspose(src, dst)`: the value
written to `dst`. -/
def multiplyByTranspose (M : SrMatrix33 F) (src : SrVector3 F) : SrVector3 F :=
  let x := M._11 * src.x + M._21 * src.y + M._31 * src.z
  let y := M._12 * src.x + M._22 * src.y + M._32 * src.z
  let z := M._13 * src.x + M._23 * src.y + M._33 * src.z
  ⟨x, y, z⟩

/-- The method `SrMatrix33::operator%(const SrVector3&)`. -/
def modVec (M : SrMatrix33 F) (src : SrVector3 F) : SrVector3 F :=
  M.multiplyByTranspose src

/-- The method `SrMatrix33::multiplyTransposeLeft(left, right)` on two
matrices, transpose(left) times right,
run on an output object distinct from both: the value of `*this` at exit. -/
def multiplyTransposeLeft (left right : SrMatrix33 F) : SrMatrix33 F :=
  let a := left._11 * right._11 + left._21 * right._21 + left._31 * right._31
  let b := left._11 * right._12 + left._21 * right._22 + left._31 * right._32
  let c := left._11 * right._13 + left._21 * right._23 + left._31 * right._33
  let d := left._12 * right._11 + left._22 * right._21 + left._32 * right._31
  let e := left._12 * right._12 + left._22 * right._22 + left._32 * right._32
  let f := left._12 * right._13 + left._22 * right._23 + left._32 * right._33
  let g := left._13 * right._11 + left._23 * right._21 + left._33 * right._31
  let h := left._13 * right._12 + left._23 * right._22 + left._33 * right._32
  let i := left._13 * right._13 + left._23 * right._23 + left._33 * right._33
  { _11 := a, _12 := b, _13 := c
    _21 := d, _22 := e, _23 := f
    _31 := g, _32 := h, _33 := i }

/-- The method `SrMatrix33::multiplyTransposeLeft(left, right)` on two
matrices, executed
statement by statement on a store of matrix objects: `self`, `left` and
`right` are addresses, which may coincide. -/
def multiplyTransposeLeftAt (self left right : Nat) (σ : Nat → SrMatrix33 F) :
    Nat → SrMatrix33 F :=
  let a := (σ left)._11 * (σ right)._11 + (σ left)._21 * (σ right)._21
    + (σ left)._31 * (σ right)._31
  let b := (σ left)._11 * (σ right)._12 + (σ left)._21 * (σ right)._22
    + (σ left)._31 * (σ right)._32
  let c := (σ left)._11 * (σ right)._13 + (σ left)._21 * (σ right)._23
    + (σ left)._31 * (σ right)._33
  let d := (σ left)._12 * (σ right)._11 + (σ left)._22 * (σ right)._21
    + (σ left)._32 * (σ right)._31
  let e := (σ left)._12 * (σ right)._12 + (σ left)._22 * (σ right)._22
    + (σ left)._32 * (σ right)._32
  let f := (σ left)._12 * (σ right)._13 + (σ left)._22 * (σ right)._23
    + (σ left)._32 * (σ right)._33
  let g := (σ left)._13 * (σ right)._11 + (σ left)._23 * (σ right)._21
    + (σ left)._33 * (σ right)._31
  let h := (σ left)._13 * (σ right)._12 + (σ left)._23 * (σ right)._22
    + (σ left)._33 * (σ right)._32
  let i := (σ left)._13 * (σ right)._13 + (σ left)._23 * (σ right)._23
    + (σ left)._33 * (σ right)._33
  let σ := Function.update σ self { σ self with _11 := a }
  let σ := Function.update σ self { σ self with _12 := b }
  let σ := Function.update σ self { σ self with _13 := c }
  let σ := Function.update σ self { σ self with _21 := d }
  let σ := Function.update σ self { σ self with _22 := e }
  let σ := Function.update σ self { σ self with _23 := f }
  let σ := Function.update σ self { σ self with _31 := g }
  let σ := Function.update σ self { σ self with _32 := h }
  let σ := Function.update σ self { σ self with _33 := i }
  σ

/-- The method `SrMatrix33::multiplyTransposeRight(left, right)` on two
matrices, left times transpose(right),
run on an output object distinct from both: the value of `*this` at exit. -/
def multiplyTransposeRight (left right : SrMatrix33 F) : SrMatrix33 F :=
  let a := left._11 * right._11 + left._12 * right._12 + left._13 * right._13
  let b := left._11 * right._21 + left._12 * right._22 + left._13 * right._23
  let c := left._11 * right._31 + left._12 * right._32 + left._13 * right._33
  let d := left._21 * right._11 + left._22 * right._12 + left._23 * right._13
  let e := left._21 * right._21 + left._22 * right._22 + left._23 * right._23
  let f := left._21 * right._31 + left._22 * right._32 + left._23 * right._33
  let g := left._31 * right._11 + left._32 * right._12 + left._33 * right._13
  let h := left._31 * right._21 + left._32 * right._22 + left._33 * right._23
  let i := left._31 * right._31 + left._32 * right._32 + left._33 * right._33
  { _11 := a, _12 := b, _13 := c
    _21 := d, _22 := e, _23 := f
    _31 := g, _32 := h, _33 := i }

/-- The method `SrMatrix33::multiplyTransposeRight(left, right)` on two
matrices, executed
statement by statement on a store of matrix objects: `self`, `left` and
`right` are addresses, which may coincide. -/
def multiplyTransposeRightAt (self left right : Nat) (σ : Nat → SrMatrix33 F) :
    Nat → SrMatrix33 F :=
  let a := (σ left)._11 * (σ right)._11 + (σ left)._12 * (σ right)._12
    + (σ left)._13 * (σ right)._13
  let b := (σ left)._11 * (σ right)._21 + (σ left)._12 * (σ right)._22
    + (σ left)._13 * (σ right)._23
  let c := (σ left)._11 * (σ right)._31 + (σ left)._12 * (σ right)._32
    + (σ left)._13 * (σ right)._33
  let d := (σ left)._21 * (σ right)._11 + (σ left)._22 * (σ right)._12
    + (σ left)._23 * (σ right)._13
  let e := (σ left)._21 * (σ right)._21 + (σ left)._22 * (σ right)._22
    + (σ left)._23 * (σ right)._23
  let f := (σ left)._21 * (σ right)._31 + (σ left)._22 * (σ right)._32
    + (σ left)._23 * (σ right)._33
  let g := (σ left)._31 * (σ right)._11 + (σ left)._32 * (σ right)._12
    + (σ left)._33 * (σ right)._13
  let h := (σ left)._31 * (σ right)._21 + (σ left)._32 * (σ right)._22
    + (σ left)._33 * (σ right)._23
  let i := (σ left)._31 * (σ right)._31 + (σ left)._32 * (σ right)._32
    + (σ left)._33 * (σ right)._33
  let σ := Function.update σ self { σ self with _11 := a }
  let σ := Function.update σ self { σ self with _12 := b }
  let σ := Function.update σ self { σ self with _13 := c }
  let σ := Function.update σ self { σ self with _21 := d }
  let σ := Function.update σ self { σ self with _22 := e }
  let σ := Function.update σ self { σ self with _23 := f }
  let σ := Function.update σ self { σ self with _31 := g }
  let σ := Function.update σ self { σ self with _32 := h }
  let σ := Function.update σ self { σ self with _33 := i }
  σ

/-- The method `SrMatrix33::setRowMajor(const SrF32*)`: the value of `*this` at
exit, `d` being the buffer read. -/
def setRowMajor (d : Nat → F) : SrMatrix33 F :=
  { _11 := d 0, _12 := d 1, _13 := d 2
    _21 := d 3, _22 := d 4, _23 := d 5
    _31 := d 6, _32 := d 7, _33 := d 8 }

/-- The method `SrMatrix33::setRowMajor(const SrF32 d[][3])`: the value of
`*this` at exit, `d i j` being `d[i][j]`. -/
def setRowMajorArray (d : Nat → Nat → F) : SrMatrix33 F :=
  { _11 := d 0 0, _12 := d 0 1, _13 := d 0 2
    _21 := d 1 0, _22 := d 1 1, _23 := d 1 2
    _31 := d 2 0, _32 := d 2 1, _33 := d 2 2 }

/-- The method `SrMatrix33::getRowMajor(SrF32*)`: the buffer `d` at exit. -/
def getRowMajor (M : SrMatrix33 F) (d : Nat → F) : Nat → F :=
  let d := Function.update d 0 M._11
  let d := Function.update d 1 M._12
  let d := Function.update d 2 M._13
  let d := Function.update d 3 M._21
  let d := Function.update d 4 M._22
  let d := Function.update d 5 M._23
  let d := Function.update d 6 M._31
  let d := Function.update d 7 M._32
  let d := Function.update d 8 M._33
  d

/-- The method `SrMatrix33::getRowMajor(SrF32 d[][3])`: the array `d` at exit,
`d i j` being `d[i][j]`. -/
def getRowMajorArray (M : SrMatrix33 F) (d : Nat → Nat → F) : Nat → Nat → F :=
  let d := Function.update d 0 (Function.update (d 0) 0 M._11)
  let d := Function.update d 0 (Function.update (d 0) 1 M._12)
  let d := Function.update d 0 (Function.update (d 0) 2 M._13)
  let d := Function.update d 1 (Function.update (d 1) 0 M._21)
  let d := Function.update d 1 (Function.update (d 1) 1 M._22)
  let d := Function.update d 1 (Function.update (d 1) 2 M._23)
  let d := Function.update d 2 (Function.update (d 2) 0 M._31)
  let d := Function.update d 2 (Function.update (d 2) 1 M._32)
  let d := Function.update d 2 (Function.update (d 2) 2 M._33)
  d

/-- The method `SrMatrix33::setColumnMajor(const SrF32*)`: the value of `*this` at
exit, `d` being the buffer read. -/
def setColumnMajor (d : Nat → F) : SrMatrix33 F :=
  { _11 := d 0, _12 := d 3, _13 := d 6
    _21 := d 1, _22 := d 4, _23 := d 7
    _31 := d 2, _32 := d 5, _33 := d 8 }

/-- The method `SrMatrix33::setColumnMajor(const SrF32 d[][3])`: the value of
`*this` at exit, `d i j` being `d[i][j]`. -/
def setColumnMajorArray (d : Nat → Nat → F) : SrMatrix33 F :=
  { _11 := d 0 0, _12 := d 1 0, _13 := d 2 0
    _21 := d 0 1, _22 := d 1 1, _23 := d 2 1
    _31 := d 0 2, _32 := d 1 2, _33 := d 2 2 }

/-- The method `SrMatrix33::getColumnMajor(SrF32*)`: the buffer `d` at exit. -/
def getColumnMajor (M : SrMatrix33 F) (d : Nat → F) : Nat → F :=
  let d := Function.update d 0 M._11
  let d := Function.update d 3 M._12
  let d := Function.update d 6 M._13
  let d := Function.update d 1 M._21
  let d := Function.update d 4 M._22
  let d := Function.update d 7 M._23
  let d := Function.update d 2 M._31
  let d := Function.update d 5 M._32
  let d := Function.update d 8 M._33
  d

/-- The method `SrMatrix33::getColumnMajor(SrF32 d[][3])`: the array `d` at exit,
`d i j` being `d[i][j]`. -/
def getColumnMajorArray (M : SrMatrix33 F) (d : Nat → Nat → F) : Nat → Nat → F :=
  let d := Function.update d 0 (Function.update (d 0) 0 M._11)
  let d := Function.update d 1 (Function.update (d 1) 0 M._12)
  let d := Function.update d 2 (Function.update (d 2) 0 M._13)
  let d := Function.update d 0 (Function.update (d 0) 1 M._21)
  let d := Function.update d 1 (Function.update (d 1) 1 M._22)
  let d := Function.update d 2 (Function.update (d 2) 1 M._23)
  let d := Function.update d 0 (Function.update (d 0) 2 M._31)
  let d := Function.update d 1 (Function.update (d 1) 2 M._32)
  let d := Function.update d 2 (Function.update (d 2) 2 M._33)
  d

/-- The method `SrMatrix33::setRowMajorStride4(const SrF32*)`: the value of `*this` at
exit, `d` being the buffer read. -/
def setRowMajorStride4 (d : Nat → F) : SrMatrix33 F :=
  { _11 := d 0, _12 := d 1, _13 := d 2
    _21 := d 4, _22 := d 5, _23 := d 6
    _31 := d 8, _32 := d 9, _33 := d 10 }

/-- The method `SrMatrix33::setRowMajorStride4(const SrF32 d[][4])`: the value of
`*this` at exit, `d i j` being `d[i][j]`. -/
def setRowMajorStride4Array (d : Nat → Nat → F) : SrMatrix33 F :=
  { _11 := d 0 0, _12 := d 0 1, _13 := d 0 2
    _21 := d 1 0, _22 := d 1 1, _23 := d 1 2
    _31 := d 2 0, _32 := d 2 1, _33 := d 2 2 }

/-- The method `SrMatrix33::getRowMajorStride4(SrF32*)`: the buffer `d` at exit. -/
def getRowMajorStride4 (M : SrMatrix33 F) (d : Nat → F) : Nat → F :=
  let d := Function.update d 0 M._11
  let d := Function.update d 1 M._12
  let d := Function.update d 2 M._13
  let d := Function.update d 4 M._21
  let d := Function.update d 5 M._22
  let d := Function.update d 6 M._23
  let d := Function.update d 8 M._31
  let d := Function.update d 9 M._32
  let d := Function.update d 10 M._33
  d

/-- The method `SrMatrix33::getRowMajorStride4(SrF32 d[][4])`: the array `d` at exit,
`d i j` being `d[i][j]`. -/
def getRowMajorStride4Array (M : SrMatrix33 F) (d : Nat → Nat → F) : Nat → Nat → F :=
  let d := Function.update d 0 (Function.update (d 0) 0 M._11)
  let d := Function.update d 0 (Function.update (d 0) 1 M._12)
  let d := Function.update d 0 (Function.update (d 0) 2 M._13)
  let d := Function.update d 1 (Function.update (d 1) 0 M._21)
  let d := Function.update d 1 (Function.update (d 1) 1 M._22)
  let d := Function.update d 1 (Function.update (d 1) 2 M._23)
  let d := Function.update d 2 (Function.update (d 2) 0 M._31)
  let d := Function.update d 2 (Function.update (d 2) 1 M._32)
  let d := Function.update d 2 (Function.update (d 2) 2 M._33)
  d

/-- The method `SrMatrix33::setColumnMajorStride4(const SrF32*)`: the value of `*this` at
exit, `d` being the buffer read. -/
def setColumnMajorStride4 (d : Nat → F) : SrMatrix33 F :=
  { _11 := d 0, _12 := d 4, _13 := d 8
    _21 := d 1, _22 := d 5, _23 := d 9
    _31 := d 2, _32 := d 6, _33 := d 10 }

/-- The method `SrMatrix33::setColumnMajorStride4(const SrF32 d[][4])`: the value of
`*this` at exit, `d i j` being `d[i][j]`. -/
def setColumnMajorStride4Array (d : Nat → Nat → F) : SrMatrix33 F :=
  { _11 := d 0 0, _12 := d 1 0, _13 := d 2 0
    _21 := d 0 1, _22 := d 1 1, _23 := d 2 1
    _31 := d 0 2, _32 := d 1 2, _33 := d 2 2 }

/-- The method `SrMatrix33::getColumnMajorStride4(SrF32*)`: the buffer `d` at exit. -/
def getColumnMajorStride4 (M : SrMatrix33 F) (d : Nat → F) : Nat → F :=
  let d := Function.update d 0 M._11
  let d := Function.update d 4 M._12
  let d := Function.update d 8 M._13
  let d := Function.update d 1 M._21
  let d := Function.update d 5 M._22
  let d := Function.update d 9 M._23
  let d := Function.update d 2 M._31
  let d := Function.update d 6 M._32
  let d := Function.update d 10 M._33
  d

/-- The method `SrMatrix33::getColumnMajorStride4(SrF32 d[][4])`: the array `d` at exit,
`d i j` being `d[i][j]`. -/
def getColumnMajorStride4Array (M : SrMatrix33 F) (d : Nat → Nat → F) : Nat → Nat → F :=
  let d := Function.update d 0 (Function.update (d 0) 0 M._11)
  let d := Function.update d 1 (Function.update (d 1) 0 M._12)
  let d := Function.update d 2 (Function.update (d 2) 0 M._13)
  let d := Function.update d 0 (Function.update (d 0) 1 M._21)
  let d := Function.update d 1 (Function.update (d 1) 1 M._22)
  let d := Function.update d 2 (Function.update (d 2) 1 M._23)
  let d := Function.update d 0 (Function.update (d 0) 2 M._31)
  let d := Function.update d 1 (Function.update (d 1) 2 M._32)
  let d := Function.update d 2 (Function.update (d 2) 2 M._33)
  d

/-- The accessor `SrMatrix33::operator()(row, col)` in either build:
`data.m[col][row]` when `TRANSPOSED_MAT33` is defined (`transposed`),
`data.m[row][col]` otherwise. -/
def elemIn (transposed : Bool) (M : SrMatrix33 F) (row col : Fin 3) : F :=
  if transposed then M.elem col row else M.elem row col

/-- The method `SrMatrix33::getRow(row)` in either build. -/
def getRowIn (transposed : Bool) (M : SrMatrix33 F) (row : Fin 3) : SrVector3 F :=
  if transposed then ⟨M.elem 0 row, M.elem 1 row, M.elem 2 row⟩
  else ⟨M.elem row 0, M.elem row 1, M.elem row 2⟩

/-- The method `SrMatrix33::getColumn(col)` in either build. -/
def getColumnIn (transposed : Bool) (M : SrMatrix33 F) (col : Fin 3) : SrVector3 F :=
  if transposed then ⟨M.elem col 0, M.elem col 1, M.elem col 2⟩
  else ⟨M.elem 0 col, M.elem 1 col, M.elem 2 col⟩

/-- The branch index `i` of `SrMatrix33::toQuat` in either build. -/
def toQuatIndexIn (transposed : Bool) (M : SrMatrix33 F) : Fin 3 :=
  let i : Fin 3 := 0
  let i : Fin 3 := if M._22 > M._11 then 1 else i
  let i : Fin 3 := if M._33 > M.elemIn transposed i i then 2 else i
  i

/-- The method `SrMatrix33::toQuat(q)` in either build: the value written
to `q`. -/
def toQuatIn (transposed : Bool) (m : SrMath F) (M : SrMatrix33 F) : SrQuaternion F :=
  let tr := M._11 + M._22 + M._33
  if tr ≥ 0 then
    let s := m.sqrt (tr + 1)
    let qw := (1 / 2) * s
    let s := (1 / 2) / s
    { w := qw
      x := (M.elemIn transposed 2 1 - M.elemIn transposed 1 2) * s
      y := (M.elemIn transposed 0 2 - M.elemIn transposed 2 0) * s
      z := (M.elemIn transposed 1 0 - M.elemIn transposed 0 1) * s }
  else
    match M.toQuatIndexIn transposed with
    | 0 =>
      let s := m.sqrt ((M._11 - (M._22 + M._33)) + 1)
      let qx := (1 / 2) * s
      let s := (1 / 2) / s
      { x := qx
        y := (M.elemIn transposed 0 1 + M.elemIn transposed 1 0) * s
        z := (M.elemIn transposed 2 0 + M.elemIn transposed 0 2) * s
        w := (M.elemIn transposed 2 1 - M.elemIn transposed 1 2) * s }
    | 1 =>
      let s := m.sqrt ((M._22 - (M._33 + M._11)) + 1)
      let qy := (1 / 2) * s
      let s := (1 / 2) / s
      { y := qy
        z := (M.elemIn transposed 1 2 + M.elemIn transposed 2 1) * s
        x := (M.elemIn transposed 0 1 + M.elemIn transposed 1 0) * s
        w := (M.elemIn transposed 0 2 - M.elemIn transposed 2 0) * s }
    | 2 =>
      let s := m.sqrt ((M._33 - (M._11 + M._22)) + 1)
      let qz := (1 / 2) * s
      let s := (1 / 2) / s
      { z := qz
        x := (M.elemIn transposed 2 0 + M.elemIn transposed 0 2) * s
        y := (M.elemIn transposed 1 2 + M.elemIn transposed 2 1) * s
        w := (M.elemIn transposed 1 0 - M.elemIn transposed 0 1) * s }

end SrMatrix33

/-! ## Further SrMatrix34 operations -/

namespace SrMatrix34

variable {F : Type} [Zero F] [One F] [NatCast F] [Add F] [Sub F] [Mul F] [Div F] [Neg F]
  [LT F] [LE F] [DecidableEq F] [∀ a b : F, Decidable (a < b)] [∀ a b : F, Decidable (a ≤ b)]

/-- The method `SrMatrix34::multiply(src, dst)` on a vector: the value
written to `dst`. -/
def multiplyVec (T : SrMatrix34 F) (src : SrVector3 F) : SrVector3 F :=
  (T.M.mulVec src).add T.t

/-- The method `SrMatrix34::multiplyByInverseRT(src, dst)`: the value
written to `dst`. -/
def multiplyByInverseRT (T : SrMatrix34 F) (src : SrVector3 F) : SrVector3 F :=
  T.M.multiplyByTranspose (src.sub T.t)

/-- The method `SrMatrix34::multiplyInverseRTLeft(left, right)` run on an
output object distinct from both: the value of `*this` at exit. -/
def multiplyInverseRTLeft (left right : SrMatrix34 F) : SrMatrix34 F :=
  let t := left.M.modVec (right.t.sub left.t)
  let M := SrMatrix33.multiplyTransposeLeft left.M right.M
  ⟨M, t⟩

/-- The method `SrMatrix34::multiplyInverseRTRight(left, right)` run on an
output object distinct from both: the value of `*this` at exit. -/
def multiplyInverseRTRight (left right : SrMatrix34 F) : SrMatrix34 F :=
  let M := SrMatrix33.multiplyTransposeRight left.M right.M
  let t := left.t.sub (M.mulVec right.t)
  ⟨M, t⟩

/-- The method `SrMatrix34::multiply(left, right)` executed statement by
statement on a store of transform objects: `self`, `left` and `right` are
addresses, which may coincide; the `M` member of the object at address `n`
is the matrix object at address `n` of the store of `M` members. -/
def multiplyAt (self left right : Nat) (σ : Nat → SrMatrix34 F) : Nat → SrMatrix34 F :=
  let σ := Function.update σ self
    { σ self with t := ((σ left).M.mulVec (σ right).t).add (σ left).t }
  let τ := SrMatrix33.multiplyAt self left right (fun n => (σ n).M)
  let σ := Function.update σ self { σ self with M := τ self }
  σ

/-- The method `SrMatrix34::multiplyInverseRTLeft(left, right)` executed
statement by statement on a store of transform objects. -/
def multiplyInverseRTLeftAt (self left right : Nat) (σ : Nat → SrMatrix34 F) :
    Nat → SrMatrix34 F :=
  let σ := Function.update σ self
    { σ self with t := (σ left).M.modVec ((σ right).t.sub (σ left).t) }
  let τ := SrMatrix33.multiplyTransposeLeftAt self left right (fun n => (σ n).M)
  let σ := Function.update σ self { σ self with M := τ self }
  σ

/-- The method `SrMatrix34::multiplyInverseRTRight(left, right)` executed
statement by statement on a store of transform objects. -/
def multiplyInverseRTRightAt (self left right : Nat) (σ : Nat → SrMatrix34 F) :
    Nat → SrMatrix34 F :=
  let τ := SrMatrix33.multiplyTransposeRightAt self left right (fun n => (σ n).M)
  let σ := Function.update σ self { σ self with M := τ self }
  let σ := Function.update σ self
    { σ self with t := (σ left).t.sub ((σ self).M.mulVec (σ right).t) }
  σ

end SrMatrix34

/-! ## Elementary rotations -/

namespace SrMatrix33

variable {F : Type} [Zero F] [One F] [NatCast F] [Add F] [Sub F] [Mul F] [Div F] [Neg F]
  [LT F] [LE F] [DecidableEq F] [∀ a b : F, Decidable (a < b)] [∀ a b : F, Decidable (a ≤ b)]

/-- The method `SrMatrix33::rotX(angle)`: the value of `*this` at exit, `M`
being its value at entry. The C library `cosf` and `sinf` are read as the
`cos` and `sin` of the math parameter. -/
def rotX (m : SrMath F) (angle : F) (M : SrMatrix33 F) : SrMatrix33 F :=
  let Cos := m.cos angle
  let Sin := m.sin angle
  let M : SrMatrix33 F :=
    { M with _11 := 1, _12 := 0, _13 := 0, _21 := 0, _22 := 1, _23 := 0
             _31 := 0, _32 := 0, _33 := 1 }
  let M := { M with _33 := Cos }
  let M := { M with _22 := M._33 }
  let M := { M with _23 := -Sin }
  let M := { M with _32 := Sin }
  M

/-- The method `SrMatrix33::rotY(angle)`: the value of `*this` at exit, `M`
being its value at entry. -/
def rotY (m : SrMath F) (angle : F) (M : SrMatrix33 F) : SrMatrix33 F :=
  let Cos := m.cos angle
  let Sin := m.sin angle
  let M : SrMatrix33 F :=
    { M with _11 := 1, _12 := 0, _13 := 0, _21 := 0, _22 := 1, _23 := 0
             _31 := 0, _32 := 0, _33 := 1 }
  let M := { M with _33 := Cos }
  let M := { M with _11 := M._33 }
  let M := { M with _13 := Sin }
  let M := { M with _31 := -Sin }
  M

/-- The method `SrMatrix33::rotZ(angle)`: the value of `*this` at exit, `M`
being its value at entry. -/
def rotZ (m : SrMath F) (angle : F) (M : SrMatrix33 F) : SrMatrix33 F :=
  let Cos := m.cos angle
  let Sin := m.sin angle
  let M : SrMatrix33 F :=
    { M with _11 := 1, _12 := 0, _13 := 0, _21 := 0, _22 := 1, _23 := 0
             _31 := 0, _32 := 0, _33 := 1 }
  let M := { M with _22 := Cos }
  let M := { M with _11 := M._22 }
  let M := { M with _12 := -Sin }
  let M := { M with _21 := Sin }
  M

end SrMatrix33

/-! ## Binary32 arithmetic -/

/-- A finite value of the C++ type `float` (IEEE 754 binary32), held as the
rational number it denotes. Each arithmetic operation below computes the
exact rational result and rounds it once, as the code does when it is
compiled to single precision operations without fused multiply-add.
Infinities, NaN and the sign of zero are not represented. -/
structure Binary32 where
  val : ℚ
deriving DecidableEq

namespace Binary32

/-- With enough fuel, the floor of the binary logarithm of `n` (0 for
`n = 0`), by repeated halving. -/
def log2Fuel : ℕ → ℕ → ℕ
  | 0, _ => 0
  | fuel + 1, n => if 2 ≤ n then log2Fuel fuel (n / 2) + 1 else 0

/-- The integer nearest to `x`, a tie going to the even neighbour. -/
def roundHalfEven (x : ℚ) : ℤ :=
  let k : ℤ := ⌊x⌋
  let r : ℚ := x - k
  if r < 1 / 2 then k
  else if 1 / 2 < r then k + 1
  else if k % 2 = 0 then k else k + 1

/-- Rounding of an exact result to binary32, to nearest with ties to even:
24 significant bits when the magnitude is at least `2 ^ (-126)`, multiples
of `2 ^ (-149)` below. Here `e` is the binary exponent of `|q|`, read off
the bit lengths of its numerator and denominator and not below `-126`, and
`u = 2 ^ (e - 23)` is the spacing of binary32 values at that exponent.
Overflow to infinity is not represented. -/
def roundNearest (q : ℚ) : ℚ :=
  if q = 0 then 0
  else
    let a : ℚ := |q|
    let e0 : ℤ := (log2Fuel a.num.natAbs a.num.natAbs : ℤ) - (log2Fuel a.den a.den : ℤ)
    let e : ℤ := if a < 2 ^ e0 then e0 - 1 else e0
    let e : ℤ := max e (-126)
    let u : ℚ := 2 ^ (e - 23)
    let k : ℤ := roundHalfEven (a / u)
    if q < 0 then -(k * u) else k * u

/-- The binary32 value of a decimal literal such as `0.1f`: the literal's
exact value, rounded. -/
def ofRat (q : ℚ) : Binary32 := ⟨roundNearest q⟩

instance : Zero Binary32 := ⟨⟨0⟩⟩

instance : One Binary32 := ⟨⟨1⟩⟩

instance : NatCast Binary32 := ⟨fun n => ⟨roundNearest n⟩⟩

instance : Neg Binary32 := ⟨fun a => ⟨-a.val⟩⟩

instance : Add Binary32 := ⟨fun a b => ⟨roundNearest (a.val + b.val)⟩⟩

instance : Sub Binary32 := ⟨fun a b => ⟨roundNearest (a.val - b.val)⟩⟩

instance : Mul Binary32 := ⟨fun a b => ⟨roundNearest (a.val * b.val)⟩⟩

instance : Div Binary32 := ⟨fun a b => ⟨roundNearest (a.val / b.val)⟩⟩

instance : LT Binary32 := ⟨fun a b => a.val < b.val⟩

instance : LE Binary32 := ⟨fun a b => a.val ≤ b.val⟩

instance (a b : Binary32) : Decidable (a < b) :=
  inferInstanceAs (Decidable (a.val < b.val))

instance (a b : Binary32) : Decidable (a ≤ b) :=
  inferInstanceAs (Decidable (a.val ≤ b.val))

/-- The value a table of `(argument, value)` pairs gives at `a`, and 0 at
an argument the table does not list. -/
def lookup (t : List (ℚ × ℚ)) (a : Binary32) : Binary32 :=
  match t.find? (fun p => decide (p.1 = a.val)) with
  | some p => ⟨p.2⟩
  | none => 0

/-- Modelled from the spec: `SrMath::sqrt` in binary32, the C library's
`sqrtf`, as pairs `(argument, value)`. -/
def sqrtfTable : List (ℚ × ℚ) :=
  [(0, 0), (1, 1), (429497 / 2 ^ 24, 5368711 / 2 ^ 25)]

/-- Modelled from the spec: `SrMath::sin` in binary32, the C library's
`sinf`, as pairs `(argument, value)`; `13176795 / 2 ^ 22` is the binary32
value nearest to `pi`. -/
def sinfTable : List (ℚ × ℚ) :=
  [(0, 0), (1 / 2, 4021713 / 2 ^ 23), (1, 3529385 / 2 ^ 22),
    (10783771 / 2 ^ 26, 5368711 / 2 ^ 25), (13176795 / 2 ^ 22, -6151831 / 2 ^ 46)]

/-- Modelled from the spec: `SrMath::cos` in binary32, the C library's
`cosf`, as pairs `(argument, value)`. -/
def cosfTable : List (ℚ × ℚ) :=
  [(0, 1), (1 / 2, 230053 / 2 ^ 18), (1, 141637 / 2 ^ 18), (13176795 / 2 ^ 22, -1)]

/-- Modelled from the spec: `SrMath::acos` in binary32, the C library's
`acosf`, as pairs `(argument, value)`. -/
def acosfTable : List (ℚ × ℚ) :=
  [(1, 0), (0, 13176795 / 2 ^ 23), (-1, 13176795 / 2 ^ 22)]

/-- Modelled from the spec: `SrMath::atan2` in binary32, the C library's
`atan2f`, as triples `(y, x, value)`. -/
def atan2fTable : List (ℚ × ℚ × ℚ) :=
  [(5368711 / 2 ^ 25, 16561075 / 2 ^ 24, 10783771 / 2 ^ 26)]

end Binary32

/-- Modelled from the spec: the binary32 instance of the `SrMath` helpers.
`sqrt`, `sin`, `cos`, `acos` and `atan2` are the C library's `sqrtf`,
`sinf`, `cosf`, `acosf` and `atan2f`, tabulated at the arguments the
statements below evaluate; `degToRad` and `radToDeg` multiply by the
binary32 values nearest to `pi / 180` and `180 / pi`; `sinCos` stores the
sine and the cosine. -/
def SrMath.binary32 : SrMath Binary32 where
  sqrt := Binary32.lookup Binary32.sqrtfTable
  sin := Binary32.lookup Binary32.sinfTable
  cos := Binary32.lookup Binary32.cosfTable
  acos := Binary32.lookup Binary32.acosfTable
  atan2 := fun y x =>
    match Binary32.atan2fTable.find? (fun p => decide (p.1 = y.val ∧ p.2.1 = x.val)) with
    | some p => ⟨p.2.2⟩
    | none => 0
  degToRad := fun a => a * ⟨9370165 / 2 ^ 29⟩
  radToDeg := fun a => a * ⟨15019745 / 2 ^ 18⟩
  sinCos := fun a =>
    (Binary32.lookup Binary32.sinfTable a, Binary32.lookup Binary32.cosfTable a)

/-! ## Theorems: SrMatrix33 inverse -/

namespace SrMatrix33

variable {F : Type} [LinearOrderedField F]

/-- The cofactor determinant of `getInverse` is the determinant. -/
theorem getInverseDet_eq_determinant (A : SrMatrix33 F) :
    A.getInverseDet = A.determinant := by
  simp only [getInverseDet, determinant]
  ring

/-- The flag of `getInverse` is false exactly when its `d` is zero. -/
theorem getInverse_fst_false_iff (A : SrMatrix33 F) :
    A.getInverse.1 = false ↔ A.getInverseDet = 0 := by
  unfold getInverse getInverseDet
  by_cases h : (A._22 * A._33 - A._23 * A._32) * A._11
      + (A._13 * A._32 - A._12 * A._33) * A._21
      + (A._12 * A._23 - A._13 * A._22) * A._31 = 0
  · simp [h]
  · simp [h]

end SrMatrix33

namespace SrMatrix33

variable {F : Type} [LinearOrderedField F]

/-- When its `d` is non-zero, `getInverse` returns true and the adjugate
scaled by `1 / d`. -/
theorem getInverse_of_ne_zero (A : SrMatrix33 F) (h : A.getInverseDet ≠ 0) :
    A.getInverse = (true,
      { _11 := (A._22 * A._33 - A._23 * A._32) * (1 / A.getInverseDet)
        _12 := (A._13 * A._32 - A._12 * A._33) * (1 / A.getInverseDet)
        _13 := (A._12 * A._23 - A._13 * A._22) * (1 / A.getInverseDet)
        _21 := (A._23 * A._31 - A._21 * A._33) * (1 / A.getInverseDet)
        _22 := (A._11 * A._33 - A._13 * A._31) * (1 / A.getInverseDet)
        _23 := (A._13 * A._21 - A._11 * A._23) * (1 / A.getInverseDet)
        _31 := (A._21 * A._32 - A._22 * A._31) * (1 / A.getInverseDet)
        _32 := (A._12 * A._31 - A._11 * A._32) * (1 / A.getInverseDet)
        _33 := (A._11 * A._22 - A._12 * A._21) * (1 / A.getInverseDet) }) := by
  unfold getInverseDet at h
  unfold getInverse getInverseDet
  simp only [h, if_false]

/-- When its `d` is zero, `getInverse` returns false and the identity. -/
theorem getInverse_of_eq_zero (A : SrMatrix33 F) (h : A.getInverseDet = 0) :
    A.getInverse = (false, id) := by
  unfold getInverseDet at h
  unfold getInverse
  simp only [h, if_true]

/-- A successful `getInverse` yields a right inverse. -/
theorem multiply_getInverse (A : SrMatrix33 F) (h : A.getInverseDet ≠ 0) :
    multiply A A.getInverse.2 = id := by
  rw [getInverse_of_ne_zero A h]
  have hd : (A._22 * A._33 - A._23 * A._32) * A._11
      + (A._13 * A._32 - A._12 * A._33) * A._21
      + (A._12 * A._23 - A._13 * A._22) * A._31 ≠ 0 := h
  ext <;> simp only [multiply, id, getInverseDet] <;> field_simp <;> ring

/-- A successful `getInverse` yields a left inverse. -/
theorem getInverse_multiply (A : SrMatrix33 F) (h : A.getInverseDet ≠ 0) :
    multiply A.getInverse.2 A = id := by
  rw [getInverse_of_ne_zero A h]
  have hd : (A._22 * A._33 - A._23 * A._32) * A._11
      + (A._13 * A._32 - A._12 * A._33) * A._21
      + (A._12 * A._23 - A._13 * A._22) * A._31 ≠ 0 := h
  ext <;> simp only [multiply, id, getInverseDet] <;> field_simp <;> ring

/-- A true flag of `getInverse` means its `d` is non-zero. -/
theorem getInverseDet_ne_zero_of_true (A : SrMatrix33 F)
    (h : A.getInverse.1 = true) : A.getInverseDet ≠ 0 := by
  intro h0
  rw [getInverse_of_eq_zero A h0] at h
  exact Bool.noConfusion h

/-- Claim C1. For every 3x3 matrix `A` over exact arithmetic: if
`getInverse` returns true, then `A x B` and `B x A` (products taken with
`SrMatrix33::multiply`, `B` the matrix written to `dest`) are both the
identity matrix. -/
theorem getInverse_true_inverse (A : SrMatrix33 F) (h : A.getInverse.1 = true) :
    multiply A A.getInverse.2 = id ∧ multiply A.getInverse.2 A = id :=
  ⟨multiply_getInverse A (getInverseDet_ne_zero_of_true A h),
   getInverse_multiply A (getInverseDet_ne_zero_of_true A h)⟩

/-- Witness for C1 at the rational matrix `[2 1 0; 0 1 0; 1 0 1]`, whose
determinant is 2. -/
theorem getInverse_true_inverse_witness :
    (getInverse (⟨2, 1, 0, 0, 1, 0, 1, 0, 1⟩ : SrMatrix33 ℚ)).1 = true ∧
    (multiply (⟨2, 1, 0, 0, 1, 0, 1, 0, 1⟩ : SrMatrix33 ℚ)
        (getInverse (⟨2, 1, 0, 0, 1, 0, 1, 0, 1⟩ : SrMatrix33 ℚ)).2 = id ∧
      multiply (getInverse (⟨2, 1, 0, 0, 1, 0, 1, 0, 1⟩ : SrMatrix33 ℚ)).2
        (⟨2, 1, 0, 0, 1, 0, 1, 0, 1⟩ : SrMatrix33 ℚ) = id) :=
  ⟨by norm_num [getInverse],
   getInverse_true_inverse _ (by norm_num [getInverse])⟩

/-- Claim C2, amended. Over exact arithmetic, for every 3x3 matrix `A`,
`getInverse` returns false exactly when `determinant()` of `A` is 0, and
then `dest` is the identity matrix; otherwise it returns true. The value `d`
it computes from the reused cofactors equals `determinant()`. -/
theorem getInverse_false_iff_determinant_zero (A : SrMatrix33 F) :
    A.getInverseDet = A.determinant ∧
    (A.getInverse.1 = false ↔ A.determinant = 0) ∧
    ((A.determinant = 0 ∧ A.getInverse = (false, id)) ∨
      (A.determinant ≠ 0 ∧ A.getInverse.1 = true)) := by
  have hd := getInverseDet_eq_determinant A
  refine ⟨hd, ?_, ?_⟩
  · rw [getInverse_fst_false_iff, hd]
  · by_cases h : A.determinant = 0
    · exact Or.inl ⟨h, getInverse_of_eq_zero A (hd.trans h)⟩
    · right
      refine ⟨h, ?_⟩
      rw [getInverse_of_ne_zero A (by rw [hd]; exact h)]

end SrMatrix33

/-! ## Theorems: SrMatrix34 inverses -/

namespace SrMatrix34

variable {F : Type} [LinearOrderedField F]

/-- On a singular `M`, `SrMatrix34::getInverse` returns false, writes the
identity to `dest.M` and writes `-t` to `dest.t`. -/
theorem getInverse_of_singular (T : SrMatrix34 F) (h : T.M.determinant = 0) :
    T.getInverse = (false, ⟨SrMatrix33.id, ⟨-T.t.x, -T.t.y, -T.t.z⟩⟩) := by
  have h0 : T.M.getInverseDet = 0 := (SrMatrix33.getInverseDet_eq_determinant T.M).trans h
  simp [getInverse, SrMatrix33.getInverse_of_eq_zero T.M h0, SrMatrix33.multiplyVec,
    SrVector3.mulScalar, SrMatrix33.id]

/-- Claim C3, evaluated at the transform with `M` the zero matrix and
`t = (1, 0, 0)`: `M` is singular, `getInverse` returns false and writes the
identity matrix to `dest.M`, but `dest.t` is `(-1, 0, 0)`, not the zero
vector, so `dest.isIdentity()` is false. -/
theorem getInverse_singular_dest_not_identity :
    (SrMatrix33.zero : SrMatrix33 ℚ).determinant = 0 ∧
    getInverse (⟨SrMatrix33.zero, ⟨1, 0, 0⟩⟩ : SrMatrix34 ℚ)
      = (false, ⟨SrMatrix33.id, ⟨-1, 0, 0⟩⟩) ∧
    (getInverse (⟨SrMatrix33.zero, ⟨1, 0, 0⟩⟩ : SrMatrix34 ℚ)).2.isIdentity = false ∧
    (getInverse (⟨SrMatrix33.zero, ⟨1, 0, 0⟩⟩ : SrMatrix34 ℚ)).2.t ≠ SrVector3.zero := by
  have hdet : (SrMatrix33.zero : SrMatrix33 ℚ).determinant = 0 := by
    norm_num [SrMatrix33.zero, SrMatrix33.determinant]
  have hT := getInverse_of_singular (⟨SrMatrix33.zero, ⟨1, 0, 0⟩⟩ : SrMatrix34 ℚ) hdet
  simp only [neg_zero] at hT
  refine ⟨hdet, hT, ?_, ?_⟩
  · rw [hT]
    simp [isIdentity, SrVector3.isZero]
  · rw [hT]
    simp [SrVector3.zero]

end SrMatrix34

namespace SrMatrix34

variable {F : Type} [LinearOrderedField F]

end SrMatrix34

/-! ## Theorems: quaternion and matrix conversion -/

namespace SrMatrix33

variable {F : Type} [LinearOrderedField F]

/-- The branch index of `toQuat` names a largest diagonal entry. -/
theorem toQuatIndex_cases (M : SrMatrix33 F) :
    (M.toQuatIndex = 0 ∧ M._22 ≤ M._11 ∧ M._33 ≤ M._11) ∨
    (M.toQuatIndex = 1 ∧ M._11 < M._22 ∧ M._33 ≤ M._22) ∨
    (M.toQuatIndex = 2 ∧ M._11 < M._33 ∧ M._22 < M._33) := by
  by_cases h1 : M._22 > M._11
  · by_cases h2 : M._33 > M._22
    · right; right
      have h3 : M._11 < M._33 := lt_trans h1 h2
      exact ⟨by simp [toQuatIndex, h1, h2, elem], h3, h2⟩
    · right; left
      exact ⟨by simp [toQuatIndex, h1, h2, elem], h1, not_lt.mp h2⟩
  · by_cases h2 : M._33 > M._11
    · right; right
      exact ⟨by simp [toQuatIndex, h1, h2, elem], h2, lt_of_le_of_lt (not_lt.mp h1) h2⟩
    · left
      exact ⟨by simp [toQuatIndex, h1, h2, elem], not_lt.mp h1, not_lt.mp h2⟩

/-- The matrix of `-q` is the matrix of `q`. -/
theorem fromQuat_neg (q : SrQuaternion F) : fromQuat q.neg = fromQuat q := by
  ext <;> simp only [fromQuat, SrQuaternion.neg] <;> ring

/-- The value of `toQuat` in the branch `tr >= 0`. -/
theorem toQuat_of_trace_nonneg (m : SrMath F) (M : SrMatrix33 F)
    (h : 0 ≤ M._11 + M._22 + M._33) :
    toQuat m M =
      { w := (1 / 2) * m.sqrt (M._11 + M._22 + M._33 + 1)
        x := (M._32 - M._23) * ((1 / 2) / m.sqrt (M._11 + M._22 + M._33 + 1))
        y := (M._13 - M._31) * ((1 / 2) / m.sqrt (M._11 + M._22 + M._33 + 1))
        z := (M._21 - M._12) * ((1 / 2) / m.sqrt (M._11 + M._22 + M._33 + 1)) } := by
  unfold toQuat
  simp only [ge_iff_le, h, if_true, elem]

/-- The value of `toQuat` in the branch `tr < 0`, `i = 0`. -/
theorem toQuat_of_index_zero (m : SrMath F) (M : SrMatrix33 F)
    (h : M._11 + M._22 + M._33 < 0) (hi : M.toQuatIndex = 0) :
    toQuat m M =
      { x := (1 / 2) * m.sqrt ((M._11 - (M._22 + M._33)) + 1)
        y := (M._12 + M._21) * ((1 / 2) / m.sqrt ((M._11 - (M._22 + M._33)) + 1))
        z := (M._31 + M._13) * ((1 / 2) / m.sqrt ((M._11 - (M._22 + M._33)) + 1))
        w := (M._32 - M._23) * ((1 / 2) / m.sqrt ((M._11 - (M._22 + M._33)) + 1)) } := by
  unfold toQuat
  simp only [ge_iff_le, not_le.mpr h, if_false, hi, elem]

/-- The value of `toQuat` in the branch `tr < 0`, `i = 1`. -/
theorem toQuat_of_index_one (m : SrMath F) (M : SrMatrix33 F)
    (h : M._11 + M._22 + M._33 < 0) (hi : M.toQuatIndex = 1) :
    toQuat m M =
      { y := (1 / 2) * m.sqrt ((M._22 - (M._33 + M._11)) + 1)
        z := (M._23 + M._32) * ((1 / 2) / m.sqrt ((M._22 - (M._33 + M._11)) + 1))
        x := (M._12 + M._21) * ((1 / 2) / m.sqrt ((M._22 - (M._33 + M._11)) + 1))
        w := (M._13 - M._31) * ((1 / 2) / m.sqrt ((M._22 - (M._33 + M._11)) + 1)) } := by
  unfold toQuat
  simp only [ge_iff_le, not_le.mpr h, if_false, hi, elem]

/-- The value of `toQuat` in the branch `tr < 0`, `i = 2`. -/
theorem toQuat_of_index_two (m : SrMath F) (M : SrMatrix33 F)
    (h : M._11 + M._22 + M._33 < 0) (hi : M.toQuatIndex = 2) :
    toQuat m M =
      { z := (1 / 2) * m.sqrt ((M._33 - (M._11 + M._22)) + 1)
        x := (M._31 + M._13) * ((1 / 2) / m.sqrt ((M._33 - (M._11 + M._22)) + 1))
        y := (M._23 + M._32) * ((1 / 2) / m.sqrt ((M._33 - (M._11 + M._22)) + 1))
        w := (M._21 - M._12) * ((1 / 2) / m.sqrt ((M._33 - (M._11 + M._22)) + 1)) } := by
  unfold toQuat
  simp only [ge_iff_le, not_le.mpr h, if_false, hi, elem]

end SrMatrix33

namespace SrMatrix33

/-- The square root of `4 c^2` is `2 c` or `-2 c`, by the sign of `c`. -/
theorem sqrt_four_mul_sq (c e : ℝ) (he : e = 4 * (c * c)) (hc : c ≠ 0) :
    (0 < c ∧ Real.sqrt e = 2 * c) ∨ (c < 0 ∧ Real.sqrt e = -(2 * c)) := by
  have h4 : e = (2 * c) ^ 2 := by rw [he]; ring
  rcases lt_or_gt_of_ne hc with h | h
  · right
    refine ⟨h, ?_⟩
    rw [h4, Real.sqrt_sq_eq_abs, abs_of_neg (by linarith)]
  · left
    refine ⟨h, ?_⟩
    rw [h4, Real.sqrt_sq_eq_abs, abs_of_pos (by linarith)]

/-- For a unit quaternion, `toQuat` recovers the quaternion up to sign. -/
theorem toQuat_fromQuat_eq_or_neg (q : SrQuaternion ℝ) (hq : q.magnitudeSquared = 1) :
    toQuat SrMath.real (fromQuat q) = q ∨ toQuat SrMath.real (fromQuat q) = q.neg := by
  obtain ⟨x, y, z, w⟩ := q
  simp only [SrQuaternion.magnitudeSquared] at hq
  by_cases htr : 0 ≤ (fromQuat ⟨x, y, z, w⟩)._11 + (fromQuat ⟨x, y, z, w⟩)._22
      + (fromQuat ⟨x, y, z, w⟩)._33
  · rw [toQuat_of_trace_nonneg _ _ htr]
    simp only [fromQuat] at htr ⊢
    have hw : w ≠ 0 := by
      intro h
      rw [h] at hq
      nlinarith [mul_self_nonneg x, mul_self_nonneg y, mul_self_nonneg z]
    have he : (1 - y * y * 2 - z * z * 2 + (1 - x * x * 2 - z * z * 2)
        + (1 - x * x * 2 - y * y * 2) + 1) = 4 * (w * w) := by
      linear_combination (-4) * hq
    rcases sqrt_four_mul_sq w _ he hw with ⟨_, hs⟩ | ⟨_, hs⟩
    · left
      simp only [SrMath.real]
      rw [hs]
      ext <;> simp only [] <;> field_simp <;> ring
    · right
      simp only [SrMath.real, SrQuaternion.neg]
      rw [hs]
      ext <;> simp only [] <;> field_simp <;> ring
  · have htr' := not_le.mp htr
    rcases toQuatIndex_cases (fromQuat ⟨x, y, z, w⟩) with ⟨hi, h1, h2⟩ | ⟨hi, h1, h2⟩ | ⟨hi, h1, h2⟩
    · rw [toQuat_of_index_zero _ _ htr' hi]
      simp only [fromQuat] at htr' h1 h2 ⊢
      have hx : x ≠ 0 := by
        intro h
        rw [h] at hq h1 h2 htr'
        nlinarith [mul_self_nonneg y, mul_self_nonneg z, mul_self_nonneg w]
      have he : (1 - y * y * 2 - z * z * 2 - ((1 - x * x * 2 - z * z * 2)
          + (1 - x * x * 2 - y * y * 2)) + 1) = 4 * (x * x) := by
        ring
      rcases sqrt_four_mul_sq x _ he hx with ⟨_, hs⟩ | ⟨_, hs⟩
      · left
        simp only [SrMath.real]
        rw [hs]
        ext <;> simp only [] <;> field_simp <;> ring
      · right
        simp only [SrMath.real, SrQuaternion.neg]
        rw [hs]
        ext <;> simp only [] <;> field_simp <;> ring
    · rw [toQuat_of_index_one _ _ htr' hi]
      simp only [fromQuat] at htr' h1 h2 ⊢
      have hy : y ≠ 0 := by
        intro h
        rw [h] at hq h1 h2 htr'
        nlinarith [mul_self_nonneg x, mul_self_nonneg z, mul_self_nonneg w]
      have he : (1 - x * x * 2 - z * z * 2 - ((1 - x * x * 2 - y * y * 2)
          + (1 - y * y * 2 - z * z * 2)) + 1) = 4 * (y * y) := by
        ring
      rcases sqrt_four_mul_sq y _ he hy with ⟨_, hs⟩ | ⟨_, hs⟩
      · left
        simp only [SrMath.real]
        rw [hs]
        ext <;> simp only [] <;> field_simp <;> ring
      · right
        simp only [SrMath.real, SrQuaternion.neg]
        rw [hs]
        ext <;> simp only [] <;> field_simp <;> ring
    · rw [toQuat_of_index_two _ _ htr' hi]
      simp only [fromQuat] at htr' h1 h2 ⊢
      have hz : z ≠ 0 := by
        intro h
        rw [h] at hq h1 h2 htr'
        nlinarith [mul_self_nonneg x, mul_self_nonneg y, mul_self_nonneg w]
      have he : (1 - x * x * 2 - y * y * 2 - ((1 - y * y * 2 - z * z * 2)
          + (1 - x * x * 2 - z * z * 2)) + 1) = 4 * (z * z) := by
        ring
      rcases sqrt_four_mul_sq z _ he hz with ⟨_, hs⟩ | ⟨_, hs⟩
      · left
        simp only [SrMath.real]
        rw [hs]
        ext <;> simp only [] <;> field_simp <;> ring
      · right
        simp only [SrMath.real, SrQuaternion.neg]
        rw [hs]
        ext <;> simp only [] <;> field_simp <;> ring

end SrMatrix33

namespace SrMatrix33

/-- Claim C6. Over exact real arithmetic, for every unit quaternion `q`
(`x^2 + y^2 + z^2 + w^2 = 1`), whichever branch of `toQuat` runs (trace
`>= 0`, or trace `< 0` with largest diagonal index 0, 1 or 2):
`toQuat(fromQuat(q))` is `q` or `-q`, and therefore
`fromQuat(toQuat(fromQuat(q)))` equals `fromQuat(q)`. -/
theorem toQuat_fromQuat_roundtrip (q : SrQuaternion ℝ) (hq : q.magnitudeSquared = 1) :
    (toQuat SrMath.real (fromQuat q) = q ∨ toQuat SrMath.real (fromQuat q) = q.neg) ∧
    fromQuat (toQuat SrMath.real (fromQuat q)) = fromQuat q := by
  have key := toQuat_fromQuat_eq_or_neg q hq
  refine ⟨key, ?_⟩
  rcases key with h | h
  · rw [h]
  · rw [h, fromQuat_neg]

/-- Witness for C6 at the half turn about the x axis, `q = (1, 0, 0, 0)`,
whose matrix has trace `-1`. -/
theorem toQuat_fromQuat_roundtrip_witness :
    (⟨1, 0, 0, 0⟩ : SrQuaternion ℝ).magnitudeSquared = 1 ∧
    (fromQuat (⟨1, 0, 0, 0⟩ : SrQuaternion ℝ))._11
      + (fromQuat (⟨1, 0, 0, 0⟩ : SrQuaternion ℝ))._22
      + (fromQuat (⟨1, 0, 0, 0⟩ : SrQuaternion ℝ))._33 < 0 ∧
    fromQuat (toQuat SrMath.real (fromQuat (⟨1, 0, 0, 0⟩ : SrQuaternion ℝ)))
      = fromQuat (⟨1, 0, 0, 0⟩ : SrQuaternion ℝ) :=
  ⟨by norm_num [SrQuaternion.magnitudeSquared],
   by norm_num [fromQuat],
   (toQuat_fromQuat_roundtrip _ (by norm_num [SrQuaternion.magnitudeSquared])).2⟩

end SrMatrix33

/-! ## Theorems: slerp -/

namespace SrQuaternion

variable {F : Type} [LinearOrderedField F]

/-- The square of the flipped cosine of `slerp` is the square of the dot
product. -/
theorem slerp_cosine_sq (d : F) :
    (if d < 0 then -d else d) * (if d < 0 then -d else d) = d * d := by
  split_ifs <;> ring

/-- The near-parallel branch of `slerp`: the result is `left`. -/
theorem slerp_of_near_parallel (m : SrMath F) (t : F) (a b : SrQuaternion F)
    (h : 1 - a.dot b * a.dot b < quatEpsilon * quatEpsilon) :
    slerp m t a b = a := by
  have h' : ¬ (1 - (if a.dot b < 0 then -(a.dot b) else a.dot b)
      * (if a.dot b < 0 then -(a.dot b) else a.dot b) ≥ quatEpsilon * quatEpsilon) := by
    rw [slerp_cosine_sq]
    exact not_le.mpr h
  unfold dot at h'
  unfold slerp
  simp only [h', if_false]

/-- The value of `slerp` in the blending branch, in terms of the flipped
cosine `c` and the sign `sgn`. -/
theorem slerp_of_blend (m : SrMath F) (t : F) (a b : SrQuaternion F) (c sgn : F)
    (hc : c = if a.dot b < 0 then -(a.dot b) else a.dot b)
    (hs : sgn = if a.dot b < 0 then -1 else 1)
    (h : quatEpsilon * quatEpsilon ≤ 1 - c * c) :
    slerp m t a b =
      { w := a.w * (m.sin (m.atan2 (m.sqrt (1 - c * c)) c * (1 - t)) * (1 / m.sqrt (1 - c * c)))
          + b.w * (m.sin (m.atan2 (m.sqrt (1 - c * c)) c * t) * (1 / m.sqrt (1 - c * c)) * sgn)
        x := a.x * (m.sin (m.atan2 (m.sqrt (1 - c * c)) c * (1 - t)) * (1 / m.sqrt (1 - c * c)))
          + b.x * (m.sin (m.atan2 (m.sqrt (1 - c * c)) c * t) * (1 / m.sqrt (1 - c * c)) * sgn)
        y := a.y * (m.sin (m.atan2 (m.sqrt (1 - c * c)) c * (1 - t)) * (1 / m.sqrt (1 - c * c)))
          + b.y * (m.sin (m.atan2 (m.sqrt (1 - c * c)) c * t) * (1 / m.sqrt (1 - c * c)) * sgn)
        z := a.z * (m.sin (m.atan2 (m.sqrt (1 - c * c)) c * (1 - t)) * (1 / m.sqrt (1 - c * c)))
          + b.z * (m.sin (m.atan2 (m.sqrt (1 - c * c)) c * t) * (1 / m.sqrt (1 - c * c)) * sgn) } := by
  subst hc hs
  unfold dot at h
  unfold slerp dot
  exact if_pos h

/-- The sine of `atan2(sqrt(1 - c^2), c)` is `sqrt(1 - c^2)`. -/
theorem sin_atan2_sqrt (c : ℝ) (h : 0 < 1 - c * c) :
    SrMath.real.sin (SrMath.real.atan2 (SrMath.real.sqrt (1 - c * c)) c)
      = SrMath.real.sqrt (1 - c * c) := by
  simp only [SrMath.real]
  rw [Complex.sin_arg, Complex.abs_apply, Complex.normSq_mk,
    Real.mul_self_sqrt h.le]
  have : c * c + (1 - c * c) = 1 := by ring
  rw [this, Real.sqrt_one, div_one]

/-- The blending branch of `slerp` at `t = 0` and `t = 1`. -/
theorem slerp_blend_endpoints (a b : SrQuaternion ℝ)
    (h : quatEpsilon * quatEpsilon ≤ 1 - a.dot b * a.dot b) :
    slerp SrMath.real 0 a b = a ∧
    slerp SrMath.real 1 a b = if 0 ≤ a.dot b then b else b.neg := by
  obtain ⟨c, hc⟩ : ∃ c, c = if a.dot b < 0 then -(a.dot b) else a.dot b := ⟨_, rfl⟩
  obtain ⟨sgn, hs⟩ : ∃ sgn : ℝ, sgn = if a.dot b < 0 then -1 else 1 := ⟨_, rfl⟩
  have hcc : c * c = a.dot b * a.dot b := by rw [hc]; exact slerp_cosine_sq _
  have h' : quatEpsilon * quatEpsilon ≤ 1 - c * c := by rw [hcc]; exact h
  have hpos : 0 < 1 - c * c := lt_of_lt_of_le (by norm_num [quatEpsilon]) h'
  have hsin := sin_atan2_sqrt c hpos
  have hne : SrMath.real.sqrt (1 - c * c) ≠ 0 := (Real.sqrt_pos.mpr hpos).ne'
  have hz : SrMath.real.sin 0 = 0 := Real.sin_zero
  constructor
  · rw [slerp_of_blend SrMath.real 0 a b c sgn hc hs h']
    simp only [sub_zero, mul_one, mul_zero, hsin, hz, zero_mul, add_zero]
    ext <;> simp only [] <;> field_simp
  · rw [slerp_of_blend SrMath.real 1 a b c sgn hc hs h']
    simp only [sub_self, mul_one, mul_zero, hsin, hz, zero_mul, zero_add]
    by_cases hd : a.dot b < 0
    · rw [if_pos hd] at hs
      rw [if_neg (not_le.mpr hd), hs]
      ext <;> simp only [neg] <;> field_simp
    · rw [if_neg hd] at hs
      rw [if_pos (not_lt.mp hd), hs]
      ext <;> simp only [] <;> field_simp

end SrQuaternion

namespace SrQuaternion

variable {F : Type} [LinearOrderedField F]

/-- When `*this` is not the object `right`, `slerpAt` leaves in `*this` the
value `slerp` computes from the operands at entry (also when `*this` is the
object `left`). -/
theorem slerpAt_of_ne_right (m : SrMath F) (t : F) (self left right : Nat)
    (σ : Nat → SrQuaternion F) (h : right ≠ self) :
    slerpAt m t self left right σ self = slerp m t (σ left) (σ right) := by
  unfold slerpAt slerp
  simp only [Function.update_same, Function.update_noteq h, Function.update_idem]
  split_ifs <;> simp

/-- When `*this` is the object `right`, `slerpAt` leaves in `*this` the
value `slerp` computes from `left` and `left`. -/
theorem slerpAt_right_alias (m : SrMath F) (t : F) (self left : Nat)
    (σ : Nat → SrQuaternion F) :
    slerpAt m t self left self σ self = slerp m t (σ left) (σ left) := by
  unfold slerpAt slerp
  simp only [Function.update_same, Function.update_idem]
  split_ifs <;> simp

end SrQuaternion

namespace SrQuaternion

variable {F : Type} [LinearOrderedField F]

/-- Claim C7. Over exact real arithmetic, for arbitrary quaternions `a` and
`b` (unit or not), `slerp(0, a, b)` yields exactly `a` in all four
components, in the blending branch and in the near-parallel branch. -/
theorem slerp_zero (a b : SrQuaternion ℝ) : slerp SrMath.real 0 a b = a := by
  by_cases h : quatEpsilon * quatEpsilon ≤ 1 - a.dot b * a.dot b
  · exact (slerp_blend_endpoints a b h).1
  · exact slerp_of_near_parallel SrMath.real 0 a b (not_le.mp h)

/-- Over exact real arithmetic too, `slerp(1, a, b)` need not be `b` or
`-b`: `a = (0, 0, 0, 1)` and
`b = (2 t / (1 + t^2), 0, 0, (1 - t^2) / (1 + t^2))` with `t = 10^-9` are
unit quaternions with `dot(a, b) >= 0`, yet `slerp(1, a, b)` is `a`, which
is neither `b` nor `-b`: the near-parallel branch is taken. -/
theorem slerp_one_near_parallel_counterexample :
    (⟨0, 0, 0, 1⟩ : SrQuaternion ℝ).magnitudeSquared = 1 ∧
    (⟨2000000000 / 1000000000000000001, 0, 0,
        999999999999999999 / 1000000000000000001⟩ : SrQuaternion ℝ).magnitudeSquared = 1 ∧
    0 ≤ (⟨0, 0, 0, 1⟩ : SrQuaternion ℝ).dot
      ⟨2000000000 / 1000000000000000001, 0, 0, 999999999999999999 / 1000000000000000001⟩ ∧
    slerp SrMath.real 1 (⟨0, 0, 0, 1⟩ : SrQuaternion ℝ)
      ⟨2000000000 / 1000000000000000001, 0, 0, 999999999999999999 / 1000000000000000001⟩
      = ⟨0, 0, 0, 1⟩ ∧
    slerp SrMath.real 1 (⟨0, 0, 0, 1⟩ : SrQuaternion ℝ)
      ⟨2000000000 / 1000000000000000001, 0, 0, 999999999999999999 / 1000000000000000001⟩
      ≠ ⟨2000000000 / 1000000000000000001, 0, 0, 999999999999999999 / 1000000000000000001⟩ ∧
    slerp SrMath.real 1 (⟨0, 0, 0, 1⟩ : SrQuaternion ℝ)
      ⟨2000000000 / 1000000000000000001, 0, 0, 999999999999999999 / 1000000000000000001⟩
      ≠ (⟨2000000000 / 1000000000000000001, 0, 0,
          999999999999999999 / 1000000000000000001⟩ : SrQuaternion ℝ).neg := by
  have hs : slerp SrMath.real 1 (⟨0, 0, 0, 1⟩ : SrQuaternion ℝ)
      ⟨2000000000 / 1000000000000000001, 0, 0, 999999999999999999 / 1000000000000000001⟩
      = ⟨0, 0, 0, 1⟩ :=
    slerp_of_near_parallel _ _ _ _ (by norm_num [dot, quatEpsilon])
  refine ⟨by norm_num [magnitudeSquared], by norm_num [magnitudeSquared],
    by norm_num [dot], hs, ?_, ?_⟩
  · rw [hs]
    intro h
    have hx := congrArg SrQuaternion.x h
    norm_num at hx
  · rw [hs]
    intro h
    have hx := congrArg SrQuaternion.x h
    norm_num [neg] at hx

/-- Claim C8, amended. Over exact real arithmetic, for arbitrary
quaternions `a` and `b` (unit or not): in the blending branch,
`1 - dot(a,b)^2 >= (1e-8)^2`, `slerp(1, a, b)` is `b` when `dot(a,b) >= 0`
and `-b` when `dot(a,b) < 0`; in the near-parallel branch,
`1 - dot(a,b)^2 < (1e-8)^2`, it is `a`. -/
theorem slerp_one (a b : SrQuaternion ℝ) :
    (quatEpsilon * quatEpsilon ≤ 1 - a.dot b * a.dot b →
      slerp SrMath.real 1 a b = if 0 ≤ a.dot b then b else b.neg) ∧
    (1 - a.dot b * a.dot b < quatEpsilon * quatEpsilon →
      slerp SrMath.real 1 a b = a) :=
  ⟨fun h => (slerp_blend_endpoints a b h).2,
   fun h => slerp_of_near_parallel SrMath.real 1 a b h⟩

/-- Witness for the amended C8 at `a = (0, 0, 0, 1)`, `b = (1, 0, 0, 0)`, a
pair of orthogonal unit quaternions. -/
theorem slerp_one_witness :
    (quatEpsilon * quatEpsilon : ℝ) ≤
      1 - (⟨0, 0, 0, 1⟩ : SrQuaternion ℝ).dot ⟨1, 0, 0, 0⟩
        * (⟨0, 0, 0, 1⟩ : SrQuaternion ℝ).dot ⟨1, 0, 0, 0⟩ ∧
    slerp SrMath.real 1 (⟨0, 0, 0, 1⟩ : SrQuaternion ℝ) ⟨1, 0, 0, 0⟩
      = if 0 ≤ (⟨0, 0, 0, 1⟩ : SrQuaternion ℝ).dot ⟨1, 0, 0, 0⟩
        then ⟨1, 0, 0, 0⟩ else (⟨1, 0, 0, 0⟩ : SrQuaternion ℝ).neg :=
  ⟨by norm_num [dot, quatEpsilon],
   (slerp_one _ _).1 (by norm_num [dot, quatEpsilon])⟩

/-- Claim C9. For all quaternions `a`, `b` and every `t`: if
`1 - dot(a,b)^2 < (1e-8)^2` then `slerp(t, a, b)` leaves the result equal to
`a`; in particular for every unit quaternion `a` and every `t`,
`slerp(t, a, a)` equals `a` unchanged. This holds whatever `sqrt`, `sin`
and `atan2` compute, since the branch does not call them. -/
theorem slerp_near_parallel (m : SrMath F) (t : F) (a b : SrQuaternion F) :
    (1 - a.dot b * a.dot b < quatEpsilon * quatEpsilon → slerp m t a b = a) ∧
    (a.magnitudeSquared = 1 → slerp m t a a = a) := by
  refine ⟨slerp_of_near_parallel m t a b, fun h => ?_⟩
  apply slerp_of_near_parallel
  have hd : a.dot a = 1 := h
  rw [hd]
  norm_num [quatEpsilon]

/-- Witness for C9 at `a = b = (0, 0, 0, 1)` and `t = 1/2`. -/
theorem slerp_near_parallel_witness :
    (1 - (⟨0, 0, 0, 1⟩ : SrQuaternion ℝ).dot ⟨0, 0, 0, 1⟩
        * (⟨0, 0, 0, 1⟩ : SrQuaternion ℝ).dot ⟨0, 0, 0, 1⟩
      < quatEpsilon * quatEpsilon) ∧
    (⟨0, 0, 0, 1⟩ : SrQuaternion ℝ).magnitudeSquared = 1 ∧
    slerp SrMath.real (1 / 2) (⟨0, 0, 0, 1⟩ : SrQuaternion ℝ) ⟨0, 0, 0, 1⟩
      = ⟨0, 0, 0, 1⟩ :=
  ⟨by norm_num [dot, quatEpsilon], by norm_num [magnitudeSquared],
   (slerp_near_parallel SrMath.real (1 / 2) (⟨0, 0, 0, 1⟩ : SrQuaternion ℝ)
      ⟨0, 0, 0, 1⟩).1 (by norm_num [dot, quatEpsilon])⟩

/-- Claim C10, evaluated at `t = 1`, `a = (0, 0, 0, 1)` stored at address 0
and `b = (1, 0, 0, 0)` stored at addresses 1 and 2. Called on the distinct
output object 2, `slerp(1, a, b)` leaves `b = (1, 0, 0, 0)` there; called
with the output object being the right operand (address 1), it leaves
`a = (0, 0, 0, 1)`: the copy `*this = left` overwrites `right` before it is
read. Called with the output object being the left operand (address 0) on
operands `a`, `b` it agrees with the distinct call. -/
theorem slerpAt_right_alias_diverges :
    slerpAt SrMath.real 1 2 0 1
      (fun n => if n = 0 then (⟨0, 0, 0, 1⟩ : SrQuaternion ℝ) else ⟨1, 0, 0, 0⟩) 2
      = ⟨1, 0, 0, 0⟩ ∧
    slerpAt SrMath.real 1 1 0 1
      (fun n => if n = 0 then (⟨0, 0, 0, 1⟩ : SrQuaternion ℝ) else ⟨1, 0, 0, 0⟩) 1
      = ⟨0, 0, 0, 1⟩ ∧
    slerpAt SrMath.real 1 0 0 1
      (fun n => if n = 0 then (⟨0, 0, 0, 1⟩ : SrQuaternion ℝ) else ⟨1, 0, 0, 0⟩) 0
      = ⟨1, 0, 0, 0⟩ := by
  have hab : slerp SrMath.real 1 (⟨0, 0, 0, 1⟩ : SrQuaternion ℝ) ⟨1, 0, 0, 0⟩
      = ⟨1, 0, 0, 0⟩ := by
    rw [(slerp_blend_endpoints _ _ (by norm_num [dot, quatEpsilon])).2]
    norm_num [dot]
  have haa : slerp SrMath.real 1 (⟨0, 0, 0, 1⟩ : SrQuaternion ℝ) ⟨0, 0, 0, 1⟩
      = ⟨0, 0, 0, 1⟩ :=
    slerp_of_near_parallel _ _ _ _ (by norm_num [dot, quatEpsilon])
  refine ⟨?_, ?_, ?_⟩
  · rw [slerpAt_of_ne_right _ _ _ _ _ _ (by decide)]
    simpa using hab
  · rw [slerpAt_right_alias]
    simpa using haa
  · rw [slerpAt_of_ne_right _ _ _ _ _ _ (by decide)]
    simpa using hab

end SrQuaternion

/-! ## Theorems: quaternion product -/

namespace SrQuaternion

variable {F : Type} [LinearOrderedField F]

/-- On a store, `multiply` leaves in `*this` the product of the operands'
values at entry, whichever of the three objects coincide. -/
theorem multiplyAt_self (self left right : Nat) (σ : Nat → SrQuaternion F) :
    multiplyAt self left right σ self = multiply (σ left) (σ right) := by
  simp only [multiplyAt, multiply, Function.update_same]

/-- On a store, `multiply` with a vector leaves in `*this` the product of
the operands' values at entry, also when `*this` is `left`. -/
theorem multiplyVecAt_self (self left : Nat) (v : SrVector3 F)
    (σ : Nat → SrQuaternion F) :
    multiplyVecAt self left v σ self = multiplyVec (σ left) v := by
  simp only [multiplyVecAt, multiplyVec, Function.update_same]

/-- On a store, `operator*=` leaves in `*this` the product of the values at
entry, also when the operand is `*this` itself. -/
theorem mulAssignAt_self (self q : Nat) (σ : Nat → SrQuaternion F) :
    mulAssignAt self q σ self = multiply (σ self) (σ q) := by
  simp only [mulAssignAt, multiply, Function.update_same]
  ext <;> (simp only []; try ring)

/-- Claim C11. `SrQuaternion::multiply(a, b)` sets `*this` to the Hamilton
product `a*b` (`w = aw*bw - ax*bx - ay*by - az*bz`,
`x = aw*bx + ax*bw + ay*bz - az*by`, `y = aw*by + ay*bw + az*bx - ax*bz`,
`z = aw*bz + az*bw + ax*by - ay*bx`), computed from the operands' values at
entry even when `*this` is the same object as `a` and/or `b`; `operator*`,
`operator*=` (including `q *= q`) and `multiply(a, v)` with `v` read as the
quaternion `(v, 0)` all give the same product. -/
theorem multiply_hamilton (a b : SrQuaternion F) (v : SrVector3 F)
    (self left right : Nat) (σ : Nat → SrQuaternion F) :
    multiply a b =
      { w := a.w * b.w - a.x * b.x - a.y * b.y - a.z * b.z
        x := a.w * b.x + a.x * b.w + a.y * b.z - a.z * b.y
        y := a.w * b.y + a.y * b.w + a.z * b.x - a.x * b.z
        z := a.w * b.z + a.z * b.w + a.x * b.y - a.y * b.x } ∧
    multiplyAt self left right σ self = multiply (σ left) (σ right) ∧
    multiplyAt self self right σ self = multiply (σ self) (σ right) ∧
    multiplyAt self left self σ self = multiply (σ left) (σ self) ∧
    multiplyAt self self self σ self = multiply (σ self) (σ self) ∧
    mul a b = multiply a b ∧
    mulAssignAt self right σ self = multiply (σ self) (σ right) ∧
    mulAssignAt self self σ self = multiply (σ self) (σ self) ∧
    multiplyVec a v = multiply a (ofVector v 0) ∧
    multiplyVecAt self left v σ self = multiply (σ left) (ofVector v 0) ∧
    multiplyVecAt self self v σ self = multiply (σ self) (ofVector v 0) := by
  have hv : ∀ p : SrQuaternion F, multiplyVec p v = multiply p (ofVector v 0) := by
    intro p
    ext <;> simp only [multiplyVec, multiply, ofVector] <;> ring
  refine ⟨?_, multiplyAt_self _ _ _ _, multiplyAt_self _ _ _ _, multiplyAt_self _ _ _ _,
    multiplyAt_self _ _ _ _, ?_, mulAssignAt_self _ _ _, mulAssignAt_self _ _ _, hv a, ?_, ?_⟩
  · ext <;> simp only [multiply] <;> ring
  · ext <;> simp only [mul, multiply]
  · rw [multiplyVecAt_self, hv]
  · rw [multiplyVecAt_self, hv]

end SrQuaternion

/-! ## Theorems: rotating vectors by quaternions -/

namespace SrQuaternion

variable {F : Type} [LinearOrderedField F]

/-- The vector `rotate` writes is the vector part of `q * (v, 0) * conj q`. -/
theorem rotate_eq_conjugation (q : SrQuaternion F) (v : SrVector3 F) :
    rotate q v =
      ⟨(multiply (multiply q (ofVector v 0)) (conjugate q)).x,
       (multiply (multiply q (ofVector v 0)) (conjugate q)).y,
       (multiply (multiply q (ofVector v 0)) (conjugate q)).z⟩ := by
  ext <;> simp only [rotate, multiplyVec, multiply, ofVector, conjugate] <;> ring

/-- The vector `inverseRotate` writes is the vector part of
`conj q * (v, 0) * q`. -/
theorem inverseRotate_eq_conjugation (q : SrQuaternion F) (v : SrVector3 F) :
    inverseRotate q v =
      ⟨(multiply (multiply (conjugate q) (ofVector v 0)) q).x,
       (multiply (multiply (conjugate q) (ofVector v 0)) q).y,
       (multiply (multiply (conjugate q) (ofVector v 0)) q).z⟩ := by
  ext <;> simp only [inverseRotate, multiplyVec, multiply, ofVector, conjugate] <;> ring

/-- For a unit quaternion `rotate` computes what `rot` returns. -/
theorem rotate_eq_rot (q : SrQuaternion F) (v : SrVector3 F)
    (hq : q.magnitudeSquared = 1) : rotate q v = rot q v := by
  simp only [magnitudeSquared] at hq
  ext
  · simp only [rotate, rot, multiplyVec, SrVector3.mulScalar, SrVector3.add,
      SrVector3.cross, SrVector3.dot]
    linear_combination (-v.x) * hq
  · simp only [rotate, rot, multiplyVec, SrVector3.mulScalar, SrVector3.add,
      SrVector3.cross, SrVector3.dot]
    linear_combination (-v.y) * hq
  · simp only [rotate, rot, multiplyVec, SrVector3.mulScalar, SrVector3.add,
      SrVector3.cross, SrVector3.dot]
    linear_combination (-v.z) * hq

/-- For a unit quaternion `inverseRotate` computes what `invRot` returns. -/
theorem inverseRotate_eq_invRot (q : SrQuaternion F) (v : SrVector3 F)
    (hq : q.magnitudeSquared = 1) : inverseRotate q v = invRot q v := by
  simp only [magnitudeSquared] at hq
  ext
  · simp only [inverseRotate, invRot, multiplyVec, SrVector3.mulScalar, SrVector3.add,
      SrVector3.sub, SrVector3.cross, SrVector3.dot]
    linear_combination (-v.x) * hq
  · simp only [inverseRotate, invRot, multiplyVec, SrVector3.mulScalar, SrVector3.add,
      SrVector3.sub, SrVector3.cross, SrVector3.dot]
    linear_combination (-v.y) * hq
  · simp only [inverseRotate, invRot, multiplyVec, SrVector3.mulScalar, SrVector3.add,
      SrVector3.sub, SrVector3.cross, SrVector3.dot]
    linear_combination (-v.z) * hq

/-- For any quaternion, `rotate` followed by `inverseRotate` scales by the
square of `magnitudeSquared`. -/
theorem inverseRotate_rotate_general (q : SrQuaternion F) (v : SrVector3 F) :
    inverseRotate q (rotate q v) =
      v.mulScalar (q.magnitudeSquared * q.magnitudeSquared) := by
  ext <;> simp only [inverseRotate, rotate, multiplyVec, magnitudeSquared,
    SrVector3.mulScalar] <;> ring

/-- For any quaternion, `inverseRotate` followed by `rotate` scales by the
square of `magnitudeSquared`. -/
theorem rotate_inverseRotate_general (q : SrQuaternion F) (v : SrVector3 F) :
    rotate q (inverseRotate q v) =
      v.mulScalar (q.magnitudeSquared * q.magnitudeSquared) := by
  ext <;> simp only [inverseRotate, rotate, multiplyVec, magnitudeSquared,
    SrVector3.mulScalar] <;> ring

/-- Scaling a vector by 1 leaves it unchanged. -/
theorem mulScalar_one_one (v : SrVector3 F) : v.mulScalar (1 * 1) = v := by
  ext <;> simp [SrVector3.mulScalar]

/-- Claim C12, amended. For every quaternion `q` and vector `v`,
`rotate(v)` overwrites `v` with the vector part of
`q * (v,0) * conjugate(q)` (and `inverseRotate(v)` with that of
`conjugate(q) * (v,0) * q`); over exact arithmetic, for every unit
quaternion `q` it equals the value returned by `rot(v)`, and likewise
`inverseRotate(v)` equals `invRot(v)`, with `^` the cross product and `|`
the dot product of `SrVector3`. -/
theorem rotate_spec (q : SrQuaternion F) (v : SrVector3 F) :
    rotate q v =
      ⟨(multiply (multiply q (ofVector v 0)) (conjugate q)).x,
       (multiply (multiply q (ofVector v 0)) (conjugate q)).y,
       (multiply (multiply q (ofVector v 0)) (conjugate q)).z⟩ ∧
    inverseRotate q v =
      ⟨(multiply (multiply (conjugate q) (ofVector v 0)) q).x,
       (multiply (multiply (conjugate q) (ofVector v 0)) q).y,
       (multiply (multiply (conjugate q) (ofVector v 0)) q).z⟩ ∧
    (q.magnitudeSquared = 1 → rotate q v = rot q v ∧ inverseRotate q v = invRot q v) :=
  ⟨rotate_eq_conjugation q v, inverseRotate_eq_conjugation q v,
   fun hq => ⟨rotate_eq_rot q v hq, inverseRotate_eq_invRot q v hq⟩⟩

/-- Witness for the amended C12 at the unit quaternion `q = (3/5, 0, 0, 4/5)` and
`v = (1, 2, 3)`. -/
theorem rotate_spec_witness :
    (⟨3 / 5, 0, 0, 4 / 5⟩ : SrQuaternion ℚ).magnitudeSquared = 1 ∧
    rotate (⟨3 / 5, 0, 0, 4 / 5⟩ : SrQuaternion ℚ) ⟨1, 2, 3⟩
      = rot (⟨3 / 5, 0, 0, 4 / 5⟩ : SrQuaternion ℚ) ⟨1, 2, 3⟩ ∧
    inverseRotate (⟨3 / 5, 0, 0, 4 / 5⟩ : SrQuaternion ℚ) ⟨1, 2, 3⟩
      = invRot (⟨3 / 5, 0, 0, 4 / 5⟩ : SrQuaternion ℚ) ⟨1, 2, 3⟩ :=
  ⟨by norm_num [magnitudeSquared],
   (rotate_spec (⟨3 / 5, 0, 0, 4 / 5⟩ : SrQuaternion ℚ) ⟨1, 2, 3⟩).2.2
     (by norm_num [magnitudeSquared])⟩

/-- Claim C13. Over exact arithmetic, for a general quaternion `rotate`
followed by `inverseRotate` returns `magnitudeSquared(q)^2` times `v`; for
every unit quaternion `q` and every vector `v`, `inverseRotate` applied
after `rotate` returns `v`, `rotate` applied after `inverseRotate` returns
`v`, and `invTransform(transform(v, p), p) = v` for every translation `p`. -/
theorem rotate_inverseRotate_spec (q : SrQuaternion F) (v p : SrVector3 F) :
    inverseRotate q (rotate q v) =
      ⟨v.x * (q.magnitudeSquared * q.magnitudeSquared),
       v.y * (q.magnitudeSquared * q.magnitudeSquared),
       v.z * (q.magnitudeSquared * q.magnitudeSquared)⟩ ∧
    (q.magnitudeSquared = 1 →
      inverseRotate q (rotate q v) = v ∧
      rotate q (inverseRotate q v) = v ∧
      invTransform q (transform q v p) p = v) := by
  refine ⟨inverseRotate_rotate_general q v, fun hq => ⟨?_, ?_, ?_⟩⟩
  · rw [inverseRotate_rotate_general, hq, mulScalar_one_one]
  · rw [rotate_inverseRotate_general, hq, mulScalar_one_one]
  · have hsub : ((q.rot v).add p).sub p = q.rot v := by
      ext <;> simp [SrVector3.add, SrVector3.sub]
    rw [transform, invTransform, hsub, ← rotate_eq_rot q v hq,
      ← inverseRotate_eq_invRot q _ hq, inverseRotate_rotate_general, hq,
      mulScalar_one_one]

/-- Witness for C13 at the unit quaternion `q = (3/5, 0, 0, 4/5)`,
`v = (1, 2, 3)` and `p = (4, 5, 6)`. -/
theorem rotate_inverseRotate_spec_witness :
    (⟨3 / 5, 0, 0, 4 / 5⟩ : SrQuaternion ℚ).magnitudeSquared = 1 ∧
    inverseRotate (⟨3 / 5, 0, 0, 4 / 5⟩ : SrQuaternion ℚ)
      (rotate (⟨3 / 5, 0, 0, 4 / 5⟩ : SrQuaternion ℚ) ⟨1, 2, 3⟩) = ⟨1, 2, 3⟩ ∧
    rotate (⟨3 / 5, 0, 0, 4 / 5⟩ : SrQuaternion ℚ)
      (inverseRotate (⟨3 / 5, 0, 0, 4 / 5⟩ : SrQuaternion ℚ) ⟨1, 2, 3⟩) = ⟨1, 2, 3⟩ ∧
    invTransform (⟨3 / 5, 0, 0, 4 / 5⟩ : SrQuaternion ℚ)
      (transform (⟨3 / 5, 0, 0, 4 / 5⟩ : SrQuaternion ℚ) ⟨1, 2, 3⟩ ⟨4, 5, 6⟩) ⟨4, 5, 6⟩
      = ⟨1, 2, 3⟩ :=
  ⟨by norm_num [magnitudeSquared],
   (rotate_inverseRotate_spec (⟨3 / 5, 0, 0, 4 / 5⟩ : SrQuaternion ℚ) ⟨1, 2, 3⟩ ⟨4, 5, 6⟩).2
     (by norm_num [magnitudeSquared])⟩

end SrQuaternion

/-! ## Theorems: angle and axis -/

namespace SrQuaternion

variable {F : Type} [LinearOrderedField F]

/-- The half angle of `fromAngleAxis`, in radians. -/
theorem degToRad_half (angle : ℝ) :
    SrMath.real.degToRad (angle * (1 / 2)) = angle * Real.pi / 360 := by
  simp only [SrMath.real]
  ring

/-- Claim C14. Over exact real arithmetic, for every angle (degrees) and
every axis of non-zero length, `fromAngleAxis(angle, axis)` produces
`w = cos(h)`, `(x,y,z) = (axis/|axis|) * sin(h)` with `h = angle*pi/360`;
this is exactly the quaternion
`fromAngleAxisFast(angle*pi/180, axis/|axis|)` produces, and its
`magnitudeSquared` is 1. -/
theorem fromAngleAxis_spec (angle : ℝ) (axis : SrVector3 ℝ)
    (h : Real.sqrt (axis.x * axis.x + axis.y * axis.y + axis.z * axis.z) ≠ 0) :
    fromAngleAxis SrMath.real angle axis =
      { w := Real.cos (angle * Real.pi / 360)
        x := axis.x / Real.sqrt (axis.x * axis.x + axis.y * axis.y + axis.z * axis.z)
          * Real.sin (angle * Real.pi / 360)
        y := axis.y / Real.sqrt (axis.x * axis.x + axis.y * axis.y + axis.z * axis.z)
          * Real.sin (angle * Real.pi / 360)
        z := axis.z / Real.sqrt (axis.x * axis.x + axis.y * axis.y + axis.z * axis.z)
          * Real.sin (angle * Real.pi / 360) } ∧
    fromAngleAxis SrMath.real angle axis =
      fromAngleAxisFast SrMath.real (angle * Real.pi / 180)
        ⟨axis.x / Real.sqrt (axis.x * axis.x + axis.y * axis.y + axis.z * axis.z),
         axis.y / Real.sqrt (axis.x * axis.x + axis.y * axis.y + axis.z * axis.z),
         axis.z / Real.sqrt (axis.x * axis.x + axis.y * axis.y + axis.z * axis.z)⟩ ∧
    (fromAngleAxis SrMath.real angle axis).magnitudeSquared = 1 := by
  have hH := degToRad_half angle
  have hS : SrMath.real.sqrt = Real.sqrt := rfl
  have hsin : SrMath.real.sin = Real.sin := rfl
  have hcos : SrMath.real.cos = Real.cos := rfl
  have hsc : SrMath.real.sinCos (angle * Real.pi / 180 * (1 / 2))
      = (Real.sin (angle * Real.pi / 360), Real.cos (angle * Real.pi / 360)) := by
    have e : angle * Real.pi / 180 * (1 / 2) = angle * Real.pi / 360 := by ring
    simp only [SrMath.real, e]
  have hform : fromAngleAxis SrMath.real angle axis =
      { w := Real.cos (angle * Real.pi / 360)
        x := axis.x / Real.sqrt (axis.x * axis.x + axis.y * axis.y + axis.z * axis.z)
          * Real.sin (angle * Real.pi / 360)
        y := axis.y / Real.sqrt (axis.x * axis.x + axis.y * axis.y + axis.z * axis.z)
          * Real.sin (angle * Real.pi / 360)
        z := axis.z / Real.sqrt (axis.x * axis.x + axis.y * axis.y + axis.z * axis.z)
          * Real.sin (angle * Real.pi / 360) } := by
    simp only [fromAngleAxis, hH, hS, hsin, hcos]
    ext <;> simp only [] <;> ring
  refine ⟨hform, ?_, ?_⟩
  · rw [hform]
    simp only [fromAngleAxisFast, hsc]
  · rw [hform]
    have hnn : 0 ≤ axis.x * axis.x + axis.y * axis.y + axis.z * axis.z :=
      add_nonneg (add_nonneg (mul_self_nonneg _) (mul_self_nonneg _)) (mul_self_nonneg _)
    have hsq := Real.mul_self_sqrt hnn
    have hsc1 := Real.sin_sq_add_cos_sq (angle * Real.pi / 360)
    simp only [magnitudeSquared]
    generalize Real.sqrt (axis.x * axis.x + axis.y * axis.y + axis.z * axis.z) = L at h hsq ⊢
    generalize Real.sin (angle * Real.pi / 360) = s at hsc1 ⊢
    generalize Real.cos (angle * Real.pi / 360) = c at hsc1 ⊢
    have hLL : L * L ≠ 0 := mul_ne_zero h h
    have e : axis.x / L * s * (axis.x / L * s) + axis.y / L * s * (axis.y / L * s)
        + axis.z / L * s * (axis.z / L * s) + c * c
        = (axis.x * axis.x + axis.y * axis.y + axis.z * axis.z) / (L * L) * (s * s) + c * c := by
      field_simp
      ring
    rw [e, ← hsq, div_self hLL]
    linear_combination hsc1

/-- Witness for C14 at `angle = 90` and `axis = (0, 0, 2)`. -/
theorem fromAngleAxis_spec_witness :
    Real.sqrt ((⟨0, 0, 2⟩ : SrVector3 ℝ).x * (⟨0, 0, 2⟩ : SrVector3 ℝ).x
      + (⟨0, 0, 2⟩ : SrVector3 ℝ).y * (⟨0, 0, 2⟩ : SrVector3 ℝ).y
      + (⟨0, 0, 2⟩ : SrVector3 ℝ).z * (⟨0, 0, 2⟩ : SrVector3 ℝ).z) ≠ 0 ∧
    (fromAngleAxis SrMath.real 90 (⟨0, 0, 2⟩ : SrVector3 ℝ)).magnitudeSquared = 1 :=
  ⟨Real.sqrt_ne_zero'.mpr (by norm_num),
   (fromAngleAxis_spec 90 (⟨0, 0, 2⟩ : SrVector3 ℝ)
      (Real.sqrt_ne_zero'.mpr (by norm_num))).2.2⟩

/-- Claim C15, amended. Over exact real arithmetic, if the angle exceeds
360 the resulting rotation is the angle mod 360: for every angle and every
axis, `fromAngleAxis(angle + 360, axis)` is the negation of
`fromAngleAxis(angle, axis)`, and `SrMatrix33::fromQuat` gives the same
rotation matrix for both. -/
theorem fromAngleAxis_add_360 (angle : ℝ) (axis : SrVector3 ℝ) :
    fromAngleAxis SrMath.real (angle + 360) axis
      = (fromAngleAxis SrMath.real angle axis).neg ∧
    SrMatrix33.fromQuat (fromAngleAxis SrMath.real (angle + 360) axis)
      = SrMatrix33.fromQuat (fromAngleAxis SrMath.real angle axis) := by
  have hH : SrMath.real.degToRad ((angle + 360) * (1 / 2))
      = SrMath.real.degToRad (angle * (1 / 2)) + Real.pi := by
    simp only [SrMath.real]
    field_simp
    ring
  have hsin : SrMath.real.sin = Real.sin := rfl
  have hcos : SrMath.real.cos = Real.cos := rfl
  have hneg : fromAngleAxis SrMath.real (angle + 360) axis
      = (fromAngleAxis SrMath.real angle axis).neg := by
    simp only [fromAngleAxis, neg, hH, hsin, hcos, Real.sin_add_pi, Real.cos_add_pi]
    ext <;> simp only [] <;> ring
  exact ⟨hneg, by rw [hneg, SrMatrix33.fromQuat_neg]⟩

end SrQuaternion

namespace SrQuaternion

variable {F : Type} [LinearOrderedField F]

/-- The branch `sa == 0` of `getAngleAxis`: the angle is left as computed
and the axis is `(1, 0, 0)`. -/
theorem getAngleAxis_of_eq_zero (m : SrMath F) (q : SrQuaternion F)
    (h : m.sqrt (1 - q.w * q.w) = 0) :
    getAngleAxis m q = (m.acos q.w * 2, ⟨1, 0, 0⟩) := by
  simp only [getAngleAxis, h, ne_eq, not_true_eq_false, if_false]

/-- The branch `sa != 0` of `getAngleAxis`: the angle is converted by
`radToDeg` and the axis is `(x, y, z) / sa`. -/
theorem getAngleAxis_of_ne_zero (m : SrMath F) (q : SrQuaternion F)
    (h : m.sqrt (1 - q.w * q.w) ≠ 0) :
    getAngleAxis m q =
      (m.radToDeg (m.acos q.w * 2),
       ⟨q.x / m.sqrt (1 - q.w * q.w), q.y / m.sqrt (1 - q.w * q.w),
        q.z / m.sqrt (1 - q.w * q.w)⟩) := by
  simp only [getAngleAxis, h, ne_eq, not_false_eq_true, if_true]

/-- Claim C16. For every quaternion with `sqrt(1 - w^2) = 0`,
`getAngleAxis` sets the axis to `(1,0,0)`; this is the case for `w = 1` and
`w = -1` whenever `sqrt(0) = 0`. For every quaternion with
`sqrt(1 - w^2) != 0` it sets the axis to `(x,y,z)/sqrt(1 - w^2)`. -/
theorem getAngleAxis_axis (m : SrMath F) (q : SrQuaternion F) :
    (m.sqrt (1 - q.w * q.w) = 0 → (getAngleAxis m q).2 = ⟨1, 0, 0⟩) ∧
    (m.sqrt 0 = 0 → (q.w = 1 ∨ q.w = -1) → (getAngleAxis m q).2 = ⟨1, 0, 0⟩) ∧
    (m.sqrt (1 - q.w * q.w) ≠ 0 →
      (getAngleAxis m q).2 =
        ⟨q.x / m.sqrt (1 - q.w * q.w), q.y / m.sqrt (1 - q.w * q.w),
         q.z / m.sqrt (1 - q.w * q.w)⟩) := by
  refine ⟨fun h => ?_, fun h0 hw => ?_, fun h => ?_⟩
  · rw [getAngleAxis_of_eq_zero m q h]
  · have hz : (1 : F) - q.w * q.w = 0 := by
      rcases hw with hw | hw <;> rw [hw] <;> ring
    rw [getAngleAxis_of_eq_zero m q (by rw [hz]; exact h0)]
  · rw [getAngleAxis_of_ne_zero m q h]

/-- Witness for C16 over the reals: `q = (0, 0, 0, -1)` takes the branch
`sa == 0`, and `q = (0, 3/5, 0, 4/5)` the branch `sa != 0`. -/
theorem getAngleAxis_axis_witness :
    SrMath.real.sqrt (1 - (⟨0, 0, 0, -1⟩ : SrQuaternion ℝ).w
      * (⟨0, 0, 0, -1⟩ : SrQuaternion ℝ).w) = 0 ∧
    (getAngleAxis SrMath.real (⟨0, 0, 0, -1⟩ : SrQuaternion ℝ)).2 = ⟨1, 0, 0⟩ ∧
    SrMath.real.sqrt (1 - (⟨0, 3 / 5, 0, 4 / 5⟩ : SrQuaternion ℝ).w
      * (⟨0, 3 / 5, 0, 4 / 5⟩ : SrQuaternion ℝ).w) ≠ 0 ∧
    (getAngleAxis SrMath.real (⟨0, 3 / 5, 0, 4 / 5⟩ : SrQuaternion ℝ)).2 =
      ⟨(⟨0, 3 / 5, 0, 4 / 5⟩ : SrQuaternion ℝ).x
          / SrMath.real.sqrt (1 - (⟨0, 3 / 5, 0, 4 / 5⟩ : SrQuaternion ℝ).w
            * (⟨0, 3 / 5, 0, 4 / 5⟩ : SrQuaternion ℝ).w),
       (⟨0, 3 / 5, 0, 4 / 5⟩ : SrQuaternion ℝ).y
          / SrMath.real.sqrt (1 - (⟨0, 3 / 5, 0, 4 / 5⟩ : SrQuaternion ℝ).w
            * (⟨0, 3 / 5, 0, 4 / 5⟩ : SrQuaternion ℝ).w),
       (⟨0, 3 / 5, 0, 4 / 5⟩ : SrQuaternion ℝ).z
          / SrMath.real.sqrt (1 - (⟨0, 3 / 5, 0, 4 / 5⟩ : SrQuaternion ℝ).w
            * (⟨0, 3 / 5, 0, 4 / 5⟩ : SrQuaternion ℝ).w)⟩ :=
  ⟨by norm_num [SrMath.real],
   (getAngleAxis_axis SrMath.real (⟨0, 0, 0, -1⟩ : SrQuaternion ℝ)).1
     (by norm_num [SrMath.real]),
   Real.sqrt_ne_zero'.mpr (by norm_num),
   (getAngleAxis_axis SrMath.real (⟨0, 3 / 5, 0, 4 / 5⟩ : SrQuaternion ℝ)).2.2
     (Real.sqrt_ne_zero'.mpr (by norm_num))⟩

/-- Claim C17, evaluated at `q = (0, 0, 0, -1)` over the reals:
`sqrt(1 - w^2)` is 0, so `getAngleAxis` takes the branch without `radToDeg`
and reports `2 * acos(-1) = 2 pi`, the angle in radians, where the angle in
degrees `(2 * acos(w)) * 180 / pi` is 360. -/
theorem getAngleAxis_angle_radians_at_neg_one :
    (getAngleAxis SrMath.real (⟨0, 0, 0, -1⟩ : SrQuaternion ℝ)).1 = 2 * Real.pi ∧
    (2 * Real.arccos (⟨0, 0, 0, -1⟩ : SrQuaternion ℝ).w) * 180 / Real.pi = 360 ∧
    (getAngleAxis SrMath.real (⟨0, 0, 0, -1⟩ : SrQuaternion ℝ)).1 ≠ 360 := by
  have hb : getAngleAxis SrMath.real (⟨0, 0, 0, -1⟩ : SrQuaternion ℝ)
      = (SrMath.real.acos (-1) * 2, ⟨1, 0, 0⟩) :=
    getAngleAxis_of_eq_zero SrMath.real _ (by norm_num [SrMath.real])
  have ha : SrMath.real.acos (-1) = Real.pi := Real.arccos_neg_one
  have hpi := Real.pi_pos
  have h4 := Real.pi_le_four
  refine ⟨?_, ?_, ?_⟩
  · rw [hb, ha]
    ring
  · simp only [Real.arccos_neg_one]
    field_simp
    ring
  · rw [hb, ha]
    intro h
    simp only at h
    linarith

/-- Claim C18, evaluated at `q = (1, 0, 0, 0)` over the reals: `getAngle()`
returns `2 * acos(0) = pi`, the angle in radians, while the angle in
degrees `(2 * acos(w)) * 180 / pi`, which `getAngleAxis` reports for the
same quaternion, is 180. -/
theorem getAngle_radians_at_half_turn :
    getAngle SrMath.real (⟨1, 0, 0, 0⟩ : SrQuaternion ℝ) = Real.pi ∧
    (2 * Real.arccos (⟨1, 0, 0, 0⟩ : SrQuaternion ℝ).w) * 180 / Real.pi = 180 ∧
    (getAngleAxis SrMath.real (⟨1, 0, 0, 0⟩ : SrQuaternion ℝ)).1 = 180 ∧
    getAngle SrMath.real (⟨1, 0, 0, 0⟩ : SrQuaternion ℝ)
      ≠ (getAngleAxis SrMath.real (⟨1, 0, 0, 0⟩ : SrQuaternion ℝ)).1 := by
  have ha : SrMath.real.acos 0 = Real.pi / 2 := Real.arccos_zero
  have hpi := Real.pi_pos
  have h4 := Real.pi_le_four
  have hg : getAngle SrMath.real (⟨1, 0, 0, 0⟩ : SrQuaternion ℝ) = Real.pi := by
    simp only [getAngle, ha]
    ring
  have hb : (getAngleAxis SrMath.real (⟨1, 0, 0, 0⟩ : SrQuaternion ℝ)).1 = 180 := by
    rw [getAngleAxis_of_ne_zero SrMath.real _ (by norm_num [SrMath.real])]
    simp only [ha]
    simp only [SrMath.real]
    field_simp
  refine ⟨hg, ?_, hb, ?_⟩
  · simp only [Real.arccos_zero]
    field_simp
  · rw [hg, hb]
    intro h
    linarith

end SrQuaternion

/-! ## Theorems: normalize -/

namespace SrQuaternion

/-- The squared magnitude is positive away from the all-zero quaternion. -/
theorem magnitudeSquared_pos (q : SrQuaternion ℝ) (h : q ≠ ⟨0, 0, 0, 0⟩) :
    0 < q.magnitudeSquared := by
  have hnn : 0 ≤ q.magnitudeSquared :=
    add_nonneg (add_nonneg (add_nonneg (mul_self_nonneg _) (mul_self_nonneg _))
      (mul_self_nonneg _)) (mul_self_nonneg _)
  rcases hnn.lt_or_eq with hlt | heq
  · exact hlt
  · exfalso
    apply h
    simp only [magnitudeSquared] at heq
    have hx : q.x = 0 := by
      nlinarith [mul_self_nonneg q.x, mul_self_nonneg q.y, mul_self_nonneg q.z,
        mul_self_nonneg q.w]
    have hy : q.y = 0 := by
      nlinarith [mul_self_nonneg q.x, mul_self_nonneg q.y, mul_self_nonneg q.z,
        mul_self_nonneg q.w]
    have hz : q.z = 0 := by
      nlinarith [mul_self_nonneg q.x, mul_self_nonneg q.y, mul_self_nonneg q.z,
        mul_self_nonneg q.w]
    have hw : q.w = 0 := by
      nlinarith [mul_self_nonneg q.x, mul_self_nonneg q.y, mul_self_nonneg q.z,
        mul_self_nonneg q.w]
    ext <;> assumption

/-- The value of `normalize` on a quaternion other than the all-zero one. -/
theorem normalize_of_ne_zero (q : SrQuaternion ℝ) (h : q ≠ ⟨0, 0, 0, 0⟩) :
    normalize SrMath.real q =
      ⟨q.x * (1 / Real.sqrt q.magnitudeSquared), q.y * (1 / Real.sqrt q.magnitudeSquared),
       q.z * (1 / Real.sqrt q.magnitudeSquared), q.w * (1 / Real.sqrt q.magnitudeSquared)⟩ := by
  have hne : Real.sqrt q.magnitudeSquared ≠ 0 :=
    (Real.sqrt_pos.mpr (magnitudeSquared_pos q h)).ne'
  have hS : SrMath.real.sqrt = Real.sqrt := rfl
  simp only [normalize, hS]
  exact if_pos hne

/-- The guard of `normalize` skips the divide on the all-zero quaternion. -/
theorem normalize_zero : normalize SrMath.real (⟨0, 0, 0, 0⟩ : SrQuaternion ℝ)
    = ⟨0, 0, 0, 0⟩ := by
  have h0 : ¬ (SrMath.real.sqrt (⟨0, 0, 0, 0⟩ : SrQuaternion ℝ).magnitudeSquared ≠ 0) := by
    simp [SrMath.real, magnitudeSquared]
  simp only [normalize]
  exact if_neg h0

/-- The result of `normalize` on a quaternion other than the all-zero one
has squared magnitude 1. -/
theorem magnitudeSquared_normalize (q : SrQuaternion ℝ) (h : q ≠ ⟨0, 0, 0, 0⟩) :
    (normalize SrMath.real q).magnitudeSquared = 1 := by
  have hpos := magnitudeSquared_pos q h
  have hsq := Real.mul_self_sqrt hpos.le
  have hne : Real.sqrt q.magnitudeSquared ≠ 0 := (Real.sqrt_pos.mpr hpos).ne'
  rw [normalize_of_ne_zero q h]
  generalize Real.sqrt q.magnitudeSquared = L at hsq hne
  have hLL : L * L ≠ 0 := mul_ne_zero hne hne
  have e : (⟨q.x * (1 / L), q.y * (1 / L), q.z * (1 / L), q.w * (1 / L)⟩ :
      SrQuaternion ℝ).magnitudeSquared = q.magnitudeSquared / (L * L) := by
    simp only [magnitudeSquared]
    field_simp
  rw [e, ← hsq, div_self hLL]

/-- Claim C19. Over exact real arithmetic, `normalize` maps every non-zero
quaternion to one with `magnitudeSquared = 1` that is a positive scalar
multiple of the original, leaves the all-zero quaternion unchanged (the
zero-magnitude guard skips the divide), and is idempotent. -/
theorem normalize_spec (q : SrQuaternion ℝ) :
    (q ≠ ⟨0, 0, 0, 0⟩ →
      (normalize SrMath.real q).magnitudeSquared = 1 ∧
      ∃ k : ℝ, 0 < k ∧ normalize SrMath.real q = ⟨q.x * k, q.y * k, q.z * k, q.w * k⟩) ∧
    normalize SrMath.real (⟨0, 0, 0, 0⟩ : SrQuaternion ℝ) = ⟨0, 0, 0, 0⟩ ∧
    normalize SrMath.real (normalize SrMath.real q) = normalize SrMath.real q := by
  refine ⟨fun h => ⟨magnitudeSquared_normalize q h, ?_⟩, normalize_zero, ?_⟩
  · exact ⟨1 / Real.sqrt q.magnitudeSquared,
      one_div_pos.mpr (Real.sqrt_pos.mpr (magnitudeSquared_pos q h)),
      normalize_of_ne_zero q h⟩
  · by_cases h : q = ⟨0, 0, 0, 0⟩
    · rw [h, normalize_zero, normalize_zero]
    · have h1 := magnitudeSquared_normalize q h
      have hn : normalize SrMath.real q ≠ ⟨0, 0, 0, 0⟩ := by
        intro h0
        rw [h0] at h1
        norm_num [magnitudeSquared] at h1
      rw [normalize_of_ne_zero _ hn, h1, Real.sqrt_one]
      ext <;> simp

/-- Witness for C19 at `q = (3, 0, 0, 4)`. -/
theorem normalize_spec_witness :
    (⟨3, 0, 0, 4⟩ : SrQuaternion ℝ) ≠ ⟨0, 0, 0, 0⟩ ∧
    (normalize SrMath.real (⟨3, 0, 0, 4⟩ : SrQuaternion ℝ)).magnitudeSquared = 1 :=
  ⟨fun h => by
      have hx := congrArg SrQuaternion.x h
      norm_num at hx,
   ((normalize_spec (⟨3, 0, 0, 4⟩ : SrQuaternion ℝ)).1 (fun h => by
      have hx := congrArg SrQuaternion.x h
      norm_num at hx)).1⟩

end SrQuaternion

/-! ## Theorems: matrix product -/

namespace SrMatrix33

variable {F : Type} [LinearOrderedField F]

/-- On a store, `multiply` leaves in `*this` the product of the operands'
values at entry, whichever of the three objects coincide. -/
theorem matrix_multiplyAt_self (self left right : Nat) (σ : Nat → SrMatrix33 F) :
    multiplyAt self left right σ self = multiply (σ left) (σ right) := by
  simp only [multiplyAt, multiply, Function.update_same]

/-- The entries `multiply` computes are those of the matrix product. -/
theorem elem_multiply (L R : SrMatrix33 F) (i j : Fin 3) :
    (multiply L R).elem i j = ∑ k : Fin 3, L.elem i k * R.elem k j := by
  fin_cases i <;> fin_cases j <;> simp [Fin.sum_univ_three, elem, multiply]

/-- Claim C20. `SrMatrix33::multiply(left, right)` sets `*this` to the
matrix product (entry `(i,j)` is the sum over `k` of
`left(i,k) * right(k,j)`) using the operands' values at entry even when
`*this` is the same object as `left` and/or `right`, so `M.multiply(M, M)`
equals `M` squared computed from a separate copy; `operator*=` and
`operator*` give the same product. -/
theorem multiply_spec (L R : SrMatrix33 F) (self left right : Nat)
    (σ : Nat → SrMatrix33 F) :
    (∀ i j : Fin 3, (multiply L R).elem i j = ∑ k : Fin 3, L.elem i k * R.elem k j) ∧
    multiplyAt self left right σ self = multiply (σ left) (σ right) ∧
    multiplyAt self self right σ self = multiply (σ self) (σ right) ∧
    multiplyAt self left self σ self = multiply (σ left) (σ self) ∧
    multiplyAt self self self σ self = multiply (σ self) (σ self) ∧
    mulAssignAt self right σ self = multiply (σ self) (σ right) ∧
    mulAssignAt self self σ self = multiply (σ self) (σ self) ∧
    mul L R = multiply L R :=
  ⟨elem_multiply L R, matrix_multiplyAt_self _ _ _ _, matrix_multiplyAt_self _ _ _ _,
   matrix_multiplyAt_self _ _ _ _, matrix_multiplyAt_self _ _ _ _, matrix_multiplyAt_self _ _ _ _,
   matrix_multiplyAt_self _ _ _ _, rfl⟩

end SrMatrix33

/-! ## Theorems: transposes and transposed products -/

namespace SrMatrix33

variable {F : Type} [LinearOrderedField F]

/-- Claim C21. For all 3x3 matrices `left` and `right`:
`multiplyTransposeLeft(left, right)` equals
`multiply(transpose(left), right)`; `multiplyTransposeRight(left, right)`
equals `multiply(left, transpose(right))`; and for every vector `v`,
`multiplyByTranspose(v)` (`operator %`) equals `transpose(this)` multiplied
by `v`. The transpose is the matrix `setTransposed` writes, whose entry
`(i, j)` is entry `(j, i)` of its argument. -/
theorem multiplyTranspose_spec (left right M : SrMatrix33 F) (v : SrVector3 F) :
    (∀ i j : Fin 3, (setTransposed M).elem i j = M.elem j i) ∧
    multiplyTransposeLeft left right = multiply (setTransposed left) right ∧
    multiplyTransposeRight left right = multiply left (setTransposed right) ∧
    multiplyByTranspose M v = multiplyVec (setTransposed M) v ∧
    modVec M v = mulVec (setTransposed M) v := by
  refine ⟨fun i j => ?_, ?_, ?_, ?_, ?_⟩
  · fin_cases i <;> fin_cases j <;> rfl
  · simp only [multiplyTransposeLeft, multiply, setTransposed]
  · simp only [multiplyTransposeRight, multiply, setTransposed]
  · simp only [multiplyByTranspose, multiplyVec, setTransposed]
  · simp only [modVec, mulVec, multiplyByTranspose, multiplyVec, setTransposed]

end SrMatrix33

namespace SrMatrix33

variable {F : Type}

/-- On a store, `setTransposed(other)` leaves in `*this` the transpose of
the value `other` has at entry, in the copying and in the swapping branch. -/
theorem setTransposedAt_self (self other : Nat) (σ : Nat → SrMatrix33 F) :
    setTransposedAt self other σ self = setTransposed (σ other) := by
  by_cases h : self = other
  · subst h
    unfold setTransposedAt
    rw [if_neg (not_not.mpr rfl)]
    simp only [Function.update_same, setTransposed]
  · have h' : other ≠ self := fun e => h e.symm
    unfold setTransposedAt
    rw [if_pos h]
    simp only [Function.update_same, Function.update_noteq h', setTransposed]

/-- The swaps of the no-argument `setTransposed()` transpose the matrix. -/
theorem setTransposedSelf_eq (M : SrMatrix33 F) : setTransposedSelf M = setTransposed M := by
  simp only [setTransposedSelf, setTransposed]

/-- Transposing twice restores the matrix. -/
theorem setTransposed_setTransposed (M : SrMatrix33 F) :
    setTransposed (setTransposed M) = M := by
  simp only [setTransposed]

/-- Claim C22. `SrMatrix33::setTransposed(other)` sets `*this` to the
transpose of `other` (entry `(i,j)` is `other(j,i)`) in both of its
branches: the element-swap branch taken when `other` is this same object
gives the same matrix as the copying branch applied to a separate copy; the
no-argument `setTransposed()` gives the same result, and transposing twice
restores the original matrix. -/
theorem setTransposed_spec (self other : Nat) (σ : Nat → SrMatrix33 F) (M : SrMatrix33 F) :
    (∀ i j : Fin 3, (setTransposedAt self other σ self).elem i j = (σ other).elem j i) ∧
    (∀ i j : Fin 3, (setTransposedAt self self σ self).elem i j = (σ self).elem j i) ∧
    setTransposedAt self other σ self = setTransposed (σ other) ∧
    setTransposedAt self self σ self = setTransposed (σ self) ∧
    setTransposedSelf M = setTransposed M ∧
    setTransposed (setTransposed M) = M ∧
    setTransposedSelf (setTransposedSelf M) = M := by
  have he : ∀ (A : SrMatrix33 F) (i j : Fin 3), (setTransposed A).elem i j = A.elem j i := by
    intro A i j
    fin_cases i <;> fin_cases j <;> rfl
  refine ⟨fun i j => ?_, fun i j => ?_, setTransposedAt_self _ _ _, setTransposedAt_self _ _ _,
    setTransposedSelf_eq M, setTransposed_setTransposed M, ?_⟩
  · rw [setTransposedAt_self, he]
  · rw [setTransposedAt_self, he]
  · rw [setTransposedSelf_eq, setTransposedSelf_eq, setTransposed_setTransposed]

end SrMatrix33

/-! ## Theorems: composing rigid transforms -/

namespace SrMatrix34

variable {F : Type} [LinearOrderedField F]

/-- Composition of transforms is associative. -/
theorem multiply_multiply (T1 T2 T3 : SrMatrix34 F) :
    multiply (multiply T1 T2) T3 = multiply T1 (multiply T2 T3) := by
  apply SrMatrix34.ext
  · ext <;> simp only [multiply, SrMatrix33.multiply] <;> ring
  · ext <;> simp only [multiply, SrMatrix33.mulVec, SrMatrix33.multiplyVec,
      SrMatrix33.multiply, SrVector3.add] <;> ring

/-- Claim C24. Over exact arithmetic, composition of rigid transforms is
associative: for any three transforms `T1`, `T2`, `T3` (no orthonormality
assumed), `multiply(multiply(T1,T2), T3)` equals
`multiply(T1, multiply(T2,T3))` in both `M` and `t`; and the identity
transform (`id()`) is a left and right unit. -/
theorem multiply_assoc_unit (T1 T2 T3 : SrMatrix34 F) :
    multiply (multiply T1 T2) T3 = multiply T1 (multiply T2 T3) ∧
    (multiply (multiply T1 T2) T3).M = (multiply T1 (multiply T2 T3)).M ∧
    (multiply (multiply T1 T2) T3).t = (multiply T1 (multiply T2 T3)).t ∧
    multiply id T1 = T1 ∧
    multiply T1 id = T1 := by
  have h := multiply_multiply T1 T2 T3
  refine ⟨h, by rw [h], by rw [h], ?_, ?_⟩
  · apply SrMatrix34.ext
    · ext <;> simp [multiply, id, SrMatrix33.multiply, SrMatrix33.id]
    · ext <;> simp [multiply, id, SrMatrix33.mulVec, SrMatrix33.multiplyVec,
        SrMatrix33.id, SrVector3.add, SrVector3.zero]
  · apply SrMatrix34.ext
    · ext <;> simp [multiply, id, SrMatrix33.multiply, SrMatrix33.id]
    · ext <;> simp [multiply, id, SrMatrix33.mulVec, SrMatrix33.multiplyVec,
        SrMatrix33.id, SrVector3.add, SrVector3.zero]

end SrMatrix34

namespace SrMatrix33

variable {F : Type} [LinearOrderedField F]

/-- On a store, `multiplyTransposeLeft` leaves in `*this` the product of the
operands' values at entry, whichever of the three objects coincide. -/
theorem multiplyTransposeLeftAt_self (self left right : Nat) (σ : Nat → SrMatrix33 F) :
    multiplyTransposeLeftAt self left right σ self
      = multiplyTransposeLeft (σ left) (σ right) := by
  simp only [multiplyTransposeLeftAt, multiplyTransposeLeft, Function.update_same]

/-- On a store, `multiplyTransposeRight` leaves in `*this` the product of
the operands' values at entry, whichever of the three objects coincide. -/
theorem multiplyTransposeRightAt_self (self left right : Nat) (σ : Nat → SrMatrix33 F) :
    multiplyTransposeRightAt self left right σ self
      = multiplyTransposeRight (σ left) (σ right) := by
  simp only [multiplyTransposeRightAt, multiplyTransposeRight, Function.update_same]

end SrMatrix33

namespace SrMatrix34

variable {F : Type} [LinearOrderedField F]

/-- The transform `multiplyInverseRTLeft` computes, member by member. -/
theorem multiplyInverseRTLeft_eq (left right : SrMatrix34 F) :
    multiplyInverseRTLeft left right =
      ⟨SrMatrix33.multiply (SrMatrix33.setTransposed left.M) right.M,
       (SrMatrix33.setTransposed left.M).multiplyVec (right.t.sub left.t)⟩ := by
  simp only [multiplyInverseRTLeft, SrMatrix33.multiplyTransposeLeft, SrMatrix33.multiply,
    SrMatrix33.setTransposed, SrMatrix33.modVec, SrMatrix33.multiplyByTranspose,
    SrMatrix33.multiplyVec]

/-- The transform `multiplyInverseRTRight` computes, member by member. -/
theorem multiplyInverseRTRight_eq (left right : SrMatrix34 F) :
    multiplyInverseRTRight left right =
      ⟨SrMatrix33.multiply left.M (SrMatrix33.setTransposed right.M),
       left.t.sub ((SrMatrix33.multiply left.M (SrMatrix33.setTransposed right.M)).multiplyVec
         right.t)⟩ := by
  simp only [multiplyInverseRTRight, SrMatrix33.multiplyTransposeRight, SrMatrix33.multiply,
    SrMatrix33.setTransposed, SrMatrix33.mulVec, SrMatrix33.multiplyVec]

/-- Claim C25. Over exact arithmetic, for all transforms `left` and `right`:
`multiplyInverseRTLeft(left, right)` (`M = transpose(left.M) x right.M`,
`t = transpose(left.M) x (right.t - left.t)`) equals
`multiply(getInverseRT(left), right)`, and
`multiplyInverseRTRight(left, right)` (`M = left.M x transpose(right.M)`,
`t = left.t - M x right.t`) equals `multiply(left, getInverseRT(right))`;
hence when the assumed operand's `M` is orthonormal,
`multiply(left, multiplyInverseRTLeft(left, right)) = right` and
`multiply(multiplyInverseRTRight(left, right), right) = left`. -/
theorem multiplyInverseRT_spec (left right : SrMatrix34 F) :
    multiplyInverseRTLeft left right =
      ⟨SrMatrix33.multiply (SrMatrix33.setTransposed left.M) right.M,
       (SrMatrix33.setTransposed left.M).multiplyVec (right.t.sub left.t)⟩ ∧
    multiplyInverseRTRight left right =
      ⟨SrMatrix33.multiply left.M (SrMatrix33.setTransposed right.M),
       left.t.sub ((SrMatrix33.multiply left.M (SrMatrix33.setTransposed right.M)).multiplyVec
         right.t)⟩ ∧
    multiplyInverseRTLeft left right = multiply left.getInverseRT.2 right ∧
    multiplyInverseRTRight left right = multiply left right.getInverseRT.2 ∧
    (SrMatrix33.multiply left.M (SrMatrix33.setTransposed left.M) = SrMatrix33.id ∧
      SrMatrix33.multiply (SrMatrix33.setTransposed left.M) left.M = SrMatrix33.id →
      multiply left (multiplyInverseRTLeft left right) = right) ∧
    (SrMatrix33.multiply right.M (SrMatrix33.setTransposed right.M) = SrMatrix33.id ∧
      SrMatrix33.multiply (SrMatrix33.setTransposed right.M) right.M = SrMatrix33.id →
      multiply (multiplyInverseRTRight left right) right = left) := by
  refine ⟨multiplyInverseRTLeft_eq left right, multiplyInverseRTRight_eq left right,
    ?_, ?_, ?_, ?_⟩
  · rw [multiplyInverseRTLeft_eq]
    apply SrMatrix34.ext
    · rfl
    · ext <;> simp only [multiply, getInverseRT, SrMatrix33.mulVec, SrMatrix33.multiplyVec,
        SrMatrix33.setTransposed, SrVector3.add, SrVector3.sub, SrVector3.mulScalar] <;> ring
  · rw [multiplyInverseRTRight_eq]
    apply SrMatrix34.ext
    · rfl
    · ext <;> simp only [multiply, getInverseRT, SrMatrix33.mulVec, SrMatrix33.multiplyVec,
        SrMatrix33.multiply, SrMatrix33.setTransposed, SrVector3.add, SrVector3.sub,
        SrVector3.mulScalar] <;> ring
  · intro ho
    have e := SrMatrix33.ext_iff.mp ho.1
    simp only [SrMatrix33.multiply, SrMatrix33.id, SrMatrix33.setTransposed] at e
    obtain ⟨e1, e2, e3, e4, e5, e6, e7, e8, e9⟩ := e
    rw [multiplyInverseRTLeft_eq]
    apply SrMatrix34.ext
    · ext
      · simp only [multiply, SrMatrix33.multiply, SrMatrix33.setTransposed]
        linear_combination right.M._11 * e1 + right.M._21 * e2 + right.M._31 * e3
      · simp only [multiply, SrMatrix33.multiply, SrMatrix33.setTransposed]
        linear_combination right.M._12 * e1 + right.M._22 * e2 + right.M._32 * e3
      · simp only [multiply, SrMatrix33.multiply, SrMatrix33.setTransposed]
        linear_combination right.M._13 * e1 + right.M._23 * e2 + right.M._33 * e3
      · simp only [multiply, SrMatrix33.multiply, SrMatrix33.setTransposed]
        linear_combination right.M._11 * e4 + right.M._21 * e5 + right.M._31 * e6
      · simp only [multiply, SrMatrix33.multiply, SrMatrix33.setTransposed]
        linear_combination right.M._12 * e4 + right.M._22 * e5 + right.M._32 * e6
      · simp only [multiply, SrMatrix33.multiply, SrMatrix33.setTransposed]
        linear_combination right.M._13 * e4 + right.M._23 * e5 + right.M._33 * e6
      · simp only [multiply, SrMatrix33.multiply, SrMatrix33.setTransposed]
        linear_combination right.M._11 * e7 + right.M._21 * e8 + right.M._31 * e9
      · simp only [multiply, SrMatrix33.multiply, SrMatrix33.setTransposed]
        linear_combination right.M._12 * e7 + right.M._22 * e8 + right.M._32 * e9
      · simp only [multiply, SrMatrix33.multiply, SrMatrix33.setTransposed]
        linear_combination right.M._13 * e7 + right.M._23 * e8 + right.M._33 * e9
    · ext
      · simp only [multiply, SrMatrix33.mulVec, SrMatrix33.multiplyVec,
          SrMatrix33.setTransposed, SrVector3.add, SrVector3.sub]
        linear_combination (right.t.x - left.t.x) * e1 + (right.t.y - left.t.y) * e2
          + (right.t.z - left.t.z) * e3
      · simp only [multiply, SrMatrix33.mulVec, SrMatrix33.multiplyVec,
          SrMatrix33.setTransposed, SrVector3.add, SrVector3.sub]
        linear_combination (right.t.x - left.t.x) * e4 + (right.t.y - left.t.y) * e5
          + (right.t.z - left.t.z) * e6
      · simp only [multiply, SrMatrix33.mulVec, SrMatrix33.multiplyVec,
          SrMatrix33.setTransposed, SrVector3.add, SrVector3.sub]
        linear_combination (right.t.x - left.t.x) * e7 + (right.t.y - left.t.y) * e8
          + (right.t.z - left.t.z) * e9
  · intro ho
    have e := SrMatrix33.ext_iff.mp ho.2
    simp only [SrMatrix33.multiply, SrMatrix33.id, SrMatrix33.setTransposed] at e
    obtain ⟨e1, e2, e3, e4, e5, e6, e7, e8, e9⟩ := e
    rw [multiplyInverseRTRight_eq]
    apply SrMatrix34.ext
    · ext
      · simp only [multiply, SrMatrix33.multiply, SrMatrix33.setTransposed]
        linear_combination left.M._11 * e1 + left.M._12 * e4 + left.M._13 * e7
      · simp only [multiply, SrMatrix33.multiply, SrMatrix33.setTransposed]
        linear_combination left.M._11 * e2 + left.M._12 * e5 + left.M._13 * e8
      · simp only [multiply, SrMatrix33.multiply, SrMatrix33.setTransposed]
        linear_combination left.M._11 * e3 + left.M._12 * e6 + left.M._13 * e9
      · simp only [multiply, SrMatrix33.multiply, SrMatrix33.setTransposed]
        linear_combination left.M._21 * e1 + left.M._22 * e4 + left.M._23 * e7
      · simp only [multiply, SrMatrix33.multiply, SrMatrix33.setTransposed]
        linear_combination left.M._21 * e2 + left.M._22 * e5 + left.M._23 * e8
      · simp only [multiply, SrMatrix33.multiply, SrMatrix33.setTransposed]
        linear_combination left.M._21 * e3 + left.M._22 * e6 + left.M._23 * e9
      · simp only [multiply, SrMatrix33.multiply, SrMatrix33.setTransposed]
        linear_combination left.M._31 * e1 + left.M._32 * e4 + left.M._33 * e7
      · simp only [multiply, SrMatrix33.multiply, SrMatrix33.setTransposed]
        linear_combination left.M._31 * e2 + left.M._32 * e5 + left.M._33 * e8
      · simp only [multiply, SrMatrix33.multiply, SrMatrix33.setTransposed]
        linear_combination left.M._31 * e3 + left.M._32 * e6 + left.M._33 * e9
    · ext <;> simp only [multiply, SrMatrix33.mulVec, SrMatrix33.multiplyVec,
        SrMatrix33.multiply, SrMatrix33.setTransposed, SrVector3.add, SrVector3.sub] <;> ring

end SrMatrix34

namespace SrMatrix34

variable {F : Type} [LinearOrderedField F]

/-- Witness for C25 at the quarter turn about the z axis,
`M = [0 -1 0; 1 0 0; 0 0 1]` with `t = (1, 2, 3)`, as `left` and as
`right`, the other operand being `[2 1 0; 0 1 0; 1 0 1]` with
`t = (4, 5, 6)`. -/
theorem multiplyInverseRT_spec_witness :
    (SrMatrix33.multiply (⟨0, -1, 0, 1, 0, 0, 0, 0, 1⟩ : SrMatrix33 ℚ)
        (SrMatrix33.setTransposed ⟨0, -1, 0, 1, 0, 0, 0, 0, 1⟩) = SrMatrix33.id ∧
      SrMatrix33.multiply (SrMatrix33.setTransposed ⟨0, -1, 0, 1, 0, 0, 0, 0, 1⟩)
        (⟨0, -1, 0, 1, 0, 0, 0, 0, 1⟩ : SrMatrix33 ℚ) = SrMatrix33.id) ∧
    multiply (⟨⟨0, -1, 0, 1, 0, 0, 0, 0, 1⟩, ⟨1, 2, 3⟩⟩ : SrMatrix34 ℚ)
      (multiplyInverseRTLeft (⟨⟨0, -1, 0, 1, 0, 0, 0, 0, 1⟩, ⟨1, 2, 3⟩⟩ : SrMatrix34 ℚ)
        ⟨⟨2, 1, 0, 0, 1, 0, 1, 0, 1⟩, ⟨4, 5, 6⟩⟩)
      = ⟨⟨2, 1, 0, 0, 1, 0, 1, 0, 1⟩, ⟨4, 5, 6⟩⟩ ∧
    multiply (multiplyInverseRTRight (⟨⟨2, 1, 0, 0, 1, 0, 1, 0, 1⟩, ⟨4, 5, 6⟩⟩ : SrMatrix34 ℚ)
        ⟨⟨0, -1, 0, 1, 0, 0, 0, 0, 1⟩, ⟨1, 2, 3⟩⟩)
      (⟨⟨0, -1, 0, 1, 0, 0, 0, 0, 1⟩, ⟨1, 2, 3⟩⟩ : SrMatrix34 ℚ)
      = ⟨⟨2, 1, 0, 0, 1, 0, 1, 0, 1⟩, ⟨4, 5, 6⟩⟩ :=
  ⟨⟨by norm_num [SrMatrix33.multiply, SrMatrix33.setTransposed, SrMatrix33.id],
    by norm_num [SrMatrix33.multiply, SrMatrix33.setTransposed, SrMatrix33.id]⟩,
   (multiplyInverseRT_spec (⟨⟨0, -1, 0, 1, 0, 0, 0, 0, 1⟩, ⟨1, 2, 3⟩⟩ : SrMatrix34 ℚ)
      ⟨⟨2, 1, 0, 0, 1, 0, 1, 0, 1⟩, ⟨4, 5, 6⟩⟩).2.2.2.2.1
     ⟨by norm_num [SrMatrix33.multiply, SrMatrix33.setTransposed, SrMatrix33.id],
      by norm_num [SrMatrix33.multiply, SrMatrix33.setTransposed, SrMatrix33.id]⟩,
   (multiplyInverseRT_spec (⟨⟨2, 1, 0, 0, 1, 0, 1, 0, 1⟩, ⟨4, 5, 6⟩⟩ : SrMatrix34 ℚ)
      ⟨⟨0, -1, 0, 1, 0, 0, 0, 0, 1⟩, ⟨1, 2, 3⟩⟩).2.2.2.2.2
     ⟨by norm_num [SrMatrix33.multiply, SrMatrix33.setTransposed, SrMatrix33.id],
      by norm_num [SrMatrix33.multiply, SrMatrix33.setTransposed, SrMatrix33.id]⟩⟩

omit [LinearOrderedField F] in
/-- Writing the `t` member of one object leaves every `M` member as it
was. -/
theorem update_t_M (σ : Nat → SrMatrix34 F) (self n : Nat) (v : SrVector3 F) :
    (Function.update σ self { σ self with t := v } n).M = (σ n).M := by
  by_cases h : n = self
  · subst h
    rw [Function.update_same]
  · rw [Function.update_noteq h]

omit [LinearOrderedField F] in
/-- Writing the `M` member of one object leaves every `t` member as it
was. -/
theorem update_M_t (σ : Nat → SrMatrix34 F) (self n : Nat) (A : SrMatrix33 F) :
    (Function.update σ self { σ self with M := A } n).t = (σ n).t := by
  by_cases h : n = self
  · subst h
    rw [Function.update_same]
  · rw [Function.update_noteq h]

/-- On a store, `multiply` leaves in `*this` the composition of the
operands' values at entry, whichever of the three objects coincide. -/
theorem transform_multiplyAt_self (self left right : Nat) (σ : Nat → SrMatrix34 F) :
    multiplyAt self left right σ self = multiply (σ left) (σ right) := by
  unfold multiplyAt multiply
  simp only [Function.update_same, SrMatrix33.matrix_multiplyAt_self, update_t_M]

/-- On a store, `multiplyInverseRTLeft` leaves in `*this` what it computes
from the operands' values at entry, whichever of the three objects
coincide. -/
theorem multiplyInverseRTLeftAt_self (self left right : Nat) (σ : Nat → SrMatrix34 F) :
    multiplyInverseRTLeftAt self left right σ self
      = multiplyInverseRTLeft (σ left) (σ right) := by
  unfold multiplyInverseRTLeftAt multiplyInverseRTLeft
  simp only [Function.update_same, SrMatrix33.multiplyTransposeLeftAt_self, update_t_M]

/-- On a store, `multiplyInverseRTRight` leaves in `*this` what it computes
from the operands' values at entry, whichever of the three objects
coincide. -/
theorem multiplyInverseRTRightAt_self (self left right : Nat) (σ : Nat → SrMatrix34 F) :
    multiplyInverseRTRightAt self left right σ self
      = multiplyInverseRTRight (σ left) (σ right) := by
  unfold multiplyInverseRTRightAt multiplyInverseRTRight
  simp only [Function.update_same, SrMatrix33.multiplyTransposeRightAt_self, update_M_t]

/-- Claim C26. Each of the three `SrMatrix34` compositions `multiply`,
`multiplyInverseRTLeft` and `multiplyInverseRTRight`, executed statement by
statement on a single object, gives the same `M` and `t` when `*this` is
the same object as `left`, as `right`, or as both, as it gives when `*this`
is a distinct object: every read of `left.M`, `left.t`, `right.M`,
`right.t` that the formula needs sees the value at entry. -/
theorem compositions_alias_safe (self left right : Nat) (σ : Nat → SrMatrix34 F) :
    (multiplyAt self left right σ self = multiply (σ left) (σ right) ∧
      multiplyAt self self right σ self = multiply (σ self) (σ right) ∧
      multiplyAt self left self σ self = multiply (σ left) (σ self) ∧
      multiplyAt self self self σ self = multiply (σ self) (σ self)) ∧
    (multiplyInverseRTLeftAt self left right σ self
        = multiplyInverseRTLeft (σ left) (σ right) ∧
      multiplyInverseRTLeftAt self self right σ self
        = multiplyInverseRTLeft (σ self) (σ right) ∧
      multiplyInverseRTLeftAt self left self σ self
        = multiplyInverseRTLeft (σ left) (σ self) ∧
      multiplyInverseRTLeftAt self self self σ self
        = multiplyInverseRTLeft (σ self) (σ self)) ∧
    (multiplyInverseRTRightAt self left right σ self
        = multiplyInverseRTRight (σ left) (σ right) ∧
      multiplyInverseRTRightAt self self right σ self
        = multiplyInverseRTRight (σ self) (σ right) ∧
      multiplyInverseRTRightAt self left self σ self
        = multiplyInverseRTRight (σ left) (σ self) ∧
      multiplyInverseRTRightAt self self self σ self
        = multiplyInverseRTRight (σ self) (σ self)) :=
  ⟨⟨transform_multiplyAt_self _ _ _ _, transform_multiplyAt_self _ _ _ _,
    transform_multiplyAt_self _ _ _ _, transform_multiplyAt_self _ _ _ _⟩,
   ⟨multiplyInverseRTLeftAt_self _ _ _ _, multiplyInverseRTLeftAt_self _ _ _ _,
    multiplyInverseRTLeftAt_self _ _ _ _, multiplyInverseRTLeftAt_self _ _ _ _⟩,
   ⟨multiplyInverseRTRightAt_self _ _ _ _, multiplyInverseRTRightAt_self _ _ _ _,
    multiplyInverseRTRightAt_self _ _ _ _, multiplyInverseRTRightAt_self _ _ _ _⟩⟩

/-- Claim C27. `SrMatrix34::multiplyByInverseRT(src)` computes
`transpose(M) x (src - t)`, and it equals applying the transform produced
by `getInverseRT`; for every transform whose `M` is orthonormal it is the
inverse of the transform's action: over exact arithmetic
`multiplyByInverseRT(multiply(v)) = v` and
`multiply(multiplyByInverseRT(v)) = v` for every vector `v`. -/
theorem multiplyByInverseRT_spec (T : SrMatrix34 F) (v : SrVector3 F) :
    multiplyByInverseRT T v = (SrMatrix33.setTransposed T.M).multiplyVec (v.sub T.t) ∧
    multiplyByInverseRT T v = multiplyVec T.getInverseRT.2 v ∧
    (SrMatrix33.multiply T.M (SrMatrix33.setTransposed T.M) = SrMatrix33.id ∧
      SrMatrix33.multiply (SrMatrix33.setTransposed T.M) T.M = SrMatrix33.id →
      multiplyByInverseRT T (multiplyVec T v) = v ∧
      multiplyVec T (multiplyByInverseRT T v) = v) := by
  refine ⟨?_, ?_, ?_⟩
  · simp only [multiplyByInverseRT, SrMatrix33.multiplyByTranspose, SrMatrix33.multiplyVec,
      SrMatrix33.setTransposed]
  · ext <;> simp only [multiplyByInverseRT, multiplyVec, getInverseRT,
      SrMatrix33.multiplyByTranspose, SrMatrix33.mulVec, SrMatrix33.multiplyVec,
      SrMatrix33.setTransposed, SrVector3.add, SrVector3.sub, SrVector3.mulScalar] <;> ring
  · intro ho
    have e := SrMatrix33.ext_iff.mp ho.1
    have e' := SrMatrix33.ext_iff.mp ho.2
    simp only [SrMatrix33.multiply, SrMatrix33.id, SrMatrix33.setTransposed] at e e'
    obtain ⟨e1, e2, e3, e4, e5, e6, e7, e8, e9⟩ := e
    obtain ⟨f1, f2, f3, f4, f5, f6, f7, f8, f9⟩ := e'
    constructor
    · ext
      · simp only [multiplyByInverseRT, multiplyVec, SrMatrix33.multiplyByTranspose,
          SrMatrix33.mulVec, SrMatrix33.multiplyVec, SrVector3.add, SrVector3.sub]
        linear_combination v.x * f1 + v.y * f2 + v.z * f3
      · simp only [multiplyByInverseRT, multiplyVec, SrMatrix33.multiplyByTranspose,
          SrMatrix33.mulVec, SrMatrix33.multiplyVec, SrVector3.add, SrVector3.sub]
        linear_combination v.x * f4 + v.y * f5 + v.z * f6
      · simp only [multiplyByInverseRT, multiplyVec, SrMatrix33.multiplyByTranspose,
          SrMatrix33.mulVec, SrMatrix33.multiplyVec, SrVector3.add, SrVector3.sub]
        linear_combination v.x * f7 + v.y * f8 + v.z * f9
    · ext
      · simp only [multiplyByInverseRT, multiplyVec, SrMatrix33.multiplyByTranspose,
          SrMatrix33.mulVec, SrMatrix33.multiplyVec, SrVector3.add, SrVector3.sub]
        linear_combination (v.x - T.t.x) * e1 + (v.y - T.t.y) * e2 + (v.z - T.t.z) * e3
      · simp only [multiplyByInverseRT, multiplyVec, SrMatrix33.multiplyByTranspose,
          SrMatrix33.mulVec, SrMatrix33.multiplyVec, SrVector3.add, SrVector3.sub]
        linear_combination (v.x - T.t.x) * e4 + (v.y - T.t.y) * e5 + (v.z - T.t.z) * e6
      · simp only [multiplyByInverseRT, multiplyVec, SrMatrix33.multiplyByTranspose,
          SrMatrix33.mulVec, SrMatrix33.multiplyVec, SrVector3.add, SrVector3.sub]
        linear_combination (v.x - T.t.x) * e7 + (v.y - T.t.y) * e8 + (v.z - T.t.z) * e9

/-- Witness for C27 at the quarter turn about the z axis,
`M = [0 -1 0; 1 0 0; 0 0 1]` with `t = (1, 2, 3)`, and `v = (4, 5, 6)`. -/
theorem multiplyByInverseRT_spec_witness :
    (SrMatrix33.multiply (⟨0, -1, 0, 1, 0, 0, 0, 0, 1⟩ : SrMatrix33 ℚ)
        (SrMatrix33.setTransposed ⟨0, -1, 0, 1, 0, 0, 0, 0, 1⟩) = SrMatrix33.id ∧
      SrMatrix33.multiply (SrMatrix33.setTransposed ⟨0, -1, 0, 1, 0, 0, 0, 0, 1⟩)
        (⟨0, -1, 0, 1, 0, 0, 0, 0, 1⟩ : SrMatrix33 ℚ) = SrMatrix33.id) ∧
    multiplyByInverseRT (⟨⟨0, -1, 0, 1, 0, 0, 0, 0, 1⟩, ⟨1, 2, 3⟩⟩ : SrMatrix34 ℚ)
      (multiplyVec (⟨⟨0, -1, 0, 1, 0, 0, 0, 0, 1⟩, ⟨1, 2, 3⟩⟩ : SrMatrix34 ℚ) ⟨4, 5, 6⟩)
      = ⟨4, 5, 6⟩ ∧
    multiplyVec (⟨⟨0, -1, 0, 1, 0, 0, 0, 0, 1⟩, ⟨1, 2, 3⟩⟩ : SrMatrix34 ℚ)
      (multiplyByInverseRT (⟨⟨0, -1, 0, 1, 0, 0, 0, 0, 1⟩, ⟨1, 2, 3⟩⟩ : SrMatrix34 ℚ)
        ⟨4, 5, 6⟩)
      = ⟨4, 5, 6⟩ :=
  ⟨⟨by norm_num [SrMatrix33.multiply, SrMatrix33.setTransposed, SrMatrix33.id],
    by norm_num [SrMatrix33.multiply, SrMatrix33.setTransposed, SrMatrix33.id]⟩,
   (multiplyByInverseRT_spec (⟨⟨0, -1, 0, 1, 0, 0, 0, 0, 1⟩, ⟨1, 2, 3⟩⟩ : SrMatrix34 ℚ)
      ⟨4, 5, 6⟩).2.2
     ⟨by norm_num [SrMatrix33.multiply, SrMatrix33.setTransposed, SrMatrix33.id],
      by norm_num [SrMatrix33.multiply, SrMatrix33.setTransposed, SrMatrix33.id]⟩⟩

end SrMatrix34

/-! ## Theorems: raw data access and storage layout -/

namespace SrMatrix33

variable {F : Type}

/-- Claim C28. For every 3x3 matrix `M` and each single-precision format
among row-major, column-major, row-major stride-4 and column-major
stride-4, for the pointer and for the array overloads: exporting with the
getter into a buffer and re-importing that buffer with the matching setter
reproduces the original nine entries exactly, whatever the buffer held
before; and importing the same nine numbers with `setColumnMajor` gives the
transpose of what `setRowMajor` gives. -/
theorem rawData_roundtrip (M : SrMatrix33 F) (d : Nat → F) (a : Nat → Nat → F) :
    setRowMajor (getRowMajor M d) = M ∧
    setColumnMajor (getColumnMajor M d) = M ∧
    setRowMajorStride4 (getRowMajorStride4 M d) = M ∧
    setColumnMajorStride4 (getColumnMajorStride4 M d) = M ∧
    setRowMajorArray (getRowMajorArray M a) = M ∧
    setColumnMajorArray (getColumnMajorArray M a) = M ∧
    setRowMajorStride4Array (getRowMajorStride4Array M a) = M ∧
    setColumnMajorStride4Array (getColumnMajorStride4Array M a) = M ∧
    setColumnMajor d = setTransposed (setRowMajor d) ∧
    setColumnMajorArray a = setTransposed (setRowMajorArray a) := by
  refine ⟨?_, ?_, ?_, ?_, ?_, ?_, ?_, ?_, ?_, ?_⟩
  · simp [setRowMajor, getRowMajor, Function.update_apply]
  · simp [setColumnMajor, getColumnMajor, Function.update_apply]
  · simp [setRowMajorStride4, getRowMajorStride4, Function.update_apply]
  · simp [setColumnMajorStride4, getColumnMajorStride4, Function.update_apply]
  · simp [setRowMajorArray, getRowMajorArray, Function.update_apply]
  · simp [setColumnMajorArray, getColumnMajorArray, Function.update_apply]
  · simp [setRowMajorStride4Array, getRowMajorStride4Array, Function.update_apply]
  · simp [setColumnMajorStride4Array, getColumnMajorStride4Array, Function.update_apply]
  · simp only [setColumnMajor, setRowMajor, setTransposed]
  · simp only [setColumnMajorArray, setRowMajorArray, setTransposed]

end SrMatrix33

namespace SrMatrix33

variable {F : Type} [LinearOrderedField F]

/-- In the default build `toQuatIn` is `toQuat`. -/
theorem toQuatIn_false (m : SrMath F) (M : SrMatrix33 F) :
    toQuatIn false m M = toQuat m M := by
  simp [toQuatIn, toQuat, toQuatIndexIn, toQuatIndex, elemIn]

omit [LinearOrderedField F] in
/-- After `setRowMajor(d)` the accessor returns `d[3 r + c]` in the default
build and `d[3 c + r]` in the build with `TRANSPOSED_MAT33` defined. -/
theorem elemIn_setRowMajor (d : Nat → F) (r c : Fin 3) :
    elemIn false (setRowMajor d) r c = d (3 * r.val + c.val) ∧
    elemIn true (setRowMajor d) r c = d (3 * c.val + r.val) := by
  fin_cases r <;> fin_cases c <;> simp [elemIn, elem, setRowMajor]

/-- Claim C29, evaluated in the build with `TRANSPOSED_MAT33` defined. After
`setRowMajor(d)` with `d = (0, 1, 2, 3, 4, 5, 6, 7, 8)` the accessor
`(0, 1)` returns `d[1] = 1` in the default build but `d[3] = 3` in the
transposed build, `getRow(0)` returns `(0, 1, 2)` against `(0, 3, 6)` and
`getColumn(0)` returns `(0, 3, 6)` against `(0, 1, 2)`; after
`setRowMajor(d)` with `d = (0, -1, 0, 1, 0, 0, 0, 0, 1)` the two builds of
`toQuat` return different quaternions (their `z` components have opposite
signs). -/
theorem accessors_differ_when_transposed :
    elemIn false (setRowMajor (fun n => (n : ℚ))) 0 1 = 1 ∧
    elemIn true (setRowMajor (fun n => (n : ℚ))) 0 1 = 3 ∧
    getRowIn false (setRowMajor (fun n => (n : ℚ))) 0 = ⟨0, 1, 2⟩ ∧
    getRowIn true (setRowMajor (fun n => (n : ℚ))) 0 = ⟨0, 3, 6⟩ ∧
    getColumnIn false (setRowMajor (fun n => (n : ℚ))) 0 = ⟨0, 3, 6⟩ ∧
    getColumnIn true (setRowMajor (fun n => (n : ℚ))) 0 = ⟨0, 1, 2⟩ ∧
    toQuatIn true SrMath.real
        (setRowMajor (fun n => if n = 1 then (-1 : ℝ) else if n = 3 ∨ n = 8 then 1 else 0))
      ≠ toQuatIn false SrMath.real
        (setRowMajor (fun n => if n = 1 then (-1 : ℝ) else if n = 3 ∨ n = 8 then 1 else 0)) := by
  refine ⟨?_, ?_, ?_, ?_, ?_, ?_, ?_⟩
  · simp [elemIn, elem, setRowMajor]
  · simp [elemIn, elem, setRowMajor]
  · simp [getRowIn, elem, setRowMajor]
  · simp [getRowIn, elem, setRowMajor]
  · simp [getColumnIn, elem, setRowMajor]
  · simp [getColumnIn, elem, setRowMajor]
  · have hM : setRowMajor (fun n => if n = 1 then (-1 : ℝ) else if n = 3 ∨ n = 8 then 1 else 0)
        = ⟨0, -1, 0, 1, 0, 0, 0, 0, 1⟩ := by
      simp [setRowMajor]
    rw [hM]
    intro h
    have hz := congrArg SrQuaternion.z h
    have hne : Real.sqrt (0 + 0 + 1 + 1) ≠ 0 := (Real.sqrt_pos.mpr (by norm_num)).ne'
    simp only [toQuatIn, elemIn, elem, SrMath.real] at hz
    norm_num at hz
    field_simp at hz
    have hpos2 : (0 : ℝ) < Real.sqrt 2 := Real.sqrt_pos.mpr (by norm_num)
    linarith

/-- Claim C30. `q` and `-q` represent the same rotation: for every
quaternion `q` (unit or not), `SrMatrix33::fromQuat(-q)` equals
`fromQuat(q)` entry for entry, where `-q` is produced by `negate()` or by
unary minus; and `fromQuat` of the identity quaternion `(0,0,0,1)` is the
identity matrix. -/
theorem fromQuat_negate_spec (q : SrQuaternion F) :
    q.neg = ⟨-q.x, -q.y, -q.z, -q.w⟩ ∧
    q.negate = ⟨-q.x, -q.y, -q.z, -q.w⟩ ∧
    fromQuat q.neg = fromQuat q ∧
    fromQuat q.negate = fromQuat q ∧
    (∀ i j : Fin 3, (fromQuat q.negate).elem i j = (fromQuat q).elem i j) ∧
    fromQuat (⟨0, 0, 0, 1⟩ : SrQuaternion F) = id ∧
    (fromQuat (⟨0, 0, 0, 1⟩ : SrQuaternion F)).isIdentity = true := by
  have hn : fromQuat q.negate = fromQuat q := fromQuat_neg q
  have hid : fromQuat (⟨0, 0, 0, 1⟩ : SrQuaternion F) = id := by
    ext <;> simp [fromQuat, id]
  refine ⟨rfl, rfl, fromQuat_neg q, hn, fun i j => by rw [hn], hid, ?_⟩
  rw [hid]
  simp [isIdentity, id]

end SrMatrix33

/-! ## Theorems: branch selection and safety of toQuat -/

namespace SrMatrix33

variable {F : Type} [LinearOrderedField F]

/-- The selected diagonal entry is the largest one, and no lower index
attains it. -/
theorem toQuatIndex_smallest_max (M : SrMatrix33 F) :
    (∀ j : Fin 3, M.elem j j ≤ M.elem M.toQuatIndex M.toQuatIndex) ∧
    (∀ j : Fin 3, M.elem j j = M.elem M.toQuatIndex M.toQuatIndex → M.toQuatIndex ≤ j) := by
  rcases toQuatIndex_cases M with ⟨hi, h1, h2⟩ | ⟨hi, h1, h2⟩ | ⟨hi, h1, h2⟩
  · rw [hi]
    refine ⟨fun j => ?_, fun j _ => Fin.zero_le j⟩
    fin_cases j
    · exact le_refl _
    · exact h1
    · exact h2
  · rw [hi]
    refine ⟨fun j => ?_, fun j hj => ?_⟩
    · fin_cases j
      · exact h1.le
      · exact le_refl _
      · exact h2
    · fin_cases j
      · exact absurd hj (ne_of_lt h1)
      · exact le_refl _
      · decide
  · rw [hi]
    refine ⟨fun j => ?_, fun j hj => ?_⟩
    · fin_cases j
      · exact h1.le
      · exact h2.le
      · exact le_refl _
    · fin_cases j
      · exact absurd hj (ne_of_lt h1)
      · exact absurd hj (ne_of_lt h2)
      · exact le_refl _

/-- Claim C31. In `SrMatrix33::toQuat`, for every matrix with negative
trace the branch index `i` that is used is the smallest index in
`{0,1,2}` whose diagonal entry equals the maximum of the three diagonal
entries (ties go to the lower index), and the component of that index is
`0.5 * sqrt(m[i][i] - (the other two) + 1)`; for every matrix with trace
`>= 0` the trace branch is used and the resulting `w` is
`0.5 * sqrt(trace + 1)`, which is `>= 0` when `sqrt` is non-negative. -/
theorem toQuat_branch_selection (m : SrMath F) (M : SrMatrix33 F) :
    (∀ j : Fin 3, M.elem j j ≤ M.elem M.toQuatIndex M.toQuatIndex) ∧
    (∀ j : Fin 3, M.elem j j = M.elem M.toQuatIndex M.toQuatIndex → M.toQuatIndex ≤ j) ∧
    (M._11 + M._22 + M._33 < 0 →
      (M.toQuatIndex = 0 →
        (toQuat m M).x = (1 / 2) * m.sqrt ((M._11 - (M._22 + M._33)) + 1)) ∧
      (M.toQuatIndex = 1 →
        (toQuat m M).y = (1 / 2) * m.sqrt ((M._22 - (M._33 + M._11)) + 1)) ∧
      (M.toQuatIndex = 2 →
        (toQuat m M).z = (1 / 2) * m.sqrt ((M._33 - (M._11 + M._22)) + 1))) ∧
    (0 ≤ M._11 + M._22 + M._33 →
      (toQuat m M).w = (1 / 2) * m.sqrt (M._11 + M._22 + M._33 + 1) ∧
      ((∀ x : F, 0 ≤ m.sqrt x) → 0 ≤ (toQuat m M).w)) := by
  refine ⟨(toQuatIndex_smallest_max M).1, (toQuatIndex_smallest_max M).2, fun h => ?_,
    fun h => ?_⟩
  · refine ⟨fun hi => ?_, fun hi => ?_, fun hi => ?_⟩
    · rw [toQuat_of_index_zero m M h hi]
    · rw [toQuat_of_index_one m M h hi]
    · rw [toQuat_of_index_two m M h hi]
  · rw [toQuat_of_trace_nonneg m M h]
    refine ⟨rfl, fun hs => ?_⟩
    exact mul_nonneg (by norm_num) (hs _)

/-- Witness for C31 over the reals: the matrix `diag(1, -1, -1)` has trace
`-1` and index 0, and the identity matrix has trace 3. -/
theorem toQuat_branch_selection_witness :
    (⟨1, 0, 0, 0, -1, 0, 0, 0, -1⟩ : SrMatrix33 ℝ)._11
      + (⟨1, 0, 0, 0, -1, 0, 0, 0, -1⟩ : SrMatrix33 ℝ)._22
      + (⟨1, 0, 0, 0, -1, 0, 0, 0, -1⟩ : SrMatrix33 ℝ)._33 < 0 ∧
    (⟨1, 0, 0, 0, -1, 0, 0, 0, -1⟩ : SrMatrix33 ℝ).toQuatIndex = 0 ∧
    (toQuat SrMath.real (⟨1, 0, 0, 0, -1, 0, 0, 0, -1⟩ : SrMatrix33 ℝ)).x
      = (1 / 2) * SrMath.real.sqrt
        (((⟨1, 0, 0, 0, -1, 0, 0, 0, -1⟩ : SrMatrix33 ℝ)._11
          - ((⟨1, 0, 0, 0, -1, 0, 0, 0, -1⟩ : SrMatrix33 ℝ)._22
            + (⟨1, 0, 0, 0, -1, 0, 0, 0, -1⟩ : SrMatrix33 ℝ)._33)) + 1) ∧
    0 ≤ (toQuat SrMath.real (id : SrMatrix33 ℝ)).w :=
  ⟨by norm_num, by norm_num [toQuatIndex, elem],
   ((toQuat_branch_selection SrMath.real
      (⟨1, 0, 0, 0, -1, 0, 0, 0, -1⟩ : SrMatrix33 ℝ)).2.2.1 (by norm_num)).1
     (by norm_num [toQuatIndex, elem]),
   ((toQuat_branch_selection SrMath.real (id : SrMatrix33 ℝ)).2.2.2
      (by norm_num [id])).2 (fun x => Real.sqrt_nonneg x)⟩

/-- With a negative trace, twice the largest diagonal entry exceeds the
trace. -/
theorem two_mul_max_gt_trace (a b c : F) (htr : a + b + c < 0) (hb : b ≤ a) (hc : c ≤ a) :
    a + b + c < 2 * a := by
  rcases le_or_lt 0 a with ha | ha
  · linarith
  · linarith

/-- Claim C33. `SrMatrix33::toQuat` never divides by zero and never takes
the square root of a negative number: for every real 3x3 matrix (rotation
or not), the argument of the sqrt in the branch that is executed is at
least 1 (`trace + 1 >= 1` when `trace >= 0`; `2*m[i][i] - trace + 1 > 1`
when `trace < 0` and `i` is the selected largest-diagonal index), so
`s >= 1`, in particular `s != 0`, before `0.5 / s` is computed. -/
theorem toQuat_sqrt_argument (M : SrMatrix33 ℝ) :
    (0 ≤ M._11 + M._22 + M._33 →
      1 ≤ M._11 + M._22 + M._33 + 1 ∧
      1 ≤ SrMath.real.sqrt (M._11 + M._22 + M._33 + 1) ∧
      (toQuat SrMath.real M).w = (1 / 2) * SrMath.real.sqrt (M._11 + M._22 + M._33 + 1)) ∧
    (M._11 + M._22 + M._33 < 0 →
      (M.toQuatIndex = 0 →
        (M._11 - (M._22 + M._33)) + 1 = 2 * M._11 - (M._11 + M._22 + M._33) + 1 ∧
        1 < (M._11 - (M._22 + M._33)) + 1 ∧
        1 ≤ SrMath.real.sqrt ((M._11 - (M._22 + M._33)) + 1) ∧
        (toQuat SrMath.real M).x
          = (1 / 2) * SrMath.real.sqrt ((M._11 - (M._22 + M._33)) + 1)) ∧
      (M.toQuatIndex = 1 →
        (M._22 - (M._33 + M._11)) + 1 = 2 * M._22 - (M._11 + M._22 + M._33) + 1 ∧
        1 < (M._22 - (M._33 + M._11)) + 1 ∧
        1 ≤ SrMath.real.sqrt ((M._22 - (M._33 + M._11)) + 1) ∧
        (toQuat SrMath.real M).y
          = (1 / 2) * SrMath.real.sqrt ((M._22 - (M._33 + M._11)) + 1)) ∧
      (M.toQuatIndex = 2 →
        (M._33 - (M._11 + M._22)) + 1 = 2 * M._33 - (M._11 + M._22 + M._33) + 1 ∧
        1 < (M._33 - (M._11 + M._22)) + 1 ∧
        1 ≤ SrMath.real.sqrt ((M._33 - (M._11 + M._22)) + 1) ∧
        (toQuat SrMath.real M).z
          = (1 / 2) * SrMath.real.sqrt ((M._33 - (M._11 + M._22)) + 1))) := by
  have hS : SrMath.real.sqrt = Real.sqrt := rfl
  have hone : ∀ x : ℝ, 1 ≤ x → 1 ≤ Real.sqrt x := fun x hx => by
    rw [Real.one_le_sqrt]
    exact hx
  refine ⟨fun h => ?_, fun h => ⟨fun hi => ?_, fun hi => ?_, fun hi => ?_⟩⟩
  · have h1 : 1 ≤ M._11 + M._22 + M._33 + 1 := by linarith
    refine ⟨h1, by rw [hS]; exact hone _ h1, ?_⟩
    rw [toQuat_of_trace_nonneg SrMath.real M h]
  · rcases toQuatIndex_cases M with ⟨_, h1, h2⟩ | ⟨hi', _, _⟩ | ⟨hi', _, _⟩
    · have hk := two_mul_max_gt_trace M._11 M._22 M._33 h h1 h2
      have hgt : 1 < (M._11 - (M._22 + M._33)) + 1 := by linarith
      refine ⟨by ring, hgt, by rw [hS]; exact hone _ hgt.le, ?_⟩
      rw [toQuat_of_index_zero SrMath.real M h hi]
    · rw [hi] at hi'
      exact absurd hi' (by decide)
    · rw [hi] at hi'
      exact absurd hi' (by decide)
  · rcases toQuatIndex_cases M with ⟨hi', _, _⟩ | ⟨_, h1, h2⟩ | ⟨hi', _, _⟩
    · rw [hi] at hi'
      exact absurd hi' (by decide)
    · have hk := two_mul_max_gt_trace M._22 M._33 M._11 (by linarith) h2 h1.le
      have hgt : 1 < (M._22 - (M._33 + M._11)) + 1 := by linarith
      refine ⟨by ring, hgt, by rw [hS]; exact hone _ hgt.le, ?_⟩
      rw [toQuat_of_index_one SrMath.real M h hi]
    · rw [hi] at hi'
      exact absurd hi' (by decide)
  · rcases toQuatIndex_cases M with ⟨hi', _, _⟩ | ⟨hi', _, _⟩ | ⟨_, h1, h2⟩
    · rw [hi] at hi'
      exact absurd hi' (by decide)
    · rw [hi] at hi'
      exact absurd hi' (by decide)
    · have hk := two_mul_max_gt_trace M._33 M._11 M._22 (by linarith) h1.le h2.le
      have hgt : 1 < (M._33 - (M._11 + M._22)) + 1 := by linarith
      refine ⟨by ring, hgt, by rw [hS]; exact hone _ hgt.le, ?_⟩
      rw [toQuat_of_index_two SrMath.real M h hi]

/-- Witness for C33: the matrix `diag(1, -1, -1)` has trace `-1` and index
0, and the identity matrix has trace 3. -/
theorem toQuat_sqrt_argument_witness :
    (⟨1, 0, 0, 0, -1, 0, 0, 0, -1⟩ : SrMatrix33 ℝ)._11
      + (⟨1, 0, 0, 0, -1, 0, 0, 0, -1⟩ : SrMatrix33 ℝ)._22
      + (⟨1, 0, 0, 0, -1, 0, 0, 0, -1⟩ : SrMatrix33 ℝ)._33 < 0 ∧
    (⟨1, 0, 0, 0, -1, 0, 0, 0, -1⟩ : SrMatrix33 ℝ).toQuatIndex = 0 ∧
    1 ≤ SrMath.real.sqrt
      (((⟨1, 0, 0, 0, -1, 0, 0, 0, -1⟩ : SrMatrix33 ℝ)._11
        - ((⟨1, 0, 0, 0, -1, 0, 0, 0, -1⟩ : SrMatrix33 ℝ)._22
          + (⟨1, 0, 0, 0, -1, 0, 0, 0, -1⟩ : SrMatrix33 ℝ)._33)) + 1) ∧
    1 ≤ SrMath.real.sqrt ((id : SrMatrix33 ℝ)._11 + (id : SrMatrix33 ℝ)._22
      + (id : SrMatrix33 ℝ)._33 + 1) :=
  ⟨by norm_num, by norm_num [toQuatIndex, elem],
   (((toQuat_sqrt_argument (⟨1, 0, 0, 0, -1, 0, 0, 0, -1⟩ : SrMatrix33 ℝ)).2
      (by norm_num)).1 (by norm_num [toQuatIndex, elem])).2.2.1,
   ((toQuat_sqrt_argument (id : SrMatrix33 ℝ)).1 (by norm_num [id])).2.1⟩

end SrMatrix33

/-! ## Theorems: rotations from quaternions -/

namespace SrMatrix33

variable {F : Type} [Zero F] [One F] [Neg F]

/-- The matrix `rotX` writes, whatever the matrix held before. -/
theorem rotX_eq (m : SrMath F) (angle : F) (M : SrMatrix33 F) :
    rotX m angle M =
      ⟨1, 0, 0, 0, m.cos angle, -m.sin angle, 0, m.sin angle, m.cos angle⟩ := by
  simp only [rotX]

/-- The matrix `rotY` writes, whatever the matrix held before. -/
theorem rotY_eq (m : SrMath F) (angle : F) (M : SrMatrix33 F) :
    rotY m angle M =
      ⟨m.cos angle, 0, m.sin angle, 0, 1, 0, -m.sin angle, 0, m.cos angle⟩ := by
  simp only [rotY]

/-- The matrix `rotZ` writes, whatever the matrix held before. -/
theorem rotZ_eq (m : SrMath F) (angle : F) (M : SrMatrix33 F) :
    rotZ m angle M =
      ⟨m.cos angle, -m.sin angle, 0, m.sin angle, m.cos angle, 0, 0, 0, 1⟩ := by
  simp only [rotZ]

/-- Claim C32, amended. `SrMatrix33::rotX/rotY/rotZ(angle)` overwrite the
instance: in every arithmetic, binary32 included, and for every prior
content `P`, `Q` the result is the same
(`rotX = [1 0 0; 0 cos -sin; 0 sin cos]`, and analogously for Y and Z), and
over exact real arithmetic it equals the matrix `fromQuat` gives for the
quaternion `fromAngleAxisFast(angle, e)` with `e` the unit X, Y or Z axis
respectively. -/
theorem rot_axes_spec (m : SrMath F) (a : F) (P Q : SrMatrix33 F)
    (angle : ℝ) (M : SrMatrix33 ℝ) :
    (rotX m a P = rotX m a Q ∧ rotY m a P = rotY m a Q ∧ rotZ m a P = rotZ m a Q) ∧
    rotX m a P = ⟨1, 0, 0, 0, m.cos a, -m.sin a, 0, m.sin a, m.cos a⟩ ∧
    rotY m a P = ⟨m.cos a, 0, m.sin a, 0, 1, 0, -m.sin a, 0, m.cos a⟩ ∧
    rotZ m a P = ⟨m.cos a, -m.sin a, 0, m.sin a, m.cos a, 0, 0, 0, 1⟩ ∧
    rotX SrMath.real angle M
      = fromQuat (SrQuaternion.fromAngleAxisFast SrMath.real angle ⟨1, 0, 0⟩) ∧
    rotY SrMath.real angle M
      = fromQuat (SrQuaternion.fromAngleAxisFast SrMath.real angle ⟨0, 1, 0⟩) ∧
    rotZ SrMath.real angle M
      = fromQuat (SrQuaternion.fromAngleAxisFast SrMath.real angle ⟨0, 0, 1⟩) := by
  have hc : Real.cos angle = 1 - Real.sin (angle * (1 / 2)) * Real.sin (angle * (1 / 2)) * 2 := by
    have h := Real.cos_sq' (angle * (1 / 2))
    have h2 := Real.cos_two_mul (angle * (1 / 2))
    have e : 2 * (angle * (1 / 2)) = angle := by ring
    rw [e] at h2
    rw [h2, h]
    ring
  have hs : Real.sin angle = Real.cos (angle * (1 / 2)) * Real.sin (angle * (1 / 2)) * 2 := by
    have h2 := Real.sin_two_mul (angle * (1 / 2))
    have e : 2 * (angle * (1 / 2)) = angle := by ring
    rw [e] at h2
    rw [h2]
    ring
  have hsc : SrMath.real.sinCos (angle * (1 / 2))
      = (Real.sin (angle * (1 / 2)), Real.cos (angle * (1 / 2))) := rfl
  have hcos : SrMath.real.cos = Real.cos := rfl
  have hsin : SrMath.real.sin = Real.sin := rfl
  refine ⟨⟨by rw [rotX_eq, rotX_eq], by rw [rotY_eq, rotY_eq], by rw [rotZ_eq, rotZ_eq]⟩,
    rotX_eq m a P, rotY_eq m a P, rotZ_eq m a P, ?_, ?_, ?_⟩
  · rw [rotX_eq, hcos, hsin]
    simp only [SrQuaternion.fromAngleAxisFast, fromQuat, hsc]
    ext <;> simp only [] <;> first | (rw [hc]; ring) | (rw [hs]; ring) | ring
  · rw [rotY_eq, hcos, hsin]
    simp only [SrQuaternion.fromAngleAxisFast, fromQuat, hsc]
    ext <;> simp only [] <;> first | (rw [hc]; ring) | (rw [hs]; ring) | ring
  · rw [rotZ_eq, hcos, hsin]
    simp only [SrQuaternion.fromAngleAxisFast, fromQuat, hsc]
    ext <;> simp only [] <;> first | (rw [hc]; ring) | (rw [hs]; ring) | ring

end SrMatrix33

namespace SrMatrix33

variable {F : Type} [LinearOrderedField F]

/-- The matrix of a conjugate is the transpose of the matrix. -/
theorem fromQuat_conjugate (q : SrQuaternion F) :
    fromQuat q.conjugate = setTransposed (fromQuat q) := by
  ext <;> simp only [fromQuat, SrQuaternion.conjugate, setTransposed] <;> ring

/-- On unit quaternions `fromQuat` turns the Hamilton product into the
matrix product. -/
theorem fromQuat_multiply (a b : SrQuaternion F)
    (ha : a.magnitudeSquared = 1) (hb : b.magnitudeSquared = 1) :
    fromQuat (SrQuaternion.multiply a b) = multiply (fromQuat a) (fromQuat b) := by
  simp only [SrQuaternion.magnitudeSquared] at ha hb
  ext
  · simp only [fromQuat, SrQuaternion.multiply, multiply]
    linear_combination
      ((b.w * b.w + b.x * b.x - b.y * b.y - b.z * b.z)
        + (1 - 2 * (b.x * b.x + b.y * b.y + b.z * b.z + b.w * b.w))) * ha
      + ((a.w * a.w + a.x * a.x - a.y * a.y - a.z * a.z) - 1) * hb
  · simp only [fromQuat, SrQuaternion.multiply, multiply]
    linear_combination
      (2 * (b.x * b.y - b.w * b.z)) * ha + (2 * (a.x * a.y - a.w * a.z)) * hb
  · simp only [fromQuat, SrQuaternion.multiply, multiply]
    linear_combination
      (2 * (b.x * b.z + b.w * b.y)) * ha + (2 * (a.x * a.z + a.w * a.y)) * hb
  · simp only [fromQuat, SrQuaternion.multiply, multiply]
    linear_combination
      (2 * (b.x * b.y + b.w * b.z)) * ha + (2 * (a.x * a.y + a.w * a.z)) * hb
  · simp only [fromQuat, SrQuaternion.multiply, multiply]
    linear_combination
      ((b.w * b.w - b.x * b.x + b.y * b.y - b.z * b.z)
        + (1 - 2 * (b.x * b.x + b.y * b.y + b.z * b.z + b.w * b.w))) * ha
      + ((a.w * a.w - a.x * a.x + a.y * a.y - a.z * a.z) - 1) * hb
  · simp only [fromQuat, SrQuaternion.multiply, multiply]
    linear_combination
      (2 * (b.y * b.z - b.w * b.x)) * ha + (2 * (a.y * a.z - a.w * a.x)) * hb
  · simp only [fromQuat, SrQuaternion.multiply, multiply]
    linear_combination
      (2 * (b.x * b.z - b.w * b.y)) * ha + (2 * (a.x * a.z - a.w * a.y)) * hb
  · simp only [fromQuat, SrQuaternion.multiply, multiply]
    linear_combination
      (2 * (b.y * b.z + b.w * b.x)) * ha + (2 * (a.y * a.z + a.w * a.x)) * hb
  · simp only [fromQuat, SrQuaternion.multiply, multiply]
    linear_combination
      ((b.w * b.w - b.x * b.x - b.y * b.y + b.z * b.z)
        + (1 - 2 * (b.x * b.x + b.y * b.y + b.z * b.z + b.w * b.w))) * ha
      + ((a.w * a.w - a.x * a.x - a.y * a.y + a.z * a.z) - 1) * hb

end SrMatrix33

namespace SrMatrix33

variable {F : Type} [LinearOrderedField F]

/-- Claim C34. Over exact arithmetic, quaternion-to-matrix conversion is a
homomorphism on unit quaternions: for all unit quaternions `a` and `b`,
`fromQuat(a*b)` (Hamilton product by `SrQuaternion::multiply`) equals
`SrMatrix33::multiply(fromQuat(a), fromQuat(b))`; and for every quaternion
`q`, `fromQuat(conjugate(q))` equals the transpose of `fromQuat(q)`. -/
theorem fromQuat_homomorphism (a b q : SrQuaternion F) :
    (a.magnitudeSquared = 1 → b.magnitudeSquared = 1 →
      fromQuat (SrQuaternion.multiply a b) = multiply (fromQuat a) (fromQuat b)) ∧
    fromQuat q.conjugate = setTransposed (fromQuat q) ∧
    (∀ i j : Fin 3, (fromQuat q.conjugate).elem i j = (fromQuat q).elem j i) := by
  refine ⟨fromQuat_multiply a b, fromQuat_conjugate q, fun i j => ?_⟩
  rw [fromQuat_conjugate]
  fin_cases i <;> fin_cases j <;> rfl

/-- Witness for C34 at the unit quaternions `a = (3/5, 0, 0, 4/5)` and
`b = (0, 1, 0, 0)`. -/
theorem fromQuat_homomorphism_witness :
    (⟨3 / 5, 0, 0, 4 / 5⟩ : SrQuaternion ℚ).magnitudeSquared = 1 ∧
    (⟨0, 1, 0, 0⟩ : SrQuaternion ℚ).magnitudeSquared = 1 ∧
    fromQuat (SrQuaternion.multiply (⟨3 / 5, 0, 0, 4 / 5⟩ : SrQuaternion ℚ) ⟨0, 1, 0, 0⟩)
      = multiply (fromQuat (⟨3 / 5, 0, 0, 4 / 5⟩ : SrQuaternion ℚ))
          (fromQuat (⟨0, 1, 0, 0⟩ : SrQuaternion ℚ)) :=
  ⟨by norm_num [SrQuaternion.magnitudeSquared], by norm_num [SrQuaternion.magnitudeSquared],
   (fromQuat_homomorphism (⟨3 / 5, 0, 0, 4 / 5⟩ : SrQuaternion ℚ) ⟨0, 1, 0, 0⟩
      ⟨0, 0, 0, 1⟩).1
     (by norm_num [SrQuaternion.magnitudeSquared])
     (by norm_num [SrQuaternion.magnitudeSquared])⟩

/-- For a unit quaternion, `fromQuat(q)` times its transpose is the
identity. -/
theorem fromQuat_mul_transpose (q : SrQuaternion F) (hq : q.magnitudeSquared = 1) :
    multiply (fromQuat q) (setTransposed (fromQuat q)) = id := by
  simp only [SrQuaternion.magnitudeSquared] at hq
  ext
  · simp only [fromQuat, multiply, setTransposed, id]
    linear_combination (4 * (q.y * q.y + q.z * q.z)) * hq
  · simp only [fromQuat, multiply, setTransposed, id]
    linear_combination (-4 * (q.x * q.y)) * hq
  · simp only [fromQuat, multiply, setTransposed, id]
    linear_combination (-4 * (q.x * q.z)) * hq
  · simp only [fromQuat, multiply, setTransposed, id]
    linear_combination (-4 * (q.x * q.y)) * hq
  · simp only [fromQuat, multiply, setTransposed, id]
    linear_combination (4 * (q.x * q.x + q.z * q.z)) * hq
  · simp only [fromQuat, multiply, setTransposed, id]
    linear_combination (-4 * (q.y * q.z)) * hq
  · simp only [fromQuat, multiply, setTransposed, id]
    linear_combination (-4 * (q.x * q.z)) * hq
  · simp only [fromQuat, multiply, setTransposed, id]
    linear_combination (-4 * (q.y * q.z)) * hq
  · simp only [fromQuat, multiply, setTransposed, id]
    linear_combination (4 * (q.x * q.x + q.y * q.y)) * hq

/-- For a unit quaternion, the transpose of `fromQuat(q)` times
`fromQuat(q)` is the identity. -/
theorem fromQuat_transpose_mul (q : SrQuaternion F) (hq : q.magnitudeSquared = 1) :
    multiply (setTransposed (fromQuat q)) (fromQuat q) = id := by
  simp only [SrQuaternion.magnitudeSquared] at hq
  ext
  · simp only [fromQuat, multiply, setTransposed, id]
    linear_combination (4 * (q.y * q.y + q.z * q.z)) * hq
  · simp only [fromQuat, multiply, setTransposed, id]
    linear_combination (-4 * (q.x * q.y)) * hq
  · simp only [fromQuat, multiply, setTransposed, id]
    linear_combination (-4 * (q.x * q.z)) * hq
  · simp only [fromQuat, multiply, setTransposed, id]
    linear_combination (-4 * (q.x * q.y)) * hq
  · simp only [fromQuat, multiply, setTransposed, id]
    linear_combination (4 * (q.x * q.x + q.z * q.z)) * hq
  · simp only [fromQuat, multiply, setTransposed, id]
    linear_combination (-4 * (q.y * q.z)) * hq
  · simp only [fromQuat, multiply, setTransposed, id]
    linear_combination (-4 * (q.x * q.z)) * hq
  · simp only [fromQuat, multiply, setTransposed, id]
    linear_combination (-4 * (q.y * q.z)) * hq
  · simp only [fromQuat, multiply, setTransposed, id]
    linear_combination (4 * (q.x * q.x + q.y * q.y)) * hq

/-- For a unit quaternion, `fromQuat(q)` has determinant 1. -/
theorem determinant_fromQuat (q : SrQuaternion F) (hq : q.magnitudeSquared = 1) :
    (fromQuat q).determinant = 1 := by
  simp only [SrQuaternion.magnitudeSquared] at hq
  simp only [fromQuat, determinant]
  linear_combination (4 * (q.x * q.x + q.y * q.y + q.z * q.z)) * hq

/-- Claim C35. Over exact arithmetic, for every unit quaternion `q` the
matrix `R = fromQuat(q)` is a proper rotation: `R x transpose(R)` is the
identity, `transpose(R) x R` is the identity, and `determinant(R) = 1`. The
products are taken with `multiply` on the transpose and, equally, with
`multiplyTransposeRight` and `multiplyTransposeLeft`. -/
theorem fromQuat_proper_rotation (q : SrQuaternion F) (hq : q.magnitudeSquared = 1) :
    multiply (fromQuat q) (setTransposed (fromQuat q)) = id ∧
    multiply (setTransposed (fromQuat q)) (fromQuat q) = id ∧
    multiplyTransposeRight (fromQuat q) (fromQuat q) = id ∧
    multiplyTransposeLeft (fromQuat q) (fromQuat q) = id ∧
    (fromQuat q).determinant = 1 := by
  have hr := fromQuat_mul_transpose q hq
  have hl := fromQuat_transpose_mul q hq
  have er : ∀ A B : SrMatrix33 F, multiplyTransposeRight A B = multiply A (setTransposed B) :=
    fun A B => by simp only [multiplyTransposeRight, multiply, setTransposed]
  have el : ∀ A B : SrMatrix33 F, multiplyTransposeLeft A B = multiply (setTransposed A) B :=
    fun A B => by simp only [multiplyTransposeLeft, multiply, setTransposed]
  exact ⟨hr, hl, by rw [er, hr], by rw [el, hl], determinant_fromQuat q hq⟩

/-- Witness for C35 at the unit quaternion `q = (3/5, 0, 0, 4/5)`. -/
theorem fromQuat_proper_rotation_witness :
    (⟨3 / 5, 0, 0, 4 / 5⟩ : SrQuaternion ℚ).magnitudeSquared = 1 ∧
    (fromQuat (⟨3 / 5, 0, 0, 4 / 5⟩ : SrQuaternion ℚ)).determinant = 1 :=
  ⟨by norm_num [SrQuaternion.magnitudeSquared],
   (fromQuat_proper_rotation (⟨3 / 5, 0, 0, 4 / 5⟩ : SrQuaternion ℚ)
      (by norm_num [SrQuaternion.magnitudeSquared])).2.2.2.2⟩

/-- Claim C39. Over exact arithmetic, the matrix and quaternion rotation
conventions agree: for every unit quaternion `q` and every vector `v`,
`SrMatrix33(q) * v` (`fromQuat` followed by the matrix-vector multiply)
equals `q.rot(v)`, and the transpose-multiply `SrMatrix33(q) % v` equals
`q.invRot(v)`. -/
theorem fromQuat_mulVec_eq_rot (q : SrQuaternion F) (v : SrVector3 F)
    (hq : q.magnitudeSquared = 1) :
    (fromQuat q).mulVec v = q.rot v ∧
    (fromQuat q).modVec v = q.invRot v := by
  simp only [SrQuaternion.magnitudeSquared] at hq
  constructor
  · ext
    · simp only [fromQuat, mulVec, multiplyVec, SrQuaternion.rot, SrVector3.mulScalar,
        SrVector3.add, SrVector3.cross, SrVector3.dot]
      linear_combination (-2 * v.x) * hq
    · simp only [fromQuat, mulVec, multiplyVec, SrQuaternion.rot, SrVector3.mulScalar,
        SrVector3.add, SrVector3.cross, SrVector3.dot]
      linear_combination (-2 * v.y) * hq
    · simp only [fromQuat, mulVec, multiplyVec, SrQuaternion.rot, SrVector3.mulScalar,
        SrVector3.add, SrVector3.cross, SrVector3.dot]
      linear_combination (-2 * v.z) * hq
  · ext
    · simp only [fromQuat, modVec, multiplyByTranspose, SrQuaternion.invRot,
        SrVector3.mulScalar, SrVector3.add, SrVector3.sub, SrVector3.cross, SrVector3.dot]
      linear_combination (-2 * v.x) * hq
    · simp only [fromQuat, modVec, multiplyByTranspose, SrQuaternion.invRot,
        SrVector3.mulScalar, SrVector3.add, SrVector3.sub, SrVector3.cross, SrVector3.dot]
      linear_combination (-2 * v.y) * hq
    · simp only [fromQuat, modVec, multiplyByTranspose, SrQuaternion.invRot,
        SrVector3.mulScalar, SrVector3.add, SrVector3.sub, SrVector3.cross, SrVector3.dot]
      linear_combination (-2 * v.z) * hq

/-- Witness for C39 at the unit quaternion `q = (3/5, 0, 0, 4/5)` and
`v = (1, 2, 3)`. -/
theorem fromQuat_mulVec_eq_rot_witness :
    (⟨3 / 5, 0, 0, 4 / 5⟩ : SrQuaternion ℚ).magnitudeSquared = 1 ∧
    (fromQuat (⟨3 / 5, 0, 0, 4 / 5⟩ : SrQuaternion ℚ)).mulVec ⟨1, 2, 3⟩
      = (⟨3 / 5, 0, 0, 4 / 5⟩ : SrQuaternion ℚ).rot ⟨1, 2, 3⟩ ∧
    (fromQuat (⟨3 / 5, 0, 0, 4 / 5⟩ : SrQuaternion ℚ)).modVec ⟨1, 2, 3⟩
      = (⟨3 / 5, 0, 0, 4 / 5⟩ : SrQuaternion ℚ).invRot ⟨1, 2, 3⟩ :=
  ⟨by norm_num [SrQuaternion.magnitudeSquared],
   fromQuat_mulVec_eq_rot (⟨3 / 5, 0, 0, 4 / 5⟩ : SrQuaternion ℚ) ⟨1, 2, 3⟩
     (by norm_num [SrQuaternion.magnitudeSquared])⟩

end SrMatrix33

/-! ## Theorems: quaternion norm -/

namespace SrQuaternion

variable {F : Type} [LinearOrderedField F]

/-- Claim C36. Over exact arithmetic, the quaternion norm is multiplicative
under `SrQuaternion::multiply`: for all quaternions `a`, `b`,
`magnitudeSquared(a*b) = magnitudeSquared(a) * magnitudeSquared(b)`, so the
product of unit quaternions is a unit quaternion; and
`q * conjugate(q) = (0, 0, 0, magnitudeSquared(q))`, so for unit `q`
`invert()` and `conjugate()`, which compute the same quaternion, give the
inverse: the product with `q` on either side is the identity quaternion
`(0, 0, 0, 1)` and the matrix is the transpose. -/
theorem magnitudeSquared_multiply (a b q : SrQuaternion F) :
    (multiply a b).magnitudeSquared = a.magnitudeSquared * b.magnitudeSquared ∧
    (a.magnitudeSquared = 1 → b.magnitudeSquared = 1 →
      (multiply a b).magnitudeSquared = 1) ∧
    multiply q q.conjugate = ⟨0, 0, 0, q.magnitudeSquared⟩ ∧
    multiply q.conjugate q = ⟨0, 0, 0, q.magnitudeSquared⟩ ∧
    q.invert = q.conjugate ∧
    (q.magnitudeSquared = 1 →
      multiply q q.invert = ⟨0, 0, 0, 1⟩ ∧ multiply q.invert q = ⟨0, 0, 0, 1⟩ ∧
      SrMatrix33.fromQuat q.invert = SrMatrix33.setTransposed (SrMatrix33.fromQuat q)) := by
  have hm : (multiply a b).magnitudeSquared = a.magnitudeSquared * b.magnitudeSquared := by
    simp only [multiply, magnitudeSquared]
    ring
  have hr : multiply q q.conjugate = ⟨0, 0, 0, q.magnitudeSquared⟩ := by
    ext <;> simp only [multiply, conjugate, magnitudeSquared] <;> ring
  have hl : multiply q.conjugate q = ⟨0, 0, 0, q.magnitudeSquared⟩ := by
    ext <;> simp only [multiply, conjugate, magnitudeSquared] <;> ring
  have hi : q.invert = q.conjugate := rfl
  refine ⟨hm, fun ha hb => by rw [hm, ha, hb, one_mul], hr, hl, hi, fun hq => ?_⟩
  rw [hi, hr, hl, hq]
  exact ⟨rfl, rfl, SrMatrix33.fromQuat_conjugate q⟩

/-- Witness for C36 at the unit quaternions `a = q = (3/5, 0, 0, 4/5)` and
`b = (0, 1, 0, 0)`. -/
theorem magnitudeSquared_multiply_witness :
    (⟨3 / 5, 0, 0, 4 / 5⟩ : SrQuaternion ℚ).magnitudeSquared = 1 ∧
    (⟨0, 1, 0, 0⟩ : SrQuaternion ℚ).magnitudeSquared = 1 ∧
    (multiply (⟨3 / 5, 0, 0, 4 / 5⟩ : SrQuaternion ℚ) ⟨0, 1, 0, 0⟩).magnitudeSquared = 1 ∧
    multiply (⟨3 / 5, 0, 0, 4 / 5⟩ : SrQuaternion ℚ)
      (⟨3 / 5, 0, 0, 4 / 5⟩ : SrQuaternion ℚ).invert = ⟨0, 0, 0, 1⟩ :=
  ⟨by norm_num [magnitudeSquared], by norm_num [magnitudeSquared],
   (magnitudeSquared_multiply (⟨3 / 5, 0, 0, 4 / 5⟩ : SrQuaternion ℚ) ⟨0, 1, 0, 0⟩
      ⟨3 / 5, 0, 0, 4 / 5⟩).2.1
     (by norm_num [magnitudeSquared]) (by norm_num [magnitudeSquared]),
   ((magnitudeSquared_multiply (⟨3 / 5, 0, 0, 4 / 5⟩ : SrQuaternion ℚ) ⟨0, 1, 0, 0⟩
      ⟨3 / 5, 0, 0, 4 / 5⟩).2.2.2.2.2
     (by norm_num [magnitudeSquared])).1⟩

end SrQuaternion

/-! ## Theorems: further properties of slerp -/

namespace SrQuaternion

variable {F : Type} [LinearOrderedField F]

/-- The squared magnitude of a blend of two quaternions. -/
theorem magnitudeSquared_blend (a b : SrQuaternion F) (l u : F) :
    (⟨a.x * l + b.x * u, a.y * l + b.y * u, a.z * l + b.z * u, a.w * l + b.w * u⟩ :
      SrQuaternion F).magnitudeSquared
      = l * l * a.magnitudeSquared + u * u * b.magnitudeSquared + 2 * l * u * a.dot b := by
  simp only [magnitudeSquared, dot]
  ring

/-- The cosine of `atan2(sqrt(1 - c^2), c)` is `c`. -/
theorem cos_atan2_sqrt (c : ℝ) (h : 0 < 1 - c * c) :
    SrMath.real.cos (SrMath.real.atan2 (SrMath.real.sqrt (1 - c * c)) c) = c := by
  simp only [SrMath.real]
  have hne : (⟨c, Real.sqrt (1 - c * c)⟩ : ℂ) ≠ 0 := by
    intro h0
    have him := congrArg Complex.im h0
    simp only [Complex.zero_im] at him
    exact (Real.sqrt_pos.mpr h).ne' him
  rw [Complex.cos_arg hne, Complex.abs_apply, Complex.normSq_mk, Real.mul_self_sqrt h.le]
  have : c * c + (1 - c * c) = 1 := by ring
  rw [this, Real.sqrt_one, div_one]

/-- The weights of the blending branch: with `S^2 + c^2 = 1`,
`P^2 + Q^2 = 1`, `sgn^2 = 1` and `sgn * d = c`, the weights
`l = (S Q - c P) / S` and `u = P / S * sgn` satisfy
`l^2 + u^2 + 2 l u d = 1`. -/
theorem slerp_weights (S c P Q sgn d : F) (hS : S ≠ 0) (h1 : sgn * sgn = 1)
    (h2 : sgn * d = c) (h3 : S * S = 1 - c * c) (h4 : P * P + Q * Q = 1) :
    ((S * Q - c * P) * (1 / S)) * ((S * Q - c * P) * (1 / S))
      + (P * (1 / S) * sgn) * (P * (1 / S) * sgn)
      + 2 * ((S * Q - c * P) * (1 / S)) * (P * (1 / S) * sgn) * d = 1 := by
  have key : (S * Q - c * P) * (S * Q - c * P) + P * P * (sgn * sgn)
      + 2 * (S * Q - c * P) * P * (sgn * d) = S * S := by
    linear_combination (P * P) * h1 + (2 * (S * Q - c * P) * P) * h2 - (P * P) * h3
      + (S * S) * h4
  have hSS : S * S ≠ 0 := mul_ne_zero hS hS
  have e : ((S * Q - c * P) * (1 / S)) * ((S * Q - c * P) * (1 / S))
      + (P * (1 / S) * sgn) * (P * (1 / S) * sgn)
      + 2 * ((S * Q - c * P) * (1 / S)) * (P * (1 / S) * sgn) * d
      = ((S * Q - c * P) * (S * Q - c * P) + P * P * (sgn * sgn)
        + 2 * (S * Q - c * P) * P * (sgn * d)) / (S * S) := by
    field_simp
    ring
  rw [e, key, div_self hSS]

/-- In the blending branch `slerp` of two unit quaternions is a unit
quaternion. -/
theorem magnitudeSquared_slerp_blend (t : ℝ) (a b : SrQuaternion ℝ)
    (ha : a.magnitudeSquared = 1) (hb : b.magnitudeSquared = 1)
    (h : quatEpsilon * quatEpsilon ≤ 1 - a.dot b * a.dot b) :
    (slerp SrMath.real t a b).magnitudeSquared = 1 := by
  obtain ⟨c, hc⟩ : ∃ c, c = if a.dot b < 0 then -(a.dot b) else a.dot b := ⟨_, rfl⟩
  obtain ⟨sgn, hs⟩ : ∃ sgn : ℝ, sgn = if a.dot b < 0 then -1 else 1 := ⟨_, rfl⟩
  have hcc : c * c = a.dot b * a.dot b := by rw [hc]; exact slerp_cosine_sq _
  have h' : quatEpsilon * quatEpsilon ≤ 1 - c * c := by rw [hcc]; exact h
  have hpos : 0 < 1 - c * c := lt_of_lt_of_le (by norm_num [quatEpsilon]) h'
  have hsin := sin_atan2_sqrt c hpos
  have hcos := cos_atan2_sqrt c hpos
  have hne : SrMath.real.sqrt (1 - c * c) ≠ 0 := (Real.sqrt_pos.mpr hpos).ne'
  have hSS : SrMath.real.sqrt (1 - c * c) * SrMath.real.sqrt (1 - c * c) = 1 - c * c :=
    Real.mul_self_sqrt hpos.le
  have h1 : sgn * sgn = 1 := by
    rw [hs]
    split_ifs <;> ring
  have h2 : sgn * a.dot b = c := by
    rw [hs, hc]
    split_ifs <;> ring
  have hsub : SrMath.real.sin (SrMath.real.atan2 (SrMath.real.sqrt (1 - c * c)) c * (1 - t))
      = SrMath.real.sqrt (1 - c * c)
          * Real.cos (SrMath.real.atan2 (SrMath.real.sqrt (1 - c * c)) c * t)
        - c * Real.sin (SrMath.real.atan2 (SrMath.real.sqrt (1 - c * c)) c * t) := by
    have e : SrMath.real.atan2 (SrMath.real.sqrt (1 - c * c)) c * (1 - t)
        = SrMath.real.atan2 (SrMath.real.sqrt (1 - c * c)) c
          - SrMath.real.atan2 (SrMath.real.sqrt (1 - c * c)) c * t := by ring
    have hsn : SrMath.real.sin = Real.sin := rfl
    have hcs : SrMath.real.cos = Real.cos := rfl
    rw [hsn] at hsin ⊢
    rw [hcs] at hcos
    rw [e, Real.sin_sub, hsin, hcos]
  have h4 := Real.sin_sq_add_cos_sq (SrMath.real.atan2 (SrMath.real.sqrt (1 - c * c)) c * t)
  have h4' : Real.sin (SrMath.real.atan2 (SrMath.real.sqrt (1 - c * c)) c * t)
        * Real.sin (SrMath.real.atan2 (SrMath.real.sqrt (1 - c * c)) c * t)
      + Real.cos (SrMath.real.atan2 (SrMath.real.sqrt (1 - c * c)) c * t)
        * Real.cos (SrMath.real.atan2 (SrMath.real.sqrt (1 - c * c)) c * t) = 1 := by
    linear_combination h4
  have hsn : SrMath.real.sin (SrMath.real.atan2 (SrMath.real.sqrt (1 - c * c)) c * t)
      = Real.sin (SrMath.real.atan2 (SrMath.real.sqrt (1 - c * c)) c * t) := rfl
  rw [slerp_of_blend SrMath.real t a b c sgn hc hs h', hsub, hsn]
  have hb' := magnitudeSquared_blend a b
    ((SrMath.real.sqrt (1 - c * c)
        * Real.cos (SrMath.real.atan2 (SrMath.real.sqrt (1 - c * c)) c * t)
      - c * Real.sin (SrMath.real.atan2 (SrMath.real.sqrt (1 - c * c)) c * t))
      * (1 / SrMath.real.sqrt (1 - c * c)))
    (Real.sin (SrMath.real.atan2 (SrMath.real.sqrt (1 - c * c)) c * t)
      * (1 / SrMath.real.sqrt (1 - c * c)) * sgn)
  rw [hb', ha, hb, mul_one, mul_one]
  exact slerp_weights _ c _ _ sgn (a.dot b) hne h1 h2 hSS h4'

/-- Claim C37. Over exact real arithmetic, although `slerp` does not
renormalize, it preserves unit length: for all unit quaternions `a`, `b`
and every real `t`, `magnitudeSquared(slerp(t, a, b)) = 1` (in the blending
branch because the two sine weights satisfy
`lw^2 + uw^2 + 2*lw*uw*dot(a,b) = 1`, in the near-parallel branch because
the result is `a`). -/
theorem magnitudeSquared_slerp (t : ℝ) (a b : SrQuaternion ℝ)
    (ha : a.magnitudeSquared = 1) (hb : b.magnitudeSquared = 1) :
    (slerp SrMath.real t a b).magnitudeSquared = 1 := by
  by_cases h : quatEpsilon * quatEpsilon ≤ 1 - a.dot b * a.dot b
  · exact magnitudeSquared_slerp_blend t a b ha hb h
  · rw [slerp_of_near_parallel SrMath.real t a b (not_le.mp h)]
    exact ha

/-- Witness for C37 at the orthogonal unit quaternions `a = (0, 0, 0, 1)`
and `b = (1, 0, 0, 0)` with `t = 1/3`, in the blending branch. -/
theorem magnitudeSquared_slerp_witness :
    (⟨0, 0, 0, 1⟩ : SrQuaternion ℝ).magnitudeSquared = 1 ∧
    (⟨1, 0, 0, 0⟩ : SrQuaternion ℝ).magnitudeSquared = 1 ∧
    (slerp SrMath.real (1 / 3) (⟨0, 0, 0, 1⟩ : SrQuaternion ℝ)
      ⟨1, 0, 0, 0⟩).magnitudeSquared = 1 :=
  ⟨by norm_num [magnitudeSquared], by norm_num [magnitudeSquared],
   magnitudeSquared_slerp (1 / 3) _ _ (by norm_num [magnitudeSquared])
     (by norm_num [magnitudeSquared])⟩

end SrQuaternion

namespace SrQuaternion

variable {F : Type} [LinearOrderedField F]

/-- Negating the second operand negates the dot product. -/
theorem dot_neg_right (a b : SrQuaternion F) : a.dot b.neg = -(a.dot b) := by
  simp only [dot, neg]
  ring

/-- With a non-zero dot product, negating the second operand of `slerp`
does not change the result. -/
theorem slerp_neg_of_dot_ne_zero (m : SrMath F) (t : F) (a b : SrQuaternion F)
    (hd : a.dot b ≠ 0) : slerp m t a b.neg = slerp m t a b := by
  by_cases h : quatEpsilon * quatEpsilon ≤ 1 - a.dot b * a.dot b
  · obtain ⟨c, hc⟩ : ∃ c, c = if a.dot b < 0 then -(a.dot b) else a.dot b := ⟨_, rfl⟩
    obtain ⟨sgn, hs⟩ : ∃ sgn : F, sgn = if a.dot b < 0 then -1 else 1 := ⟨_, rfl⟩
    have hcc : c * c = a.dot b * a.dot b := by rw [hc]; exact slerp_cosine_sq _
    have h' : quatEpsilon * quatEpsilon ≤ 1 - c * c := by rw [hcc]; exact h
    have hc' : c = if a.dot b.neg < 0 then -(a.dot b.neg) else a.dot b.neg := by
      rw [dot_neg_right, hc]
      rcases lt_or_gt_of_ne hd with hlt | hgt
      · rw [if_pos hlt, if_neg (by linarith)]
      · rw [if_neg (by linarith), if_pos (by linarith)]
        ring
    have hs' : -sgn = if a.dot b.neg < 0 then -1 else 1 := by
      rw [dot_neg_right, hs]
      rcases lt_or_gt_of_ne hd with hlt | hgt
      · rw [if_pos hlt, if_neg (by linarith)]
        ring
      · rw [if_neg (by linarith), if_pos (by linarith)]
    rw [slerp_of_blend m t a b.neg c (-sgn) hc' hs' h', slerp_of_blend m t a b c sgn hc hs h']
    ext <;> simp only [neg] <;> ring
  · have hn := not_le.mp h
    have hn' : 1 - a.dot b.neg * a.dot b.neg < quatEpsilon * quatEpsilon := by
      rw [dot_neg_right]
      linarith [neg_mul_neg (a.dot b) (a.dot b)]
    rw [slerp_of_near_parallel m t a b hn, slerp_of_near_parallel m t a b.neg hn']

/-- Claim C38. The sign flip in `slerp` makes the result independent of the
sign of the second operand: for all quaternions `a`, `b` with
`dot(a,b) != 0` and every `t`, `slerp(t, a, -b)` equals `slerp(t, a, b)`,
whatever `sqrt`, `sin` and `atan2` compute; when `dot(a,b) = 0` exactly the
two results differ in general (no flip is applied to either): over the
reals, for `a = (0, 0, 0, 1)`, `b = (1, 0, 0, 0)` and `t = 1` they are `-b`
and `b`. -/
theorem slerp_neg_right (m : SrMath F) (t : F) (a b : SrQuaternion F) :
    (a.dot b ≠ 0 → slerp m t a b.neg = slerp m t a b) ∧
    ((⟨0, 0, 0, 1⟩ : SrQuaternion ℝ).dot ⟨1, 0, 0, 0⟩ = 0 ∧
      slerp SrMath.real 1 (⟨0, 0, 0, 1⟩ : SrQuaternion ℝ) ⟨1, 0, 0, 0⟩ = ⟨1, 0, 0, 0⟩ ∧
      slerp SrMath.real 1 (⟨0, 0, 0, 1⟩ : SrQuaternion ℝ)
        (⟨1, 0, 0, 0⟩ : SrQuaternion ℝ).neg = ⟨-1, 0, 0, 0⟩ ∧
      slerp SrMath.real 1 (⟨0, 0, 0, 1⟩ : SrQuaternion ℝ) (⟨1, 0, 0, 0⟩ : SrQuaternion ℝ).neg
        ≠ slerp SrMath.real 1 (⟨0, 0, 0, 1⟩ : SrQuaternion ℝ) ⟨1, 0, 0, 0⟩) := by
  have hab : slerp SrMath.real 1 (⟨0, 0, 0, 1⟩ : SrQuaternion ℝ) ⟨1, 0, 0, 0⟩
      = ⟨1, 0, 0, 0⟩ := by
    rw [(slerp_blend_endpoints _ _ (by norm_num [dot, quatEpsilon])).2]
    norm_num [dot]
  have hanb : slerp SrMath.real 1 (⟨0, 0, 0, 1⟩ : SrQuaternion ℝ)
      (⟨1, 0, 0, 0⟩ : SrQuaternion ℝ).neg = ⟨-1, 0, 0, 0⟩ := by
    rw [(slerp_blend_endpoints _ _ (by norm_num [dot, neg, quatEpsilon])).2]
    norm_num [dot, neg]
  refine ⟨slerp_neg_of_dot_ne_zero m t a b, by norm_num [dot], hab, hanb, ?_⟩
  rw [hab, hanb]
  intro h
  have hx := congrArg SrQuaternion.x h
  norm_num at hx

/-- Witness for C38 over the reals at `a = (3/5, 0, 0, 4/5)`,
`b = (0, 0, 0, 1)`, whose dot product is `4/5`, and `t = 1/3`. -/
theorem slerp_neg_right_witness :
    (⟨3 / 5, 0, 0, 4 / 5⟩ : SrQuaternion ℝ).dot ⟨0, 0, 0, 1⟩ ≠ 0 ∧
    slerp SrMath.real (1 / 3) (⟨3 / 5, 0, 0, 4 / 5⟩ : SrQuaternion ℝ)
        (⟨0, 0, 0, 1⟩ : SrQuaternion ℝ).neg
      = slerp SrMath.real (1 / 3) (⟨3 / 5, 0, 0, 4 / 5⟩ : SrQuaternion ℝ) ⟨0, 0, 0, 1⟩ :=
  ⟨by norm_num [dot],
   (slerp_neg_right SrMath.real (1 / 3) (⟨3 / 5, 0, 0, 4 / 5⟩ : SrQuaternion ℝ)
      ⟨0, 0, 0, 1⟩).1 (by norm_num [dot])⟩

/-- The quaternion `fromAngleAxis` produces over the reals. -/
theorem fromAngleAxis_eq (angle : ℝ) (axis : SrVector3 ℝ) :
    fromAngleAxis SrMath.real angle axis =
      { w := Real.cos (angle * Real.pi / 360)
        x := axis.x / Real.sqrt (axis.x * axis.x + axis.y * axis.y + axis.z * axis.z)
          * Real.sin (angle * Real.pi / 360)
        y := axis.y / Real.sqrt (axis.x * axis.x + axis.y * axis.y + axis.z * axis.z)
          * Real.sin (angle * Real.pi / 360)
        z := axis.z / Real.sqrt (axis.x * axis.x + axis.y * axis.y + axis.z * axis.z)
          * Real.sin (angle * Real.pi / 360) } := by
  have hH := degToRad_half angle
  have hS : SrMath.real.sqrt = Real.sqrt := rfl
  have hsin : SrMath.real.sin = Real.sin := rfl
  have hcos : SrMath.real.cos = Real.cos := rfl
  simp only [fromAngleAxis, hH, hS, hsin, hcos]
  ext <;> simp only [] <;> ring

/-- The angle and axis `getAngleAxis` recovers from
`(X sin h, Y sin h, Z sin h, cos h)` with `0 < h < pi`. -/
theorem getAngleAxis_half_angle (h X Y Z : ℝ) (hh0 : 0 < h) (hhpi : h < Real.pi) :
    getAngleAxis SrMath.real
        ⟨X * Real.sin h, Y * Real.sin h, Z * Real.sin h, Real.cos h⟩
      = (h * 2 * (180 / Real.pi), ⟨X, Y, Z⟩) := by
  have hsinpos : 0 < Real.sin h := Real.sin_pos_of_pos_of_lt_pi hh0 hhpi
  have hsa : SrMath.real.sqrt (1 - Real.cos h * Real.cos h) = Real.sin h := by
    have e : 1 - Real.cos h * Real.cos h = Real.sin h ^ 2 := by
      have := Real.sin_sq_add_cos_sq h
      linear_combination -this
    show Real.sqrt (1 - Real.cos h * Real.cos h) = Real.sin h
    rw [e, Real.sqrt_sq hsinpos.le]
  have hacos : SrMath.real.acos (Real.cos h) = h := Real.arccos_cos hh0.le hhpi.le
  have hne : SrMath.real.sqrt (1 - Real.cos h * Real.cos h) ≠ 0 := by
    rw [hsa]
    exact hsinpos.ne'
  have hs0 := hsinpos.ne'
  unfold getAngleAxis
  rw [if_pos hne, hsa, hacos]
  refine Prod.ext rfl ?_
  ext
  · exact mul_div_cancel_right₀ X hs0
  · exact mul_div_cancel_right₀ Y hs0
  · exact mul_div_cancel_right₀ Z hs0

/-- Claim C40. Over exact real arithmetic, angle-axis conversion
round-trips: for every angle with `0 < angle < 360` (degrees) and every
axis of non-zero length, `getAngleAxis` applied to
`fromAngleAxis(angle, axis)` returns that same angle in degrees and the
axis `axis/|axis|`. -/
theorem getAngleAxis_fromAngleAxis (angle : ℝ) (axis : SrVector3 ℝ)
    (h0 : 0 < angle) (h360 : angle < 360)
    (_hax : Real.sqrt (axis.x * axis.x + axis.y * axis.y + axis.z * axis.z) ≠ 0) :
    getAngleAxis SrMath.real (fromAngleAxis SrMath.real angle axis) =
      (angle,
       ⟨axis.x / Real.sqrt (axis.x * axis.x + axis.y * axis.y + axis.z * axis.z),
        axis.y / Real.sqrt (axis.x * axis.x + axis.y * axis.y + axis.z * axis.z),
        axis.z / Real.sqrt (axis.x * axis.x + axis.y * axis.y + axis.z * axis.z)⟩) := by
  have hpi := Real.pi_pos
  have hh0 : 0 < angle * Real.pi / 360 := by positivity
  have hhpi : angle * Real.pi / 360 < Real.pi := by
    rw [div_lt_iff₀ (by norm_num)]
    nlinarith
  have hdeg : angle * Real.pi / 360 * 2 * (180 / Real.pi) = angle := by
    field_simp
    ring
  rw [fromAngleAxis_eq, getAngleAxis_half_angle _ _ _ _ hh0 hhpi, hdeg]

/-- Witness for C40 at `angle = 90` and `axis = (0, 0, 2)`. -/
theorem getAngleAxis_fromAngleAxis_witness :
    (0 : ℝ) < 90 ∧ (90 : ℝ) < 360 ∧
    Real.sqrt ((⟨0, 0, 2⟩ : SrVector3 ℝ).x * (⟨0, 0, 2⟩ : SrVector3 ℝ).x
      + (⟨0, 0, 2⟩ : SrVector3 ℝ).y * (⟨0, 0, 2⟩ : SrVector3 ℝ).y
      + (⟨0, 0, 2⟩ : SrVector3 ℝ).z * (⟨0, 0, 2⟩ : SrVector3 ℝ).z) ≠ 0 ∧
    (getAngleAxis SrMath.real (fromAngleAxis SrMath.real 90 (⟨0, 0, 2⟩ : SrVector3 ℝ))).1
      = 90 :=
  ⟨by norm_num, by norm_num, Real.sqrt_ne_zero'.mpr (by norm_num),
   congrArg Prod.fst (getAngleAxis_fromAngleAxis 90 (⟨0, 0, 2⟩ : SrVector3 ℝ)
     (by norm_num) (by norm_num) (Real.sqrt_ne_zero'.mpr (by norm_num)))⟩

end SrQuaternion

/-! ## Theorems: the code in binary32 arithmetic -/

namespace Binary32

/-- Landmarks of the rounding: `0.1f` and `1/3`, the sign symmetry, a value
that is kept, the two ties above `2 ^ 24` going to the even neighbour, and
the ties `2 ^ (-150)` and `3 * 2 ^ (-150)` among the multiples of
`2 ^ (-149)`. -/
theorem roundNearest_landmarks :
    roundNearest (1 / 10) = 13421773 / 2 ^ 27 ∧
    roundNearest (1 / 3) = 11184811 / 2 ^ 25 ∧
    roundNearest (-(1 / 10)) = -(13421773 / 2 ^ 27) ∧
    roundNearest (13421773 / 2 ^ 27) = 13421773 / 2 ^ 27 ∧
    roundNearest (2 ^ 24 + 1) = 2 ^ 24 ∧
    roundNearest (2 ^ 24 + 3) = 2 ^ 24 + 4 ∧
    roundNearest (1 / 2 ^ 150) = 0 ∧
    roundNearest (3 / 2 ^ 150) = 2 / 2 ^ 149 := by
  decide!

end Binary32

namespace SrMatrix33

/-- Claim C2 fails as stated when `float` is binary32. The matrix
`[0.2 0.8 0.8; 0.9 0.7 0.7; 0.5 0.1 0.1]` has two equal columns:
`getInverse` computes `d = 0` and returns false, while `determinant()`
returns `-2^-29`, which is not 0. For `[0.4 0.2 0.4; 0.8 0.6 1.0; 0.8 0.2 0.6]`
`determinant()` returns 0, while `getInverse` computes `d = -2^-28` and
returns true. In both `d` differs from `determinant()`. -/
theorem getInverse_determinant_binary32_counterexample :
    ((getInverse (⟨.ofRat (2 / 10), .ofRat (8 / 10), .ofRat (8 / 10),
        .ofRat (9 / 10), .ofRat (7 / 10), .ofRat (7 / 10),
        .ofRat (5 / 10), .ofRat (1 / 10), .ofRat (1 / 10)⟩ : SrMatrix33 Binary32)).1 = false ∧
      getInverseDet (⟨.ofRat (2 / 10), .ofRat (8 / 10), .ofRat (8 / 10),
        .ofRat (9 / 10), .ofRat (7 / 10), .ofRat (7 / 10),
        .ofRat (5 / 10), .ofRat (1 / 10), .ofRat (1 / 10)⟩ : SrMatrix33 Binary32) = 0 ∧
      determinant (⟨.ofRat (2 / 10), .ofRat (8 / 10), .ofRat (8 / 10),
        .ofRat (9 / 10), .ofRat (7 / 10), .ofRat (7 / 10),
        .ofRat (5 / 10), .ofRat (1 / 10), .ofRat (1 / 10)⟩ : SrMatrix33 Binary32)
        = ⟨-(1 / 2 ^ 29)⟩ ∧
      determinant (⟨.ofRat (2 / 10), .ofRat (8 / 10), .ofRat (8 / 10),
        .ofRat (9 / 10), .ofRat (7 / 10), .ofRat (7 / 10),
        .ofRat (5 / 10), .ofRat (1 / 10), .ofRat (1 / 10)⟩ : SrMatrix33 Binary32) ≠ 0) ∧
    ((getInverse (⟨.ofRat (4 / 10), .ofRat (2 / 10), .ofRat (4 / 10),
        .ofRat (8 / 10), .ofRat (6 / 10), .ofRat (10 / 10),
        .ofRat (8 / 10), .ofRat (2 / 10), .ofRat (6 / 10)⟩ : SrMatrix33 Binary32)).1 = true ∧
      getInverseDet (⟨.ofRat (4 / 10), .ofRat (2 / 10), .ofRat (4 / 10),
        .ofRat (8 / 10), .ofRat (6 / 10), .ofRat (10 / 10),
        .ofRat (8 / 10), .ofRat (2 / 10), .ofRat (6 / 10)⟩ : SrMatrix33 Binary32)
        = ⟨-(1 / 2 ^ 28)⟩ ∧
      determinant (⟨.ofRat (4 / 10), .ofRat (2 / 10), .ofRat (4 / 10),
        .ofRat (8 / 10), .ofRat (6 / 10), .ofRat (10 / 10),
        .ofRat (8 / 10), .ofRat (2 / 10), .ofRat (6 / 10)⟩ : SrMatrix33 Binary32) = 0) := by
  decide!

end SrMatrix33

namespace SrQuaternion

/-- Claim C8 fails as stated when `float` is binary32, with
`a = (0, 0, 0, 1)`. For `b = (2^-13, 0, 0, 1)`, whose `magnitudeSquared()`
is 1, `dot(a, b)` is 1, the near-parallel branch is taken and
`slerp(1, a, b)` is `a`, neither `b` nor `-b`. For
`b = (0.16f, 0, 0, 0.987116992f)`, whose `magnitudeSquared()` is 1, the
blending branch is taken, the upper weight is `1 - 2^-24` and
`slerp(1, a, b)` is `(0.159999982, 0, 0, 0.987116933)`, neither `b` nor
`-b`. -/
theorem slerp_one_binary32_counterexample :
    ((⟨0, 0, 0, 1⟩ : SrQuaternion Binary32).magnitudeSquared = 1 ∧
      (⟨⟨1 / 2 ^ 13⟩, 0, 0, 1⟩ : SrQuaternion Binary32).magnitudeSquared = 1 ∧
      (⟨0, 0, 0, 1⟩ : SrQuaternion Binary32).dot ⟨⟨1 / 2 ^ 13⟩, 0, 0, 1⟩ = 1 ∧
      slerp SrMath.binary32 1 ⟨0, 0, 0, 1⟩ ⟨⟨1 / 2 ^ 13⟩, 0, 0, 1⟩ = ⟨0, 0, 0, 1⟩ ∧
      slerp SrMath.binary32 1 ⟨0, 0, 0, 1⟩ ⟨⟨1 / 2 ^ 13⟩, 0, 0, 1⟩
        ≠ ⟨⟨1 / 2 ^ 13⟩, 0, 0, 1⟩ ∧
      slerp SrMath.binary32 1 ⟨0, 0, 0, 1⟩ ⟨⟨1 / 2 ^ 13⟩, 0, 0, 1⟩
        ≠ (⟨⟨1 / 2 ^ 13⟩, 0, 0, 1⟩ : SrQuaternion Binary32).neg) ∧
    ((⟨.ofRat (16 / 100), 0, 0, ⟨16561075 / 2 ^ 24⟩⟩ : SrQuaternion Binary32).magnitudeSquared
        = 1 ∧
      (⟨0, 0, 0, 1⟩ : SrQuaternion Binary32).dot
        ⟨.ofRat (16 / 100), 0, 0, ⟨16561075 / 2 ^ 24⟩⟩ = ⟨16561075 / 2 ^ 24⟩ ∧
      slerp SrMath.binary32 1 ⟨0, 0, 0, 1⟩ ⟨.ofRat (16 / 100), 0, 0, ⟨16561075 / 2 ^ 24⟩⟩
        = ⟨⟨10737417 / 2 ^ 26⟩, 0, 0, ⟨8280537 / 2 ^ 23⟩⟩ ∧
      slerp SrMath.binary32 1 ⟨0, 0, 0, 1⟩ ⟨.ofRat (16 / 100), 0, 0, ⟨16561075 / 2 ^ 24⟩⟩
        ≠ ⟨.ofRat (16 / 100), 0, 0, ⟨16561075 / 2 ^ 24⟩⟩ ∧
      slerp SrMath.binary32 1 ⟨0, 0, 0, 1⟩ ⟨.ofRat (16 / 100), 0, 0, ⟨16561075 / 2 ^ 24⟩⟩
        ≠ (⟨.ofRat (16 / 100), 0, 0, ⟨16561075 / 2 ^ 24⟩⟩ : SrQuaternion Binary32).neg) := by
  decide!

/-- Claim C12 fails as stated when `float` is binary32: for the unit
quaternion `q = (0.5, 0.5, 0.5, 0.5)` and `v = (0.1f, 0.2f, 0.3f)`,
`rotate(v)` leaves `(0.300000012, 0.100000009, 0.200000003)` while `rot(v)`
returns `(0.300000012, 0.099999994, 0.200000003)`; `inverseRotate(v)` and
`invRot(v)` differ as well. -/
theorem rotate_rot_binary32_counterexample :
    (⟨1 / 2, 1 / 2, 1 / 2, 1 / 2⟩ : SrQuaternion Binary32).magnitudeSquared = 1 ∧
    rotate (⟨1 / 2, 1 / 2, 1 / 2, 1 / 2⟩ : SrQuaternion Binary32)
        ⟨.ofRat (1 / 10), .ofRat (2 / 10), .ofRat (3 / 10)⟩
      = ⟨⟨5033165 / 2 ^ 24⟩, ⟨6710887 / 2 ^ 26⟩, ⟨13421773 / 2 ^ 26⟩⟩ ∧
    rot (⟨1 / 2, 1 / 2, 1 / 2, 1 / 2⟩ : SrQuaternion Binary32)
        ⟨.ofRat (1 / 10), .ofRat (2 / 10), .ofRat (3 / 10)⟩
      = ⟨⟨5033165 / 2 ^ 24⟩, ⟨3355443 / 2 ^ 25⟩, ⟨13421773 / 2 ^ 26⟩⟩ ∧
    rotate (⟨1 / 2, 1 / 2, 1 / 2, 1 / 2⟩ : SrQuaternion Binary32)
        ⟨.ofRat (1 / 10), .ofRat (2 / 10), .ofRat (3 / 10)⟩
      ≠ rot (⟨1 / 2, 1 / 2, 1 / 2, 1 / 2⟩ : SrQuaternion Binary32)
        ⟨.ofRat (1 / 10), .ofRat (2 / 10), .ofRat (3 / 10)⟩ ∧
    inverseRotate (⟨1 / 2, 1 / 2, 1 / 2, 1 / 2⟩ : SrQuaternion Binary32)
        ⟨.ofRat (1 / 10), .ofRat (2 / 10), .ofRat (3 / 10)⟩
      = ⟨⟨3355443 / 2 ^ 24⟩, ⟨5033165 / 2 ^ 24⟩, ⟨13421775 / 2 ^ 27⟩⟩ ∧
    invRot (⟨1 / 2, 1 / 2, 1 / 2, 1 / 2⟩ : SrQuaternion Binary32)
        ⟨.ofRat (1 / 10), .ofRat (2 / 10), .ofRat (3 / 10)⟩
      = ⟨⟨13421773 / 2 ^ 26⟩, ⟨5033165 / 2 ^ 24⟩, ⟨6710887 / 2 ^ 26⟩⟩ ∧
    inverseRotate (⟨1 / 2, 1 / 2, 1 / 2, 1 / 2⟩ : SrQuaternion Binary32)
        ⟨.ofRat (1 / 10), .ofRat (2 / 10), .ofRat (3 / 10)⟩
      ≠ invRot (⟨1 / 2, 1 / 2, 1 / 2, 1 / 2⟩ : SrQuaternion Binary32)
        ⟨.ofRat (1 / 10), .ofRat (2 / 10), .ofRat (3 / 10)⟩ := by
  decide!

/-- Claim C15 fails as stated when `float` is binary32: with axis
`(1, 0, 0)`, `fromAngleAxis(0 + 360, axis)` is `(-8.74227766e-8, 0, 0, -1)`,
the sine of the binary32 value nearest to `pi`, while the negation of
`fromAngleAxis(0, axis)` is `(0, 0, 0, -1)`; `fromQuat` gives different
matrices for the two. -/
theorem fromAngleAxis_add_360_binary32_counterexample :
    fromAngleAxis SrMath.binary32 (0 + 360) ⟨1, 0, 0⟩
      = ⟨⟨-6151831 / 2 ^ 46⟩, 0, 0, -1⟩ ∧
    (fromAngleAxis SrMath.binary32 0 ⟨1, 0, 0⟩).neg = ⟨0, 0, 0, -1⟩ ∧
    fromAngleAxis SrMath.binary32 (0 + 360) ⟨1, 0, 0⟩
      ≠ (fromAngleAxis SrMath.binary32 0 ⟨1, 0, 0⟩).neg ∧
    SrMatrix33.fromQuat (fromAngleAxis SrMath.binary32 (0 + 360) ⟨1, 0, 0⟩)
      = ⟨1, 0, 0, 0, 1, ⟨-6151831 / 2 ^ 45⟩, 0, ⟨6151831 / 2 ^ 45⟩, 1⟩ ∧
    SrMatrix33.fromQuat (fromAngleAxis SrMath.binary32 0 ⟨1, 0, 0⟩) = SrMatrix33.id ∧
    SrMatrix33.fromQuat (fromAngleAxis SrMath.binary32 (0 + 360) ⟨1, 0, 0⟩)
      ≠ SrMatrix33.fromQuat (fromAngleAxis SrMath.binary32 0 ⟨1, 0, 0⟩) := by
  decide!

end SrQuaternion

namespace SrMatrix33

/-- Claim C32 fails as stated when `float` is binary32: at `angle = 1`
`rotX`, `rotY` and `rotZ` hold the sine `0.841470957`, while `fromQuat` of
`fromAngleAxisFast(1, e)` holds `0.841471016` in the same entries. -/
theorem rot_axes_binary32_counterexample :
    rotX SrMath.binary32 1 id
      = ⟨1, 0, 0, 0, ⟨141637 / 2 ^ 18⟩, ⟨-3529385 / 2 ^ 22⟩,
          0, ⟨3529385 / 2 ^ 22⟩, ⟨141637 / 2 ^ 18⟩⟩ ∧
    fromQuat (SrQuaternion.fromAngleAxisFast SrMath.binary32 1 ⟨1, 0, 0⟩)
      = ⟨1, 0, 0, 0, ⟨141637 / 2 ^ 18⟩, ⟨-14117541 / 2 ^ 24⟩,
          0, ⟨14117541 / 2 ^ 24⟩, ⟨141637 / 2 ^ 18⟩⟩ ∧
    rotX SrMath.binary32 1 id
      ≠ fromQuat (SrQuaternion.fromAngleAxisFast SrMath.binary32 1 ⟨1, 0, 0⟩) ∧
    rotY SrMath.binary32 1 id
      ≠ fromQuat (SrQuaternion.fromAngleAxisFast SrMath.binary32 1 ⟨0, 1, 0⟩) ∧
    rotZ SrMath.binary32 1 id
      ≠ fromQuat (SrQuaternion.fromAngleAxisFast SrMath.binary32 1 ⟨0, 0, 1⟩) := by
  decide!

end SrMatrix33
